import Mathlib

/-!
HotSpot stack frames (`runtime/frame.cpp` with its x86 part).

A shallow embedding of the frame validator, the frame walker, the
deoptimization patch, the interpreter position bookkeeping, the oop visitors of
interpreted, entry and code-blob frames, and the profiler's search for the
first Java frame.

Conventions of the embedding.

* An address (C++ `address`, `intptr_t*`) is a byte address, an `Int` taken as a
  mathematical integer; `NULL` is `0`.
  Pointer arithmetic on `intptr_t*` moves in steps of `wordSize` bytes.
* The stack is a map from byte addresses to the word stored there.
* `assert(...)` of the source is kept: a failing assertion is `Except.error`
  carrying the assertion's message, a normal return is `Except.ok`.
* Collaborators that live outside the translated files (the code cache, the
  interpreter's code range, the stub routines, blob metadata, the layout
  constants of `frame_x86.hpp`) are fields of `VM` and `CodeBlob`.
-/

namespace Hotspot

/-- The null pointer. -/
def NULL : Int := 0

/-- The thread states `JavaThreadState` that `frame::deoptimize` tells apart. -/
inductive JavaThreadState where
  | _thread_in_native
  | _thread_in_native_trans
  | _thread_in_vm
  | _thread_in_Java
  | _thread_blocked
  | _thread_blocked_trans
deriving DecidableEq, Repr

/-- The part of a `JavaThread` the frame code looks at; `is_current` says whether
it is `Thread::current()`, `orig_thread_state` is the state recorded at the
start of the safepoint, the `last_Java_*` fields are the thread's anchor. -/
structure JavaThread where
  stack_base : Int := 0
  stack_size : Int := 0
  is_current : Bool := true
  must_deopt_id : Int := 0
  is_deopt_suspend : Bool := false
  orig_thread_state : JavaThreadState := JavaThreadState._thread_in_Java
  last_Java_sp : Int := 0
  last_Java_fp : Int := 0
  last_Java_pc : Int := 0

/-- Metadata of a code region (`CodeBlob`, and `nmethod` when `is_nmethod`). -/
structure CodeBlob where
  ident : Nat
  is_nmethod : Bool := false
  is_adapter_blob : Bool := false
  is_runtime_stub : Bool := false
  is_java_method : Bool := false
  is_native_method : Bool := false
  frame_size : Int := 0
  is_frame_complete_at : Int → Bool := fun _ => true
  code_contains : Int → Bool := fun _ => true
  has_oop_maps : Bool := false
  caller_must_gc_arguments : JavaThread → Bool := fun _ => false
  is_method_handle_return : Int → Bool := fun _ => false
  is_deopt_entry : Int → Bool := fun _ => false
  is_deopt_mh_entry : Int → Bool := fun _ => false
  deopt_handler_begin : Int := 0
  deopt_mh_handler_begin : Int := 0
  is_at_poll_return : Int → Bool := fun _ => false
  is_marked_for_deoptimization : Bool := false
  can_be_deoptimized : Bool := false
  is_deopt_pc : Int → Bool := fun _ => false

/-- Pointer identity of two optional blobs (`_cb == rcb`). -/
def same_blob : Option CodeBlob → Option CodeBlob → Bool
  | none, none => true
  | some a, some b => a.ident == b.ident
  | _, _ => false

/-- The types a parameter of a signature can have (`BasicType`). -/
inductive BasicType where
  | T_BOOLEAN
  | T_CHAR
  | T_FLOAT
  | T_DOUBLE
  | T_BYTE
  | T_SHORT
  | T_INT
  | T_LONG
  | T_OBJECT
  | T_ARRAY
deriving DecidableEq, Repr

/-- The profiling data of a method (`methodDataOop`): the conversions between a
data pointer and a data index. -/
structure methodDataOop where
  di_to_dp : Int → Int := fun di => di
  dp_to_di : Int → Int := fun dp => dp

/-- The part of a method (`methodOop`) the frame code looks at: the conversions
between a bytecode pointer and a bytecode index, the profiling data, if any,
the parameter types of its signature in declaration order, whether it is
static or native, and, for a bytecode index at an invoke instruction, the
signature of the call and whether it has a receiver (what
`Bytecode_invoke_check(m, bci)` reports when `is_valid()`). -/
structure methodOop where
  is_perm : Bool := true
  is_method : Bool := true
  bci_from : Int → Int := fun bcp => bcp
  bcp_from : Int → Int := fun bci => bci
  method_data : Option methodDataOop := none
  signature : List BasicType := []
  is_static : Bool := false
  is_native : Bool := false
  invoke_at : Int → Option (List BasicType × Bool) := fun _ => none

/-- The call wrapper's anchor (`JavaFrameAnchor`). -/
structure JavaFrameAnchor where
  last_Java_sp : Int := 0
  last_Java_fp : Int := 0
  last_Java_pc : Int := 0

/-- The record an entry frame links to (`JavaCallWrapper`): its anchor, the
method being called, and the addresses its own `oops_do` visits (its handle
block). -/
structure JavaCallWrapper where
  anchor : JavaFrameAnchor := {}
  callee_method : methodOop := {}
  handle_block : List Int := []

/-- The three values of `frame::deopt_state`. -/
inductive deopt_state where
  | not_deoptimized
  | is_deoptimized
  | unknown
deriving DecidableEq, Repr

/-- The fields of a `frame` object. -/
structure frame where
  _sp : Int := 0
  _pc : Int := 0
  _cb : Option CodeBlob := none
  _deopt_state : deopt_state := deopt_state.unknown
  _fp : Int := 0
  _unextended_sp : Int := 0

/-- The register-location map `RegisterMap`: for each register the stack address
where its value was saved (`_location`, meaningful where `_location_valid`),
the update mode, and the flag `include_argument_oops`. -/
structure RegisterMap where
  _thread : JavaThread := {}
  _update_map : Bool := false
  _include_argument_oops : Bool := false
  _location : Nat → Int := fun _ => 0
  _location_valid : Nat → Bool := fun _ => false

/-- Modelled from the spec: the per-frame "original PC" side table of a compiled
unit (`nmethod::set_original_pc`, `nmethod::get_original_pc` and
`nmethod::get_deopt_original_pc` are not among the source files).  The table of
the unit `ident` is keyed by the frame's identity, which on x86 is its
unextended stack pointer (`verify_deopt_original_pc` looks a frame up by
`_unextended_sp` alone); `NULL` means nothing is recorded.  `frame::deoptimize`
stores the frame's pc there right before `patch_pc`; the table is consulted for
a frame whose pc is a deoptimization re-entry point.  Together with the table
the machine state holds the stack words and the call wrappers. -/
structure Machine where
  mem : Int → Int := fun _ => 0
  orig_pc : Nat → Int → Int := fun _ _ => 0
  wrappers : Int → JavaCallWrapper := fun _ => {}

/-- The services and constants the frame code consumes from the rest of the VM. -/
structure VM where
  wordSize : Int := 8
  link_offset : Int := 0
  return_addr_offset : Int := 1
  sender_sp_offset : Int := 2
  entry_frame_call_wrapper_offset : Int := 2
  interpreter_frame_sender_sp_offset : Int := -1
  interpreter_frame_method_offset : Int := -3
  interpreter_frame_mdx_offset : Int := -4
  interpreter_frame_cache_offset : Int := -5
  interpreter_frame_locals_offset : Int := -6
  interpreter_frame_bcx_offset : Int := -7
  interpreter_frame_initial_sp_offset : Int := -8
  stackElementSize : Int := 8
  find_blob : Int → Option CodeBlob := fun _ => none
  find_blob_unsafe : Int → Option CodeBlob := fun _ => none
  interpreter_contains : Int → Bool := fun _ => false
  returns_to_call_stub : Int → Bool := fun _ => false
  ricochet_blob : Option CodeBlob := none
  returns_to_bounce_addr : Int → Bool := fun _ => false
  is_valid_method : Int → Bool := fun _ => false
  method_max_stack : Int → Int := fun _ => 0
  validate_bci_from_bcx : Int → Int → Int := fun _ _ => 0
  space_is_aligned : Int → Bool := fun _ => true
  is_permanent : Int → Bool := fun _ => true
  NeedsDeoptSuspend : Bool := false
  ProfileInterpreter : Bool := true
  is_bci : Int → Bool := fun bcx => decide (0 ≤ bcx ∧ bcx < 65536)
  method_at : Int → methodOop := fun _ => {}
  is_at_safepoint : Bool := false
  COMPILER2 : Bool := true
  AMD64 : Bool := true
  rbp_reg : Nat := 0
  rbp_next_reg : Nat := 1
  update_register_map : frame → RegisterMap → RegisterMap := fun _ m => m
  ricochet_frame_sender : Machine → frame → RegisterMap → frame × RegisterMap :=
    fun _ F m => (F, m)
  type2size : BasicType → Int := fun t =>
    match t with
    | BasicType.T_LONG => 2
    | BasicType.T_DOUBLE => 2
    | _ => 1
  expr_offset_in_bytes : Int → Int := fun i => 8 * i
  stackElementWords : Int := 1
  interpreter_frame_expression_stack_direction : Int := -1
  interpreter_frame_expression_stack : Machine → frame → Int := fun _ F => F._fp
  interpreter_frame_tos_address : Machine → frame → Int := fun _ F => F._sp
  ricochet_frame_oops_do : Machine → frame → RegisterMap → List Int := fun _ _ _ => []
  oop_map_oops_do : Machine → frame → RegisterMap → List Int := fun _ _ _ => []
  preserve_callee_argument_oops : CodeBlob → frame → RegisterMap → List Int := fun _ _ _ => []
  local_offset_in_bytes : Int → Int := fun i => -(8 * i)

namespace frame

/-- Address of the `index`-th word relative to the frame pointer: `addr_at(index)`,
that is `&fp()[index]`. -/
def addr_at (vm : VM) (F : frame) (index : Int) : Int :=
  F._fp + index * vm.wordSize

/-- The word at `addr_at(index)`: `at(index)`. -/
def at_ (vm : VM) (M : Machine) (F : frame) (index : Int) : Int :=
  M.mem (F.addr_at vm index)

/-- The frame's identity, `id()`: the unextended stack pointer. -/
def id (F : frame) : Int := F._unextended_sp

/-- Whether the pc lies in the interpreter: `is_interpreted_frame()`. -/
def is_interpreted_frame (vm : VM) (F : frame) : Bool :=
  vm.interpreter_contains F._pc

/-- Modelled from the spec: `frame::is_entry_frame` (in `frame.inline.hpp`, not
among the source files).  Kind classification depends only on the program
counter (§4.1); the pc that marks an entry frame is the call stub's return
address, the test `safe_for_sender` applies to a candidate sender before it
reads that sender's call wrapper. -/
def is_entry_frame (vm : VM) (F : frame) : Bool :=
  vm.returns_to_call_stub F._pc

/-- Whether the frame is a ricochet frame: `is_ricochet_frame()`. -/
def is_ricochet_frame (vm : VM) (F : frame) : Bool :=
  match vm.ricochet_blob with
  | none => false
  | some rcb => same_blob F._cb (some rcb) && vm.returns_to_bounce_addr F._pc

/-- Whether the frame is compiled Java code: `is_compiled_frame()`. -/
def is_compiled_frame (F : frame) : Bool :=
  match F._cb with
  | some cb => cb.is_nmethod && cb.is_java_method
  | none => false

/-- Whether the frame runs a runtime stub: `is_runtime_frame()`. -/
def is_runtime_frame (F : frame) : Bool :=
  match F._cb with
  | some cb => cb.is_runtime_stub
  | none => false

/-- Interpreted or compiled: `is_java_frame()`. -/
def is_java_frame (vm : VM) (F : frame) : Bool :=
  if F.is_interpreted_frame vm then true
  else if F.is_compiled_frame then true
  else false

/-- Address of the slot holding the entry frame's call wrapper. -/
def entry_frame_call_wrapper_addr (vm : VM) (F : frame) : Int :=
  F.addr_at vm vm.entry_frame_call_wrapper_offset

/-- Modelled from the spec: `frame::entry_frame_call_wrapper` (in
`frame_x86.inline.hpp`, not among the source files): the call-wrapper record is
linked from the entry frame, through a slot at a fixed offset from its frame
pointer. -/
def entry_frame_call_wrapper (vm : VM) (M : Machine) (F : frame) : Int :=
  M.mem (F.entry_frame_call_wrapper_addr vm)

/-- Whether the entry frame is the first one: `entry_frame_is_first()`. -/
def entry_frame_is_first (vm : VM) (M : Machine) (F : frame) : Bool :=
  (M.wrappers (F.entry_frame_call_wrapper vm M)).anchor.last_Java_sp == NULL

/-- Modelled from the spec: `frame::is_first_frame` (in `frame.inline.hpp`, not
among the source files): the walk terminates at an entry frame whose call
wrapper reports no further activation. -/
def is_first_frame (vm : VM) (M : Machine) (F : frame) : Bool :=
  F.is_entry_frame vm && F.entry_frame_is_first vm M

/-- Modelled from the spec: `nmethod::get_original_pc` (not among the source
files): the raw read of the side table of the unit `nm`, keyed by the frame's
unextended stack pointer. -/
def get_original_pc (M : Machine) (nm : CodeBlob) (F : frame) : Int :=
  M.orig_pc nm.ident F._unextended_sp

/-- Modelled from the spec: `nmethod::set_original_pc` (not among the source
files): records `pc` as the original PC of the frame in the side table of `nm`. -/
def set_original_pc (M : Machine) (nm : CodeBlob) (F : frame) (pc : Int) : Machine :=
  { M with orig_pc := fun i k =>
      if i = nm.ident ∧ k = F._unextended_sp then pc else M.orig_pc i k }

/-- Modelled from the spec: `nmethod::get_deopt_original_pc` (not among the source
files): if the frame's pc is a deoptimization re-entry point of its compiled
unit, the original PC recorded for the frame in the unit's side table (§4.2);
`NULL` when the frame has no compiled unit, when its pc is not a
deoptimization re-entry point, or when nothing is recorded for it. -/
def get_deopt_original_pc (M : Machine) (F : frame) : Int :=
  match F._cb with
  | none => NULL
  | some cb => if cb.is_nmethod && cb.is_deopt_pc F._pc then get_original_pc M cb F else NULL

/-- The debug check `verify_deopt_original_pc(nm, unextended_sp, is_method_handle_return)`.
`insts_contains` of the nmethod is its `code_contains`. -/
def verify_deopt_original_pc (M : Machine) (nm : CodeBlob) (unextended_sp : Int)
    (is_method_handle_return : Bool) : Except String Unit :=
  let fr : frame := { _unextended_sp := unextended_sp }
  let original_pc := get_original_pc M nm fr
  if !nm.code_contains original_pc then .error "original PC must be in nmethod"
  else if nm.is_method_handle_return original_pc != is_method_handle_return then .error "must be"
  else .ok ()

/-- The unextended-SP adjustment `frame::adjust_unextended_sp()`. -/
def adjust_unextended_sp (M : Machine) (F : frame) : Except String frame :=
  match F._cb with
  | none => .ok F
  | some cb =>
    if cb.is_nmethod then
      if cb.is_deopt_mh_entry F._pc then
        match verify_deopt_original_pc M cb F._fp true with
        | .error e => .error e
        | .ok _ => .ok { F with _unextended_sp := F._fp }
      else if cb.is_deopt_entry F._pc then
        match verify_deopt_original_pc M cb F._unextended_sp false with
        | .error e => .error e
        | .ok _ => .ok F
      else if cb.is_method_handle_return F._pc then
        .ok { F with _unextended_sp := F._fp }
      else .ok F
    else .ok F

/-- The tail shared by the frame constructors: once the pc's code region is
resolved and the unextended SP adjusted, a recorded original PC replaces the pc
and decides the deopt state. -/
def ctor_finish (M : Machine) (F : frame) : Except String frame :=
  match adjust_unextended_sp M F with
  | .error e => .error e
  | .ok G =>
    let original_pc := get_deopt_original_pc M G
    if original_pc ≠ NULL then
      .ok { G with _pc := original_pc, _deopt_state := deopt_state.is_deoptimized }
    else
      .ok { G with _deopt_state := deopt_state.not_deoptimized }

/-- Modelled from the spec: the constructor `frame(sp, unextended_sp, fp, pc)` (in
`frame_x86.inline.hpp`, not among the source files).  The code identity is the
region containing the pc (§3); then the unextended-SP adjustment runs and, for
a pc that is a deoptimization re-entry, the original PC is fetched from the
side table (§4.2); the deopt state follows (§4.1). -/
def ctor4 (vm : VM) (M : Machine) (sp unextended_sp fp pc : Int) : Except String frame :=
  ctor_finish M { _sp := sp, _unextended_sp := unextended_sp, _fp := fp, _pc := pc,
                  _cb := vm.find_blob pc }

/-- Modelled from the spec: the constructor `frame(sp, fp, pc)` (in
`frame_x86.inline.hpp`, not among the source files): as `ctor4`, the unextended
stack pointer starting equal to the stack pointer. -/
def ctor3 (vm : VM) (M : Machine) (sp fp pc : Int) : Except String frame :=
  ctor4 vm M sp sp fp pc

/-- Modelled from the spec: the constructor `frame(sp, fp)` (in
`frame_x86.inline.hpp`, not among the source files): as `ctor3`, the pc being
the return address, the word immediately below the stack pointer (§4.2). -/
def ctor2 (vm : VM) (M : Machine) (sp fp : Int) : Except String frame :=
  ctor3 vm M sp fp (M.mem (sp - vm.wordSize))

/-- The frame as the constructor `frame(sp, unextended_sp, fp, pc)` has it before
the unextended-SP adjustment: the four values and the code identity the pc
resolves to. -/
def raw_frame (vm : VM) (sp unextended_sp fp pc : Int) : frame :=
  { _sp := sp, _unextended_sp := unextended_sp, _fp := fp, _pc := pc, _cb := vm.find_blob pc }

/-- Whether the `DEBUG_ONLY` verification inside `adjust_unextended_sp` passes for
this frame: at a method-handle deoptimization entry the original PC recorded
under the frame-pointer slot, at an ordinary deoptimization entry the one
recorded under the unextended sp, lies in the nmethod and is, respectively is
not, a method-handle return site.  For any other frame there is nothing to
verify. -/
def deopt_record_verified (M : Machine) (F : frame) : Bool :=
  match F._cb with
  | none => true
  | some cb =>
    if cb.is_nmethod then
      if cb.is_deopt_mh_entry F._pc then
        match verify_deopt_original_pc M cb F._fp true with
        | .error _ => false
        | .ok _ => true
      else if cb.is_deopt_entry F._pc then
        match verify_deopt_original_pc M cb F._unextended_sp false with
        | .error _ => false
        | .ok _ => true
      else true
    else true

end frame

/-- What a validator run did: the stack addresses it read, in order, and how it
ended (a boolean, or the message of a failed assertion). -/
structure Probe where
  reads : List Int
  result : Except String Bool

namespace frame

/-- The sanity checks of `frame::is_interpreted_frame_valid(thread)` (template
interpreter).  `x & (wordSize-1)` is `x % wordSize`, the word size being a
power of two; `fp() - sp()` counts words. -/
def is_interpreted_frame_valid (vm : VM) (M : Machine) (thread : JavaThread) (F : frame) :
    Probe :=
  if !F.is_interpreted_frame vm then ⟨[], .error "Not an interpreted frame"⟩
  else if F._fp == 0 || F._fp % vm.wordSize != 0 then ⟨[], .ok false⟩
  else if F._sp == 0 || F._sp % vm.wordSize != 0 then ⟨[], .ok false⟩
  else if F._fp + vm.interpreter_frame_initial_sp_offset * vm.wordSize < F._sp then
    ⟨[], .ok false⟩
  else if F._fp ≤ F._sp then ⟨[], .ok false⟩
  else
    let m_addr := F.addr_at vm vm.interpreter_frame_method_offset
    let m := M.mem m_addr
    if !vm.is_valid_method m then ⟨[m_addr], .ok false⟩
    else if (F._fp - F._sp) / vm.wordSize > 1024 + vm.method_max_stack m * vm.stackElementSize
    then ⟨[m_addr], .ok false⟩
    else
      let bcx_addr := F.addr_at vm vm.interpreter_frame_bcx_offset
      let bcx := M.mem bcx_addr
      if vm.validate_bci_from_bcx m bcx < 0 then ⟨[m_addr, bcx_addr], .ok false⟩
      else
        let cp_addr := F.addr_at vm vm.interpreter_frame_cache_offset
        let cp := M.mem cp_addr
        if cp == NULL || !vm.space_is_aligned cp || !vm.is_permanent cp then
          ⟨[m_addr, bcx_addr, cp_addr], .ok false⟩
        else
          let locals_addr := F.addr_at vm vm.interpreter_frame_locals_offset
          let locals := M.mem locals_addr
          if locals > thread.stack_base || locals < F._fp then
            ⟨[m_addr, bcx_addr, cp_addr, locals_addr], .ok false⟩
          else ⟨[m_addr, bcx_addr, cp_addr, locals_addr], .ok true⟩

/-- The part of `frame::safe_for_sender` that validates the candidate sender
(`sender_sp`, `sender_pc`), from "We must always be able to find a recognizable
pc" to the final `return true`.  `reads0` are the stack reads made so far. -/
def safe_for_sender_candidate (vm : VM) (M : Machine) (thread : JavaThread)
    (sender_sp sender_pc : Int) (reads0 : List Int) : Probe :=
  match vm.find_blob_unsafe sender_pc with
  | none => ⟨reads0, .ok false⟩
  | some sender_blob =>
    if sender_pc == NULL then ⟨reads0, .ok false⟩
    else if vm.interpreter_contains sender_pc then
      let saved_fp_addr := sender_sp - vm.sender_sp_offset * vm.wordSize
      let saved_fp := M.mem saved_fp_addr
      let saved_fp_safe := decide (saved_fp ≤ thread.stack_base) && decide (saved_fp > sender_sp)
      if !saved_fp_safe then ⟨reads0 ++ [saved_fp_addr], .ok false⟩
      else
        match ctor3 vm M sender_sp saved_fp sender_pc with
        | .error e => ⟨reads0 ++ [saved_fp_addr], .error e⟩
        | .ok sender =>
          let p := sender.is_interpreted_frame_valid vm M thread
          ⟨reads0 ++ [saved_fp_addr] ++ p.reads, p.result⟩
    else if !sender_blob.code_contains sender_pc then ⟨reads0, .ok false⟩
    else if sender_blob.is_adapter_blob then ⟨reads0, .ok false⟩
    else if vm.returns_to_call_stub sender_pc then
      let saved_fp_addr := sender_sp - vm.sender_sp_offset * vm.wordSize
      let saved_fp := M.mem saved_fp_addr
      let saved_fp_safe := decide (saved_fp ≤ thread.stack_base) && decide (saved_fp > sender_sp)
      if !saved_fp_safe then ⟨reads0 ++ [saved_fp_addr], .ok false⟩
      else
        match ctor3 vm M sender_sp saved_fp sender_pc with
        | .error e => ⟨reads0 ++ [saved_fp_addr], .error e⟩
        | .ok sender =>
          let jcw := sender.entry_frame_call_wrapper vm M
          let jcw_safe := decide (jcw ≤ thread.stack_base) && decide (jcw > sender._fp)
          ⟨reads0 ++ [saved_fp_addr, sender.entry_frame_call_wrapper_addr vm], .ok jcw_safe⟩
    else if sender_blob.frame_size == 0 then
      if sender_blob.is_nmethod then ⟨reads0, .error "should count return Int at least"⟩
      else ⟨reads0, .ok false⟩
    else if !sender_blob.is_nmethod then ⟨reads0, .error "Impossible call chain"⟩
    else ⟨reads0, .ok true⟩

/-- The frame validator `frame::safe_for_sender(thread)`. -/
def safe_for_sender (vm : VM) (M : Machine) (thread : JavaThread) (F : frame) : Probe :=
  let sp := F._sp
  let fp := F._fp
  let unextended_sp := F._unextended_sp
  let sp_safe := decide (sp ≤ thread.stack_base) &&
    decide (sp ≥ thread.stack_base - thread.stack_size)
  if !sp_safe then ⟨[], .ok false⟩
  else
    let unextended_sp_safe := decide (unextended_sp ≤ thread.stack_base) &&
      decide (unextended_sp ≥ sp)
    if !unextended_sp_safe then ⟨[], .ok false⟩
    else
      let fp_safe := decide (fp ≤ thread.stack_base) && decide (fp > sp)
      match F._cb with
      | some cb =>
        if !cb.is_frame_complete_at F._pc &&
            (cb.is_nmethod || cb.is_adapter_blob || cb.is_runtime_stub) then ⟨[], .ok false⟩
        else if F.is_entry_frame vm then
          if !fp_safe then ⟨[], .ok false⟩
          else
            let jcw := F.entry_frame_call_wrapper vm M
            let jcw_safe := decide (jcw ≤ thread.stack_base) && decide (jcw > fp)
            ⟨[F.entry_frame_call_wrapper_addr vm], .ok jcw_safe⟩
        else if F.is_interpreted_frame vm then
          if !fp_safe then ⟨[], .ok false⟩
          else
            let sender_pc_addr := F._fp + vm.return_addr_offset * vm.wordSize
            let sender_pc := M.mem sender_pc_addr
            let sender_sp := F.addr_at vm vm.sender_sp_offset
            safe_for_sender_candidate vm M thread sender_sp sender_pc [sender_pc_addr]
        else
          let sender_sp := F._unextended_sp + cb.frame_size * vm.wordSize
          let sender_pc_addr := sender_sp - 1 * vm.wordSize
          let sender_pc := M.mem sender_pc_addr
          safe_for_sender_candidate vm M thread sender_sp sender_pc [sender_pc_addr]
      | none =>
        if !fp_safe then ⟨[], .ok false⟩
        else
          let ra_addr := F._fp + vm.return_addr_offset * vm.wordSize
          if M.mem ra_addr == NULL then ⟨[ra_addr], .ok false⟩
          else ⟨[ra_addr], .ok true⟩

end frame

namespace RegisterMap

/-- The setter `set_include_argument_oops(f)`. -/
def set_include_argument_oops (map : RegisterMap) (f : Bool) : RegisterMap :=
  { map with _include_argument_oops := f }

/-- Modelled from the spec: `RegisterMap::set_location` (in `frame.hpp`, not among
the source files): records the stack address where the register's value was
saved. -/
def set_location (map : RegisterMap) (reg : Nat) (loc : Int) : RegisterMap :=
  { map with
    _location := fun r => if r = reg then loc else map._location r
    _location_valid := fun r => if r = reg then true else map._location_valid r }

/-- The reset `RegisterMap::clear()`; `pd_clear` and `pd_initialize` do nothing
on x86. -/
def clear (map : RegisterMap) : RegisterMap :=
  let m := map.set_include_argument_oops true
  if m._update_map then { m with _location_valid := fun _ => false } else m

end RegisterMap

namespace frame

/-- The interpreted or native frame's raw sender sp, `sender_sp()`: `addr_at(sender_sp_offset)`. -/
def sender_sp (vm : VM) (F : frame) : Int := F.addr_at vm vm.sender_sp_offset

/-- The saved frame pointer `link()`: the word at `addr_at(link_offset)`. -/
def link (vm : VM) (M : Machine) (F : frame) : Int := F.at_ vm M vm.link_offset

/-- The return address `sender_pc()`: the word at `addr_at(return_addr_offset)`. -/
def sender_pc (vm : VM) (M : Machine) (F : frame) : Int := F.at_ vm M vm.return_addr_offset

/-- The callee-visible sender sp `interpreter_frame_sender_sp()` (template interpreter). -/
def interpreter_frame_sender_sp (vm : VM) (M : Machine) (F : frame) : Except String Int :=
  if !F.is_interpreted_frame vm then .error "interpreted frame expected"
  else .ok (F.at_ vm M vm.interpreter_frame_sender_sp_offset)

/-- Recording where the frame pointer was saved: `update_map_with_saved_link`. -/
def update_map_with_saved_link (vm : VM) (map : RegisterMap) (link_addr : Int) : RegisterMap :=
  let m := map.set_location vm.rbp_reg link_addr
  if vm.AMD64 then m.set_location vm.rbp_next_reg link_addr else m

/-- The sender of an entry frame: `frame::sender_for_entry_frame(map)`. -/
def sender_for_entry_frame (vm : VM) (M : Machine) (map : RegisterMap) (F : frame) :
    Except String (frame × RegisterMap) :=
  let jfa := (M.wrappers (F.entry_frame_call_wrapper vm M)).anchor
  if F.entry_frame_is_first vm M then .error "next Java fp must be non zero"
  else if !decide (jfa.last_Java_sp > F._sp) then .error "must be above this frame on stack"
  else
    let map1 := map.clear
    if !map1._include_argument_oops then .error "should be set by clear"
    else if jfa.last_Java_pc ≠ NULL then
      match ctor3 vm M jfa.last_Java_sp jfa.last_Java_fp jfa.last_Java_pc with
      | .error e => .error e
      | .ok fr => .ok (fr, map1)
    else
      match ctor2 vm M jfa.last_Java_sp jfa.last_Java_fp with
      | .error e => .error e
      | .ok fr => .ok (fr, map1)

/-- The sender of an interpreted frame: `frame::sender_for_interpreter_frame(map)`. -/
def sender_for_interpreter_frame (vm : VM) (M : Machine) (map : RegisterMap) (F : frame) :
    Except String (frame × RegisterMap) :=
  let sender_sp := F.sender_sp vm
  match F.interpreter_frame_sender_sp vm M with
  | .error e => .error e
  | .ok unextended_sp =>
    let map1 :=
      if vm.COMPILER2 && map._update_map then
        update_map_with_saved_link vm map (F.addr_at vm vm.link_offset)
      else map
    match ctor4 vm M sender_sp unextended_sp (F.link vm M) (F.sender_pc vm M) with
    | .error e => .error e
    | .ok fr => .ok (fr, map1)

/-- The values `frame::sender_for_compiled_frame` computes for the sender: its
stack pointer, the return address and the saved frame pointer. -/
structure CompiledSender where
  sender_sp : Int
  sender_pc : Int
  saved_fp : Int

/-- The three values as the source computes them:
`sender_sp = unextended_sp() + _cb->frame_size()`, `sender_pc = *(sender_sp-1)`,
`saved_fp = *(sender_sp - sender_sp_offset)`. -/
def compiled_sender_values (vm : VM) (M : Machine) (F : frame) (cb : CodeBlob) : CompiledSender :=
  let sender_sp := F._unextended_sp + cb.frame_size * vm.wordSize
  { sender_sp := sender_sp
    sender_pc := M.mem (sender_sp - 1 * vm.wordSize)
    saved_fp := M.mem (sender_sp - vm.sender_sp_offset * vm.wordSize) }

/-- What `frame::sender_for_compiled_frame` does to the map under
`if (map->update_map())`.  Of what `OopMapSet::update_register_map` does to the
map only the register locations are taken over. -/
def compiled_sender_map (vm : VM) (map : RegisterMap) (F : frame) (cb : CodeBlob)
    (saved_fp_addr : Int) : RegisterMap :=
  if map._update_map then
    let m1 := map.set_include_argument_oops (cb.caller_must_gc_arguments map._thread)
    let m2 :=
      if cb.has_oop_maps then
        let u := vm.update_register_map F m1
        { m1 with _location := u._location, _location_valid := u._location_valid }
      else m1
    update_map_with_saved_link vm m2 saved_fp_addr
  else map

/-- The sender of a compiled frame: `frame::sender_for_compiled_frame(map)`. -/
def sender_for_compiled_frame (vm : VM) (M : Machine) (map : RegisterMap) (F : frame) :
    Except String (frame × RegisterMap) :=
  if F.is_ricochet_frame vm then .error "caller must handle this"
  else
    match F._cb with
    | none => .error "null code blob"
    | some cb =>
      if !decide (cb.frame_size ≥ 0) then .error "must have non-zero frame size"
      else
        let v := compiled_sender_values vm M F cb
        let sender_sp := v.sender_sp
        let unextended_sp := sender_sp
        let sender_pc := v.sender_pc
        let saved_fp_addr := sender_sp - vm.sender_sp_offset * vm.wordSize
        let map1 := compiled_sender_map vm map F cb saved_fp_addr
        if sender_sp == F._sp then .error "must have changed"
        else
          match ctor4 vm M sender_sp unextended_sp (M.mem saved_fp_addr) sender_pc with
          | .error e => .error e
          | .ok fr => .ok (fr, map1)

/-- The sender of a ricochet frame: `frame::sender_for_ricochet_frame(map)`; the
resolver `MethodHandles::ricochet_frame_sender` is external. -/
def sender_for_ricochet_frame (vm : VM) (M : Machine) (map : RegisterMap) (F : frame) :
    Except String (frame × RegisterMap) :=
  if !F.is_ricochet_frame vm then .error "is_ricochet_frame"
  else .ok (vm.ricochet_frame_sender M F map)

/-- The frame walker's step: `frame::sender(map)`. -/
def sender (vm : VM) (M : Machine) (map : RegisterMap) (F : frame) :
    Except String (frame × RegisterMap) :=
  let map0 := map.set_include_argument_oops false
  if F.is_entry_frame vm then sender_for_entry_frame vm M map0 F
  else if F.is_interpreted_frame vm then sender_for_interpreter_frame vm M map0 F
  else if !same_blob F._cb (vm.find_blob F._pc) then .error "Must be the same"
  else if F.is_ricochet_frame vm then sender_for_ricochet_frame vm M map0 F
  else if F._cb.isSome then sender_for_compiled_frame vm M map0 F
  else
    match ctor3 vm M (F.sender_sp vm) (F.link vm M) (F.sender_pc vm M) with
    | .error e => .error e
    | .ok fr => .ok (fr, map0)

/-- Repeated `sender()`: the frame reached after `k` steps of the walk. -/
def walk (vm : VM) (M : Machine) : Nat → RegisterMap → frame → Except String (frame × RegisterMap)
  | 0, map, F => .ok (F, map)
  | k + 1, map, F =>
    match sender vm M map F with
    | .error e => .error e
    | .ok (S, map1) => walk vm M k map1 S

/-- The tester `is_deoptimized_frame()`. -/
def is_deoptimized_frame (F : frame) : Except String Bool :=
  if F._deopt_state == deopt_state.unknown then .error "not answerable"
  else .ok (F._deopt_state == deopt_state.is_deoptimized)

/-- The constructor `RegisterMap(thread, update_map)`. -/
def new_RegisterMap (thread : JavaThread) (update_map : Bool) : RegisterMap :=
  RegisterMap.clear { _thread := thread, _update_map := update_map }

/-- Modelled from the spec: `JavaThread::last_frame` (not among the source files):
the frame the thread's anchor describes, built the way `sender_for_entry_frame`
builds a frame from a call wrapper's anchor. -/
def last_frame (vm : VM) (M : Machine) (thread : JavaThread) : Except String frame :=
  if thread.last_Java_pc ≠ NULL then
    ctor3 vm M thread.last_Java_sp thread.last_Java_fp thread.last_Java_pc
  else ctor2 vm M thread.last_Java_sp thread.last_Java_fp

/-- Rewriting the physical return address: `frame::patch_pc(thread, pc)`. -/
def patch_pc (vm : VM) (M : Machine) (F : frame) (pc : Int) : Except String (Machine × frame) :=
  let M1 : Machine :=
    { M with mem := fun a => if a = F._sp - 1 * vm.wordSize then pc else M.mem a }
  let F1 : frame := { F with _cb := vm.find_blob pc }
  let original_pc := get_deopt_original_pc M1 F1
  if original_pc ≠ NULL then
    if original_pc ≠ F1._pc then .error "expected original PC to be stored before patching"
    else .ok (M1, { F1 with _deopt_state := deopt_state.is_deoptimized })
  else .ok (M1, { F1 with _deopt_state := deopt_state.not_deoptimized, _pc := pc })

/-- The register-window race guard at the head of `frame::deoptimize`
(`if (NeedsDeoptSuspend && Thread::current() != thread)`): `some thread1` when
the function returns from inside the guard (the request is ignored or
deferred, leaving the thread as `thread1`), `none` when control goes on to the
patch. -/
def deopt_suspend_guard (vm : VM) (M : Machine) (thread : JavaThread) (F : frame) :
    Except String (Option JavaThread) :=
  if vm.NeedsDeoptSuspend && !thread.is_current then
    if !vm.is_at_safepoint then
      .error "patching other threads for deopt may only occur at a safepoint"
    else if F.id == thread.must_deopt_id then
      if !thread.is_deopt_suspend then .error "lost suspension" else .ok (some thread)
    else if thread.orig_thread_state == JavaThreadState._thread_in_native ||
        thread.orig_thread_state == JavaThreadState._thread_in_native_trans then
      match last_frame vm M thread with
      | .error e => .error e
      | .ok lf =>
        match sender vm M (new_RegisterMap thread false) lf with
        | .error e => .error e
        | .ok (at_risk, _) =>
          if F.id == at_risk.id then
            .ok (some { thread with must_deopt_id := F.id, is_deopt_suspend := true })
          else .ok none
    else .ok none
  else .ok none

/-- The loop `while (id() != check.id()) check = check.sender(&map)` of the debug
block that ends `frame::deoptimize`, run for at most `fuel` steps. -/
def find_frame_by_id (vm : VM) (M : Machine) (id : Int) :
    Nat → RegisterMap → frame → Except String frame
  | 0, _, check => if id != check.id then .error "out of fuel" else .ok check
  | n + 1, map, check =>
    if id != check.id then
      match sender vm M map check with
      | .error e => .error e
      | .ok (S, map1) => find_frame_by_id vm M id n map1 S
    else .ok check

/-- The debug block that ends `frame::deoptimize`: the frame with this frame's id,
found by walking from the thread's last frame, must be deoptimized. -/
def missed_deopt_check (vm : VM) (fuel : Nat) (M : Machine) (thread : JavaThread) (F : frame) :
    Except String Unit :=
  match last_frame vm M thread with
  | .error e => .error e
  | .ok lf =>
    match find_frame_by_id vm M F.id fuel (new_RegisterMap thread false) lf with
    | .error e => .error e
    | .ok check =>
      match check.is_deoptimized_frame with
      | .error e => .error e
      | .ok b => if b then .ok () else .error "missed deopt"

/-- The deopt handler `frame::deoptimize` selects for the call site at `pc`. -/
def deopt_handler (nm : CodeBlob) (pc : Int) : Int :=
  if nm.is_method_handle_return pc then nm.deopt_mh_handler_begin else nm.deopt_handler_begin

/-- Scheduling the deoptimization of a compiled activation:
`frame::deoptimize(thread)`.  The result is the machine, the thread and the
frame object afterwards. -/
def deoptimize (vm : VM) (fuel : Nat) (M : Machine) (thread : JavaThread) (F : frame) :
    Except String (Machine × JavaThread × frame) :=
  match F._cb with
  | none => .error "must be"
  | some nm =>
    if !nm.is_nmethod then .error "must be"
    else
      match deopt_suspend_guard vm M thread F with
      | .error e => .error e
      | .ok (some thread1) => .ok (M, thread1, F)
      | .ok none =>
        let deopt := deopt_handler nm F._pc
        let M1 := set_original_pc M nm F F._pc
        match patch_pc vm M1 F deopt with
        | .error e => .error e
        | .ok (M2, F2) =>
          match missed_deopt_check vm fuel M2 thread F2 with
          | .error e => .error e
          | .ok _ => .ok (M2, thread, F2)

/-- The machine `frame::deoptimize` leaves on its patch path: the frame's pc
recorded as its original PC in the nmethod's table (`set_original_pc`), the
word below the stack pointer overwritten with the selected handler. -/
def deopt_machine (vm : VM) (M : Machine) (F : frame) (nm : CodeBlob) : Machine :=
  { mem := fun a => if a = F._sp - 1 * vm.wordSize then deopt_handler nm F._pc else M.mem a
    orig_pc := fun i k => if i = nm.ident ∧ k = F._unextended_sp then F._pc else M.orig_pc i k
    wrappers := M.wrappers }

/-- The frame object `frame::deoptimize` leaves on its patch path when the
handler resolves to the nmethod.  The lookup of `patch_pc` sees the frame's
old pc: unless that is itself a deoptimization re-entry point (and not
`NULL`), nothing is found, the pc becomes the handler and the state
`not_deoptimized`. -/
def deopt_frame (F : frame) (nm : CodeBlob) : frame :=
  if nm.is_deopt_pc F._pc && F._pc != NULL then
    { F with _cb := some nm, _deopt_state := deopt_state.is_deoptimized }
  else
    { F with _cb := some nm, _deopt_state := deopt_state.not_deoptimized,
             _pc := deopt_handler nm F._pc }

/-- Storing a word on the stack. -/
def store (M : Machine) (a v : Int) : Machine :=
  { M with mem := fun x => if x = a then v else M.mem x }

/-- The stored bytecode position `interpreter_frame_bcx()`: the word in the bcx slot. -/
def interpreter_frame_bcx (vm : VM) (M : Machine) (F : frame) : Int :=
  F.at_ vm M vm.interpreter_frame_bcx_offset

/-- The stored profiling cursor `interpreter_frame_mdx()`: the word in the mdx slot. -/
def interpreter_frame_mdx (vm : VM) (M : Machine) (F : frame) : Int :=
  F.at_ vm M vm.interpreter_frame_mdx_offset

/-- The frame's method, `interpreter_frame_method()`. -/
def interpreter_frame_method (vm : VM) (M : Machine) (F : frame) : Except String methodOop :=
  if !F.is_interpreted_frame vm then .error "interpreted frame expected"
  else
    let m := vm.method_at (F.at_ vm M vm.interpreter_frame_method_offset)
    if !m.is_perm then .error "bad methodOop in interpreter frame"
    else if !m.is_method then .error "not a methodOop"
    else .ok m

/-- The setter `interpreter_frame_set_mdx(mdx)`. -/
def interpreter_frame_set_mdx (vm : VM) (M : Machine) (F : frame) (mdx : Int) :
    Except String Machine :=
  if !F.is_interpreted_frame vm then .error "Not an interpreted frame"
  else if !vm.ProfileInterpreter then .error "must be profiling interpreter"
  else .ok (store M (F.addr_at vm vm.interpreter_frame_mdx_offset) mdx)

/-- The setter `interpreter_frame_set_bcx(bcx)`, which converts the mdx in
parallel when the bcx changes between index and address form. -/
def interpreter_frame_set_bcx (vm : VM) (M : Machine) (F : frame) (bcx : Int) :
    Except String Machine :=
  if !F.is_interpreted_frame vm then .error "Not an interpreted frame"
  else if vm.ProfileInterpreter then
    let formerly_bci := vm.is_bci (interpreter_frame_bcx vm M F)
    let is_now_bci := vm.is_bci bcx
    let M1 := store M (F.addr_at vm vm.interpreter_frame_bcx_offset) bcx
    let mdx := interpreter_frame_mdx vm M1 F
    if mdx != 0 then
      if formerly_bci then
        if !is_now_bci then
          match interpreter_frame_method vm M1 F with
          | .error e => .error e
          | .ok m =>
            match m.method_data with
            | none => .error "mdo != NULL"
            | some mdo =>
              let mdi := mdx - 1
              let mdp := mdo.di_to_dp mdi
              interpreter_frame_set_mdx vm M1 F mdp
        else .ok M1
      else
        if is_now_bci then
          match interpreter_frame_method vm M1 F with
          | .error e => .error e
          | .ok m =>
            match m.method_data with
            | none => .error "mdo != NULL"
            | some mdo =>
              let mdi := mdo.dp_to_di mdx
              interpreter_frame_set_mdx vm M1 F (mdi + 1)
        else .ok M1
    else .ok M1
  else .ok (store M (F.addr_at vm vm.interpreter_frame_bcx_offset) bcx)

/-- The bytecode index `interpreter_frame_bci()`. -/
def interpreter_frame_bci (vm : VM) (M : Machine) (F : frame) : Except String Int :=
  if !F.is_interpreted_frame vm then .error "interpreted frame expected"
  else
    let bcx := interpreter_frame_bcx vm M F
    if vm.is_bci bcx then .ok bcx
    else
      match interpreter_frame_method vm M F with
      | .error e => .error e
      | .ok m => .ok (m.bci_from bcx)

/-- The bytecode pointer `interpreter_frame_bcp()`. -/
def interpreter_frame_bcp (vm : VM) (M : Machine) (F : frame) : Except String Int :=
  if !F.is_interpreted_frame vm then .error "interpreted frame expected"
  else
    let bcx := interpreter_frame_bcx vm M F
    if vm.is_bci bcx then
      match interpreter_frame_method vm M F with
      | .error e => .error e
      | .ok m => .ok (m.bcp_from bcx)
    else .ok bcx

/-- Before a collection: `frame::gc_prologue()`. -/
def gc_prologue (vm : VM) (M : Machine) (F : frame) : Except String Machine :=
  if F.is_interpreted_frame vm then
    match interpreter_frame_bci vm M F with
    | .error e => .error e
    | .ok bci => interpreter_frame_set_bcx vm M F bci
  else .ok M

/-- After a collection: `frame::gc_epilogue()`; `pd_gc_epilog` does nothing. -/
def gc_epilogue (vm : VM) (M : Machine) (F : frame) : Except String Machine :=
  if F.is_interpreted_frame vm then
    match interpreter_frame_bcp vm M F with
    | .error e => .error e
    | .ok bcp => interpreter_frame_set_bcx vm M F bcp
  else .ok M

/-- A collection's bracket around a frame: `gc_prologue()` then `gc_epilogue()`. -/
def gc_round_trip (vm : VM) (M : Machine) (F : frame) : Except String Machine :=
  match gc_prologue vm M F with
  | .error e => .error e
  | .ok M1 => gc_epilogue vm M1 F

/-- The bcx slot, the mdx slot and the method slot of the frame are three
different words. -/
def slots_distinct (vm : VM) (F : frame) : Prop :=
  F.addr_at vm vm.interpreter_frame_bcx_offset ≠ F.addr_at vm vm.interpreter_frame_mdx_offset ∧
  F.addr_at vm vm.interpreter_frame_method_offset ≠ F.addr_at vm vm.interpreter_frame_bcx_offset ∧
  F.addr_at vm vm.interpreter_frame_method_offset ≠ F.addr_at vm vm.interpreter_frame_mdx_offset

/-- Whether a parameter of this type holds a reference: `T_OBJECT` or `T_ARRAY`. -/
def is_reference_type : BasicType → Bool
  | BasicType.T_OBJECT => true
  | BasicType.T_ARRAY => true
  | _ => false

/-- Modelled from the spec: `ArgumentSizeComputer(signature).size()` (in
`signature.hpp`, not among the source files): the total slot size of the
parameters of the signature. -/
def ArgumentSizeComputer (vm : VM) (signature : List BasicType) : Int :=
  (signature.map vm.type2size).sum

/-- The slot `offset` elements from the interpreter's top of stack:
`interpreter_frame_tos_at(offset)`. -/
def interpreter_frame_tos_at (vm : VM) (M : Machine) (F : frame) (offset : Int) : Int :=
  let index := Int.tdiv (vm.expr_offset_in_bytes offset) vm.wordSize
  vm.interpreter_frame_tos_address M F + index * vm.wordSize

/-- The entry frame's argument slot, relative to the unextended sp:
`entry_frame_argument_at(offset)`. -/
def entry_frame_argument_at (vm : VM) (F : frame) (offset : Int) : Int :=
  let index := Int.tdiv (vm.expr_offset_in_bytes offset) vm.wordSize
  F._unextended_sp + index * vm.wordSize

/-- The number of elements on the expression stack:
`interpreter_frame_expression_stack_size()`. -/
def interpreter_frame_expression_stack_size (vm : VM) (M : Machine) (F : frame) : Int :=
  let element_size := vm.stackElementWords
  if vm.interpreter_frame_expression_stack_direction < 0 then
    Int.tdiv (Int.tdiv (vm.interpreter_frame_expression_stack M F -
      vm.interpreter_frame_tos_address M F) vm.wordSize + 1) element_size
  else
    Int.tdiv (Int.tdiv (vm.interpreter_frame_tos_address M F -
      vm.interpreter_frame_expression_stack M F) vm.wordSize + 1) element_size

end frame

/-- The running state of an argument finder (`InterpretedArgumentOopFinder`,
`EntryFrameOopFinder`): its `_offset`, and the addresses handed to the closure
`_f->do_oop` so far, in order. -/
structure ArgumentFinder where
  _offset : Int
  visited : List Int := []

namespace InterpretedArgumentOopFinder

/-- The visit `oop_offset_do()`: the closure gets the slot `_offset` from the top
of stack. -/
def oop_offset_do (vm : VM) (M : Machine) (F : frame) (st : ArgumentFinder) : ArgumentFinder :=
  { st with visited := st.visited ++ [F.interpreter_frame_tos_at vm M st._offset] }

/-- The callback `set(size, type)`. -/
def set (vm : VM) (M : Machine) (F : frame) (st : ArgumentFinder) (size : Int)
    (type : BasicType) : ArgumentFinder :=
  let st1 : ArgumentFinder := { st with _offset := st._offset - size }
  if frame.is_reference_type type then oop_offset_do vm M F st1 else st1

/-- Modelled from the spec: `SignatureIterator::iterate_parameters` with the
callbacks of `SignatureInfo` (in `signature.hpp`, not among the source files):
`set(size, type)` is called once for each parameter of the signature, in
declaration order, with the parameter's slot size and type. -/
def iterate_parameters (vm : VM) (M : Machine) (F : frame) :
    ArgumentFinder → List BasicType → ArgumentFinder
  | st, [] => st
  | st, t :: ts => iterate_parameters vm M F (set vm M F st (vm.type2size t) t) ts

/-- The constructor `InterpretedArgumentOopFinder(signature, has_receiver, fr, f)`. -/
def create (vm : VM) (M : Machine) (F : frame) (signature : List BasicType)
    (has_receiver : Bool) : Except String ArgumentFinder :=
  let args_size := frame.ArgumentSizeComputer vm signature + (if has_receiver then 1 else 0)
  if !(!F.is_interpreted_frame vm ||
      decide (args_size ≤ F.interpreter_frame_expression_stack_size vm M)) then
    .error "args cannot be on stack anymore"
  else .ok { _offset := args_size }

/-- The traversal `oops_do()`. -/
def oops_do (vm : VM) (M : Machine) (F : frame) (signature : List BasicType)
    (has_receiver : Bool) (st : ArgumentFinder) : ArgumentFinder :=
  let st1 :=
    if has_receiver then oop_offset_do vm M F { st with _offset := st._offset - 1 } else st
  iterate_parameters vm M F st1 signature

end InterpretedArgumentOopFinder

namespace EntryFrameOopFinder

/-- The visit `oop_at_offset_do(offset)`. -/
def oop_at_offset_do (vm : VM) (F : frame) (st : ArgumentFinder) (offset : Int) :
    Except String ArgumentFinder :=
  if !decide (offset ≥ 0) then .error "illegal offset"
  else .ok { st with visited := st.visited ++ [F.entry_frame_argument_at vm offset] }

/-- The callback `set(size, type)`. -/
def set (vm : VM) (F : frame) (st : ArgumentFinder) (size : Int) (type : BasicType) :
    Except String ArgumentFinder :=
  if !decide (st._offset ≥ 0) then .error "illegal offset"
  else
    match (if frame.is_reference_type type then oop_at_offset_do vm F st st._offset
           else .ok st) with
    | .error e => .error e
    | .ok st1 => .ok { st1 with _offset := st1._offset - size }

/-- Modelled from the spec: `SignatureIterator::iterate_parameters` with the
callbacks of `SignatureInfo` (in `signature.hpp`, not among the source files):
`set(size, type)` is called once for each parameter of the signature, in
declaration order, with the parameter's slot size and type. -/
def iterate_parameters (vm : VM) (F : frame) :
    ArgumentFinder → List BasicType → Except String ArgumentFinder
  | st, [] => .ok st
  | st, t :: ts =>
    match set vm F st (vm.type2size t) t with
    | .error e => .error e
    | .ok st1 => iterate_parameters vm F st1 ts

/-- The constructor `EntryFrameOopFinder(frame, signature, is_static)`. -/
def create (vm : VM) (signature : List BasicType) : ArgumentFinder :=
  { _offset := frame.ArgumentSizeComputer vm signature - 1 }

/-- The traversal `arguments_do(f)`. -/
def arguments_do (vm : VM) (F : frame) (signature : List BasicType) (is_static : Bool)
    (st : ArgumentFinder) : Except String ArgumentFinder :=
  match (if !is_static then oop_at_offset_do vm F st (st._offset + 1) else .ok st) with
  | .error e => .error e
  | .ok st1 => iterate_parameters vm F st1 signature

end EntryFrameOopFinder

namespace frame

/-- The callee's argument references of an interpreted frame at a call site:
`frame::oops_interpreted_arguments_do(signature, has_receiver, f)`; the result
is the addresses given to `f`, in order. -/
def oops_interpreted_arguments_do (vm : VM) (M : Machine) (F : frame)
    (signature : List BasicType) (has_receiver : Bool) : Except String (List Int) :=
  match InterpretedArgumentOopFinder.create vm M F signature has_receiver with
  | .error e => .error e
  | .ok finder =>
    .ok (InterpretedArgumentOopFinder.oops_do vm M F signature has_receiver finder).visited

/-- The references of an entry frame: `frame::oops_entry_do(f, map)`; the result
is the addresses given to `f`, in order, the call wrapper's handle block last. -/
def oops_entry_do (vm : VM) (M : Machine) (map : RegisterMap) (F : frame) :
    Except String (List Int) :=
  let jcw := M.wrappers (F.entry_frame_call_wrapper vm M)
  match (if map._include_argument_oops then
          EntryFrameOopFinder.arguments_do vm F jcw.callee_method.signature
            jcw.callee_method.is_static (EntryFrameOopFinder.create vm jcw.callee_method.signature)
         else .ok { _offset := 0 }) with
  | .error e => .error e
  | .ok finder => .ok (finder.visited ++ jcw.handle_block)

/-- The offsets at which the reference-typed parameters of a signature are
expected: for each object- or array-typed parameter, the total slot size of the
parameters after it; nothing for a primitive parameter. -/
def reference_offsets (vm : VM) : List BasicType → List Int
  | [] => []
  | t :: ts =>
    (if is_reference_type t then [ArgumentSizeComputer vm ts] else []) ++ reference_offsets vm ts

/-- The offsets at which a call's argument references are expected: the receiver,
if present, at the total parameter size, then the reference-typed parameters. -/
def argument_offsets (vm : VM) (signature : List BasicType) (has_receiver : Bool) : List Int :=
  (if has_receiver then [ArgumentSizeComputer vm signature] else []) ++
    reference_offsets vm signature

/-- The loop of `frame::real_sender`: `while (result.is_runtime_frame() ||
result.is_ricochet_frame()) result = result.sender(map)`, run for at most
`fuel` iterations. -/
def real_sender_loop (vm : VM) (M : Machine) :
    Nat → RegisterMap → frame → Except String (frame × RegisterMap)
  | 0, map, result =>
    if result.is_runtime_frame || result.is_ricochet_frame vm then .error "out of fuel"
    else .ok (result, map)
  | n + 1, map, result =>
    if result.is_runtime_frame || result.is_ricochet_frame vm then
      match sender vm M map result with
      | .error e => .error e
      | .ok (S, map1) => real_sender_loop vm M n map1 S
    else .ok (result, map)

/-- The sender that skips runtime-stub and ricochet frames: `frame::real_sender(map)`. -/
def real_sender (vm : VM) (M : Machine) (fuel : Nat) (map : RegisterMap) (F : frame) :
    Except String (frame × RegisterMap) :=
  match sender vm M map F with
  | .error e => .error e
  | .ok (result, map1) => real_sender_loop vm M fuel map1 result

/-- The test `frame::should_be_deoptimized()`. -/
def should_be_deoptimized (F : frame) : Except String Bool :=
  if F._deopt_state == deopt_state.is_deoptimized || !F.is_compiled_frame then .ok false
  else
    match F._cb with
    | none => .error "must be an nmethod"
    | some nm =>
      if !nm.is_nmethod then .error "must be an nmethod"
      else if !nm.is_marked_for_deoptimization then .ok false
      else .ok (!nm.is_at_poll_return F._pc)

/-- The test `frame::can_be_deoptimized()`. -/
def can_be_deoptimized (F : frame) : Bool :=
  if !F.is_compiled_frame then false
  else
    match F._cb with
    | none => false
    | some nm =>
      if !nm.can_be_deoptimized then false
      else !nm.is_at_poll_return F._pc

/-- Changing the pc of the frame object: `frame::set_pc(newpc)`. -/
def set_pc (vm : VM) (F : frame) (newpc : Int) : Except String frame :=
  let violated :=
    match F._cb with
    | some cb => cb.is_nmethod && cb.is_deopt_pc F._pc
    | none => false
  if violated then .error "invariant violation"
  else .ok { F with _deopt_state := deopt_state.unknown, _pc := newpc,
                    _cb := vm.find_blob_unsafe newpc }

/-- The flag `include_argument_oops` that `frame::sender(map)` leaves in the map,
by the kind of the frame: set by `clear()` for an entry frame, left reset for an
interpreted frame and a frame without code identity, and for a compiled frame
`caller_must_gc_arguments` of its code blob when the map is in update mode. -/
def sender_argument_oops_flag (vm : VM) (map : RegisterMap) (F : frame) : Bool :=
  if F.is_entry_frame vm then true
  else if F.is_interpreted_frame vm then false
  else
    match F._cb with
    | some cb => if map._update_map then cb.caller_must_gc_arguments map._thread else false
    | none => false

/-- The condition of the specification under which the unextended SP is taken
from the frame-pointer slot: the code identity is an nmethod and the pc is a
method-handle deoptimization entry, or is not an ordinary deoptimization entry
but is a method-handle return site. -/
def returns_to_method_handle_site (F : frame) : Bool :=
  match F._cb with
  | none => false
  | some cb =>
    cb.is_nmethod &&
      (cb.is_deopt_mh_entry F._pc ||
        (!cb.is_deopt_entry F._pc && cb.is_method_handle_return F._pc))


/-- The setter `interpreter_frame_set_mdp(mdp)`: a `NULL` mdp is stored at once,
and control then continues with the check of the bcx and the store. -/
def interpreter_frame_set_mdp (vm : VM) (M : Machine) (F : frame) (mdp : Int) :
    Except String Machine :=
  if !F.is_interpreted_frame vm then .error "interpreted frame expected"
  else
    match (if mdp == NULL then interpreter_frame_set_mdx vm M F mdp else .ok M) with
    | .error e => .error e
    | .ok M1 =>
      let bcx := interpreter_frame_bcx vm M1 F
      if vm.is_bci bcx then .error "should not set mdp during GC"
      else interpreter_frame_set_mdx vm M1 F mdp

/-- The invariant of the specification on the stored pair, for a method with
profiling data `mdo`: the mdx is 0, or it is in index form (a data index plus
one) when the bcx is in index form and a data pointer of `mdo` when it is not. -/
def mdx_form_invariant (vm : VM) (mdo : methodDataOop) (bcx mdx : Int) : Prop :=
  mdx = 0 ∨
    (if vm.is_bci bcx = true then ∃ di, 0 ≤ di ∧ mdx = di + 1
     else ∃ di, 0 ≤ di ∧ mdx = mdo.di_to_dp di)

/-- The visit of a ricochet frame, `frame::oops_ricochet_do(f, map)`: the addresses
handed to the closure, which `MethodHandles::ricochet_frame_oops_do` chooses. -/
def oops_ricochet_do (vm : VM) (M : Machine) (F : frame) (map : RegisterMap) :
    Except String (List Int) :=
  if !F.is_ricochet_frame vm then .error ""
  else .ok (vm.ricochet_frame_oops_do M F map)

/-- The visit of a frame with a code blob, `frame::oops_code_blob_do(f, cf, reg_map)`:
the addresses handed to the oop closure `f` and the blobs handed to the blob
closure (`cf` tells whether there is one). -/
def oops_code_blob_do (vm : VM) (M : Machine) (F : frame) (cf : Bool) (reg_map : RegisterMap) :
    Except String (List Int × List Nat) :=
  match F._cb with
  | none => .error "sanity check"
  | some cb =>
    match (if same_blob F._cb vm.ricochet_blob then F.oops_ricochet_do vm M reg_map
           else .ok []) with
    | .error e => .error e
    | .ok ricochet =>
      let mapped :=
        if cb.has_oop_maps then
          vm.oop_map_oops_do M F reg_map ++
            (if reg_map._include_argument_oops then
              vm.preserve_callee_argument_oops cb F reg_map else [])
        else []
      .ok (ricochet ++ mapped, if cf then [cb.ident] else [])


/-- The receiver slot of the callee at a call site:
`frame::interpreter_callee_receiver_addr(signature)`. -/
def interpreter_callee_receiver_addr (vm : VM) (M : Machine) (F : frame)
    (signature : List BasicType) : Int :=
  let size := ArgumentSizeComputer vm signature
  F.interpreter_frame_tos_at vm M size

/-- The address of local `index`: `interpreter_frame_local_at(index)`; the locals
pointer is the word in the frame's locals slot. -/
def interpreter_frame_local_at (vm : VM) (M : Machine) (F : frame) (index : Int) : Int :=
  let n := Int.tdiv (vm.local_offset_in_bytes index) vm.wordSize
  F.at_ vm M vm.interpreter_frame_locals_offset + n * vm.wordSize

/-- The address of expression-stack element `offset`, counted from the stack's
base: `interpreter_frame_expression_stack_at(offset)`. -/
def interpreter_frame_expression_stack_at (vm : VM) (M : Machine) (F : frame) (offset : Int) :
    Int :=
  let i := offset * vm.interpreter_frame_expression_stack_direction
  let n := i * vm.stackElementWords
  vm.interpreter_frame_expression_stack M F + n * vm.wordSize

/-- The live expression stack in the words of the specification: the addresses
from the top of stack to the stack's base, in the stack's direction. -/
def in_live_expression_stack (vm : VM) (M : Machine) (F : frame) (addr : Int) : Prop :=
  if vm.interpreter_frame_expression_stack_direction < 0 then
    vm.interpreter_frame_tos_address M F ≤ addr ∧ addr ≤ vm.interpreter_frame_expression_stack M F
  else
    vm.interpreter_frame_expression_stack M F ≤ addr ∧ addr ≤ vm.interpreter_frame_tos_address M F

/-- The part of `frame::oops_interpreted_do(f, map, query_oop_map_cache)` that
processes a callee's arguments when the frame is at a call site (from
`if (!m->is_native())` to the end of that block), for the frame's method `m`
and bytecode index `bci`; the result is the addresses given to `f`, in order. -/
def oops_interpreted_do_call_site (vm : VM) (M : Machine) (map : RegisterMap) (F : frame)
    (m : methodOop) (bci : Int) : Except String (List Int) :=
  if !m.is_native then
    match m.invoke_at bci with
    | some (signature, has_receiver) =>
      if map._include_argument_oops &&
          decide (F.interpreter_frame_expression_stack_size vm M > 0) then
        F.oops_interpreted_arguments_do vm M signature has_receiver
      else .ok []
    | none => .ok []
  else .ok []

end frame

/-- The closure that `frame::oops_interpreted_do` runs over the offsets of the oop
map (`InterpreterFrameClosure`). -/
structure InterpreterFrameClosure where
  _fr : frame
  _max_locals : Int
  _max_stack : Int

namespace InterpreterFrameClosure

/-- The visit of one offset of the oop map, `offset_do(offset)`; the result is the
addresses given to `_f->do_oop`. -/
def offset_do (vm : VM) (M : Machine) (blk : InterpreterFrameClosure) (offset : Int) :
    Except String (List Int) :=
  if offset < blk._max_locals then
    let addr := blk._fr.interpreter_frame_local_at vm M offset
    if !decide (addr ≥ blk._fr._sp) then .error "must be inside the frame"
    else .ok [addr]
  else
    let addr := blk._fr.interpreter_frame_expression_stack_at vm M (offset - blk._max_locals)
    let in_stack :=
      if vm.interpreter_frame_expression_stack_direction > 0 then
        decide (addr ≤ vm.interpreter_frame_tos_address M blk._fr)
      else decide (addr ≥ vm.interpreter_frame_tos_address M blk._fr)
    if in_stack then .ok [addr] else .ok []

end InterpreterFrameClosure

namespace frame


/-- Modelled from the spec: the default constructor `frame()` (in
`frame_x86.inline.hpp`, not among the source files): the empty frame, all of
whose pointers are `NULL` and whose deopt state is unknown. -/
def empty_frame : frame := {}

end frame

/-- What `frame::profile_find_Java_sender_frame` did to a frame: it called
`safe_for_sender(thread)` on it and got the answer `ok`, or it called
`sender(&map)` on it. -/
inductive ProfileEvent where
  | validated (F : frame) (ok : Bool)
  | stepped (F : frame)

/-- A run of `frame::profile_find_Java_sender_frame`: the calls it made, in order,
and how it ended (the frame returned, or the message of a failed assertion). -/
structure ProfileRun where
  events : List ProfileEvent
  result : Except String frame

/-- The run that made the calls `pre` and then went on as `r`. -/
def ProfileRun.after (pre : List ProfileEvent) (r : ProfileRun) : ProfileRun :=
  ⟨pre ++ r.events, r.result⟩

/-- Every call of `sender` in the list comes right after a call of the validator
on the same frame that returned true. -/
def steps_guarded : List ProfileEvent → Prop
  | [] => True
  | ProfileEvent.stepped _ :: _ => False
  | ProfileEvent.validated G ok :: ProfileEvent.stepped H :: rest =>
    (ok = true ∧ H = G) ∧ steps_guarded rest
  | ProfileEvent.validated _ _ :: rest => steps_guarded rest

namespace frame

/-- The loop of `frame::profile_find_Java_sender_frame` from the evaluation of its
condition on `sender_frame`: `for (...; sender_frame.safe_for_sender(thread) &&
!sender_frame.is_first_frame(); sender_frame = sender_frame.sender(&map))`, the
body returning the first Java frame; `fuel` bounds the number of evaluations of
the condition. -/
def profile_find_loop (vm : VM) (M : Machine) (thread : JavaThread) :
    Nat → RegisterMap → frame → ProfileRun
  | 0, _, _ => ⟨[], .error "out of fuel"⟩
  | n + 1, map, sender_frame =>
    match (safe_for_sender vm M thread sender_frame).result with
    | .error e => ⟨[], .error e⟩
    | .ok false => ⟨[ProfileEvent.validated sender_frame false], .ok empty_frame⟩
    | .ok true =>
      if sender_frame.is_first_frame vm M then
        ⟨[ProfileEvent.validated sender_frame true], .ok empty_frame⟩
      else if sender_frame.is_java_frame vm then
        ⟨[ProfileEvent.validated sender_frame true], .ok sender_frame⟩
      else
        match sender vm M map sender_frame with
        | .error e =>
          ⟨[ProfileEvent.validated sender_frame true, ProfileEvent.stepped sender_frame],
            .error e⟩
        | .ok (S, map1) =>
          ProfileRun.after
            [ProfileEvent.validated sender_frame true, ProfileEvent.stepped sender_frame]
            (profile_find_loop vm M thread n map1 S)

/-- The search for the first Java frame, `frame::profile_find_Java_sender_frame(thread)`. -/
def profile_find_Java_sender_frame (vm : VM) (M : Machine) (thread : JavaThread) (fuel : Nat)
    (F : frame) : ProfileRun :=
  let map := new_RegisterMap thread false
  if F.is_java_frame vm then ⟨[], .ok F⟩
  else
    match (safe_for_sender vm M thread F).result with
    | .error e => ⟨[], .error e⟩
    | .ok false => ⟨[ProfileEvent.validated F false], .ok empty_frame⟩
    | .ok true =>
      match sender vm M map F with
      | .error e => ⟨[ProfileEvent.validated F true, ProfileEvent.stepped F], .error e⟩
      | .ok (S, map1) =>
        ProfileRun.after [ProfileEvent.validated F true, ProfileEvent.stepped F]
          (profile_find_loop vm M thread fuel map1 S)


/-- The precondition the walker's step puts on a frame, by kind: an entry frame's
anchor has its `last_Java_sp` above `sp`; an interpreted frame and a frame
without code identity have `fp > sp`; a compiled frame has a frame size above
zero and `sp <= unextended_sp`. -/
def kind_precondition (vm : VM) (M : Machine) (F : frame) : Bool :=
  if F.is_entry_frame vm then
    decide (F._sp < (M.wrappers (F.entry_frame_call_wrapper vm M)).anchor.last_Java_sp)
  else if F.is_interpreted_frame vm then decide (F._sp < F._fp)
  else
    match F._cb with
    | some cb => decide (0 < cb.frame_size) && decide (F._sp ≤ F._unextended_sp)
    | none => decide (F._sp < F._fp)

/-- The frame that `frame::sender` hands to the frame constructor for the sender
of `F`, by the kind of `F`, as the constructor has it before its adjustment:
for an entry frame the anchor's `last_Java_sp`, `last_Java_fp` and
`last_Java_pc` (the return address below `last_Java_sp` when that is `NULL`);
for an interpreted frame `sender_sp()`, the saved sender sp, `link()` and
`sender_pc()`; for a compiled frame the values of `sender_for_compiled_frame`;
for a frame without code identity `sender_sp()`, `link()` and `sender_pc()`. -/
def sender_raw (vm : VM) (M : Machine) (F : frame) : frame :=
  if F.is_entry_frame vm then
    let jfa := (M.wrappers (F.entry_frame_call_wrapper vm M)).anchor
    raw_frame vm jfa.last_Java_sp jfa.last_Java_sp jfa.last_Java_fp
      (if jfa.last_Java_pc ≠ NULL then jfa.last_Java_pc
       else M.mem (jfa.last_Java_sp - vm.wordSize))
  else if F.is_interpreted_frame vm then
    raw_frame vm (F.sender_sp vm) (F.at_ vm M vm.interpreter_frame_sender_sp_offset)
      (F.link vm M) (F.sender_pc vm M)
  else
    match F._cb with
    | some cb =>
      raw_frame vm (compiled_sender_values vm M F cb).sender_sp
        (compiled_sender_values vm M F cb).sender_sp
        (compiled_sender_values vm M F cb).saved_fp
        (compiled_sender_values vm M F cb).sender_pc
    | none => raw_frame vm (F.sender_sp vm) (F.sender_sp vm) (F.link vm M) (F.sender_pc vm M)

/-- The debug verification passes for the sender that `frame::sender` builds for
this frame. -/
def sender_verified (vm : VM) (M : Machine) (F : frame) : Bool :=
  deopt_record_verified M (F.sender_raw vm M)

/-- What the walk needs of a frame of the chain: its sp lies inside the thread's
stack and is word aligned; and unless it is the first frame, it is not a
ricochet frame (whose sender is resolved outside this code), its code identity
is the one its pc resolves to, it meets its kind's precondition, and the debug
verification passes for its sender. -/
def chain_frame_ok (vm : VM) (M : Machine) (thread : JavaThread) (F : frame) : Prop :=
  thread.stack_base - thread.stack_size ≤ F._sp ∧ F._sp ≤ thread.stack_base ∧
  F._sp % vm.wordSize = 0 ∧
  (F.is_first_frame vm M = false →
    0 ≤ F._sp ∧ F.is_ricochet_frame vm = false ∧
    (F.is_entry_frame vm = false → F.is_interpreted_frame vm = false →
      same_blob F._cb (vm.find_blob F._pc) = true) ∧
    kind_precondition vm M F = true ∧ F.sender_verified vm M = true)

end frame

end Hotspot

namespace Hotspot

/-- A compiled Java method whose frame is four words. -/
def demo_nmethod : CodeBlob :=
  { ident := 1, is_nmethod := true, is_java_method := true, frame_size := 4 }

/-- A runtime stub whose frame is two words. -/
def demo_stub : CodeBlob := { ident := 2, is_runtime_stub := true, frame_size := 2 }

/-- A thread whose stack is the 4096 bytes below address 4096. -/
def demo_thread : JavaThread := { stack_base := 4096, stack_size := 4096 }

/-- A compiled frame two words below the stack base. -/
def demo_top_frame : frame :=
  { _sp := 4080, _unextended_sp := 4080, _pc := 500, _cb := some demo_nmethod }

/-- A compiled frame in the middle of the stack. -/
def demo_mid_frame : frame :=
  { _sp := 1000, _unextended_sp := 1000, _pc := 500, _cb := some demo_nmethod }

/-- A code cache that knows one runtime stub, at pc 700. -/
def demo_stub_vm : VM :=
  { find_blob_unsafe := fun pc => if pc = 700 then some demo_stub else none }

/-- A stack every word of which holds 700. -/
def demo_stub_stack : Machine := { mem := fun _ => 700 }

/-- A code cache for a three-level stack: pc 500 lies in the compiled method, pc
300 in the interpreter, pc 200 is the call stub's return address. -/
def demo_walk_vm : VM :=
  { find_blob := fun pc => if pc = 500 then some demo_nmethod else none
    interpreter_contains := fun pc => pc == 300
    returns_to_call_stub := fun pc => pc == 200 }

/-- The stack words of the three-level stack Entry → Interpreted → Compiled: the
compiled frame's return address (300) and saved frame pointer, the interpreted
frame's sender sp, link and return address (200). -/
def demo_walk_stack : Machine :=
  { mem := fun a =>
      if a = 1024 then 300 else if a = 1016 then 1064 else if a = 1056 then 1080
      else if a = 1064 then 1120 else if a = 1072 then 200 else 0 }

/-- A compiled method with its two deopt handlers, at pc 600 (ordinary call
sites) and pc 640 (method-handle call sites). -/
def demo_deopt_nmethod : CodeBlob :=
  { ident := 3, is_nmethod := true, is_java_method := true, frame_size := 4
    deopt_handler_begin := 600, deopt_mh_handler_begin := 640
    is_deopt_entry := fun pc => pc == 600, is_deopt_mh_entry := fun pc => pc == 640
    is_deopt_pc := fun pc => pc == 600 || pc == 640 }

/-- An activation of that method at sp 1000, stopped at pc 500. -/
def demo_deopt_frame : frame :=
  { _sp := 1000, _unextended_sp := 1000, _pc := 500, _cb := some demo_deopt_nmethod
    _deopt_state := deopt_state.not_deoptimized }

/-- The thread that owns the activation; its anchor points at it. -/
def demo_deopt_thread : JavaThread :=
  { stack_base := 4096, stack_size := 4096, last_Java_sp := 1000 }

/-- A method whose code starts at address 100000 and whose profiling data starts
at address 200000; its conversions are mutually inverse. -/
def demo_method : methodOop :=
  { bci_from := fun bcp => bcp - 100000, bcp_from := fun bci => bci + 100000
    method_data := some { di_to_dp := fun di => di + 200000, dp_to_di := fun dp => dp - 200000 } }

/-- An interpreter at pc 300 running that method. -/
def demo_interp_vm : VM :=
  { interpreter_contains := fun pc => pc == 300, method_at := fun _ => demo_method }

/-- An interpreted frame with fp 1064: its bcx slot is the word at 1008, its mdx
slot the word at 1032. -/
def demo_interp_frame : frame := { _sp := 1032, _unextended_sp := 1032, _fp := 1064, _pc := 300 }

/-- A stack on which the frame's position is stored as an index: bcx 5, mdx 3. -/
def demo_index_stack : Machine := { mem := fun a => if a = 1008 then 5 else if a = 1032 then 3 else 0 }

/-- A stack on which the frame's position is stored as an address: bcx 100005,
mdx 200002. -/
def demo_address_stack : Machine :=
  { mem := fun a => if a = 1008 then 100005 else if a = 1032 then 200002 else 0 }

/-- A non-static method taking an object, an int and an object. -/
def demo_callee : methodOop :=
  { signature := [BasicType.T_OBJECT, BasicType.T_INT, BasicType.T_OBJECT], is_static := false }

/-- A machine whose call wrappers all call that method and hold one handle, at
address 3000. -/
def demo_entry_machine : Machine :=
  { wrappers := fun _ => { callee_method := demo_callee, handle_block := [3000] } }

/-- An entry frame whose arguments start at unextended sp 2000. -/
def demo_entry_frame : frame := { _sp := 2000, _unextended_sp := 2000, _fp := 2100, _pc := 200 }

/-- A code blob that reports a frame size of zero. -/
def demo_zero_blob : CodeBlob := { ident := 4, is_nmethod := true, is_java_method := true }

/-- A frame of that blob whose unextended sp is one word above its sp. -/
def demo_zero_frame : frame :=
  { _sp := 1000, _unextended_sp := 1008, _pc := 500, _cb := some demo_zero_blob }

/-- A compiled method for which pc 500 is its normal-return poll point. -/
def demo_poll_nmethod : CodeBlob :=
  { ident := 5, is_nmethod := true, is_java_method := true, frame_size := 4
    deopt_handler_begin := 600, deopt_mh_handler_begin := 640
    is_deopt_entry := fun pc => pc == 600, is_deopt_mh_entry := fun pc => pc == 640
    is_deopt_pc := fun pc => pc == 600 || pc == 640
    is_at_poll_return := fun pc => pc == 500
    can_be_deoptimized := true, is_marked_for_deoptimization := true }

/-- A code cache that resolves pc 500 and the two handlers to that method. -/
def demo_poll_vm : VM :=
  { find_blob := fun pc => if pc = 500 ∨ pc = 600 ∨ pc = 640 then some demo_poll_nmethod else none }

/-- An activation of that method at sp 1000, stopped at the poll return. -/
def demo_poll_frame : frame :=
  { _sp := 1000, _unextended_sp := 1000, _pc := 500, _cb := some demo_poll_nmethod
    _deopt_state := deopt_state.not_deoptimized }

/-- A machine in which every call wrapper's anchor points at a frame with sp 2000
and the deopt handler 600 as pc, pc 500 being recorded as the original PC of
that frame. -/
def demo_anchor_machine : Machine :=
  { wrappers := fun _ =>
      { anchor := { last_Java_sp := 2000, last_Java_fp := 2100, last_Java_pc := 600 } }
    orig_pc := fun i k => if i = 3 ∧ k = 2000 then 500 else 0 }

/-- An entry frame below that anchor. -/
def demo_below_anchor_frame : frame :=
  { _sp := 1500, _unextended_sp := 1500, _fp := 1600, _pc := 200 }

/-- The call stub, a plain buffer blob. -/
def demo_call_stub : CodeBlob := { ident := 6 }

/-- An entry frame that carries the call stub as its code identity. -/
def demo_stub_entry_frame : frame :=
  { _sp := 2000, _unextended_sp := 2000, _fp := 2100, _pc := 200, _cb := some demo_call_stub }

/-- A stack whose call-wrapper slot of that entry frame (fp + 2 words) holds 2200. -/
def demo_wrapper_stack : Machine := { mem := fun a => if a = 2116 then 2200 else 0 }

/-- A compiled method no pc of which is at a frame-complete point. -/
def demo_incomplete_nmethod : CodeBlob :=
  { ident := 7, is_nmethod := true, is_java_method := true, frame_size := 4
    is_frame_complete_at := fun _ => false }

/-- An activation of that method inside the stack. -/
def demo_incomplete_frame : frame :=
  { _sp := 1000, _unextended_sp := 1000, _fp := 1100, _pc := 500
    _cb := some demo_incomplete_nmethod }

/-- A compiled method for which pc 520 is a method-handle return site. -/
def demo_mh_nmethod : CodeBlob :=
  { ident := 8, is_nmethod := true, is_java_method := true, frame_size := 4
    is_method_handle_return := fun pc => pc == 520 }

/-- An activation returning to that site, its frame-pointer slot holding 1040. -/
def demo_mh_frame : frame :=
  { _sp := 1000, _unextended_sp := 1000, _fp := 1040, _pc := 520, _cb := some demo_mh_nmethod }


/-- The profiling data of the demo method: it starts at address 200000. -/
def demo_profile : methodDataOop :=
  { di_to_dp := fun di => di + 200000, dp_to_di := fun dp => dp - 200000 }

/-- The shared ricochet blob. -/
def demo_ricochet_blob : CodeBlob := { ident := 9 }

/-- A VM whose ricochet blob bounces at pc 800. -/
def demo_ricochet_vm : VM :=
  { ricochet_blob := some demo_ricochet_blob, returns_to_bounce_addr := fun pc => pc == 800 }

/-- A frame of the ricochet blob whose pc, 820, is not the bounce address. -/
def demo_ricochet_frame : frame :=
  { _sp := 1000, _unextended_sp := 1000, _fp := 1040, _pc := 820
    _cb := some demo_ricochet_blob }


/-- The oop-map closure of the interpreted demo frame for a method with two
locals and a stack of at most five elements. -/
def demo_closure : InterpreterFrameClosure :=
  { _fr := demo_interp_frame, _max_locals := 2, _max_stack := 5 }


/-- An interpreted frame whose expression stack holds a single element. -/
def demo_shallow_frame : frame := { _sp := 1064, _unextended_sp := 1064, _fp := 1064, _pc := 300 }

/-- A method whose bytecode index 7 is an invoke with a receiver, an object, an
int and an object. -/
def demo_caller : methodOop :=
  { invoke_at := fun bci =>
      if bci = 7 then some ([BasicType.T_OBJECT, BasicType.T_INT, BasicType.T_OBJECT], true)
      else none }


/-- A code cache that knows the compiled method at pc 500 and the runtime stub at
pc 700. -/
def demo_sample_vm : VM :=
  { find_blob := fun pc =>
      if pc = 500 then some demo_nmethod else if pc = 700 then some demo_stub else none
    find_blob_unsafe := fun pc =>
      if pc = 500 then some demo_nmethod else if pc = 700 then some demo_stub else none }

/-- A stack on which the stub's frame at sp 1000 and its caller's frame at sp 1016
both return to pc 500. -/
def demo_sample_stack : Machine := { mem := fun a => if a = 1008 ∨ a = 1040 then 500 else 0 }

/-- The frame of the runtime stub at sp 1000. -/
def demo_stub_frame : frame :=
  { _sp := 1000, _unextended_sp := 1000, _pc := 700, _cb := some demo_stub }


/-- A code cache for a stack with a deoptimized activation: pc 510 lies in the
plain compiled method, pc 500 and the handlers 600 and 640 in the compiled
method with deopt handlers, pc 300 in the interpreter, pc 200 is the call
stub's return address. -/
def demo_deopt_walk_vm : VM :=
  { find_blob := fun pc =>
      if pc = 510 then some demo_nmethod
      else if pc = 500 ∨ pc = 600 ∨ pc = 640 then some demo_deopt_nmethod else none
    interpreter_contains := fun pc => pc == 300
    returns_to_call_stub := fun pc => pc == 200 }

/-- The three-level stack with one more compiled frame below it, at sp 968: its
return address, at 992, is the deopt handler 600, and pc 500 is recorded as
the original PC of its caller, the frame at 1000. -/
def demo_deopt_walk_stack : Machine :=
  { mem := fun a => if a = 992 then 600 else demo_walk_stack.mem a
    orig_pc := fun i k => if i = 3 ∧ k = 1000 then 500 else 0 }

/-- The compiled frame at sp 968, the callee of the deoptimized activation. -/
def demo_callee_frame : frame :=
  { _sp := 968, _unextended_sp := 968, _pc := 510, _cb := some demo_nmethod }

/-- A frame without code identity whose frame pointer is above its stack pointer. -/
def demo_native_frame : frame := { _sp := 1000, _unextended_sp := 1000, _fp := 1016, _pc := 9 }

/-- A frame without code identity whose frame pointer is not above its stack pointer. -/
def demo_bad_fp_frame : frame := { _sp := 1000, _unextended_sp := 1000, _fp := 1000, _pc := 9 }

end Hotspot

namespace Hotspot

open frame

/-- Outside the bounds (or with `unextended_sp` below `sp`) the validator reads
nothing and answers `false`. -/
theorem safe_for_sender_out_of_bounds (vm : VM) (M : Machine) (thread : JavaThread) (F : frame)
    (h : ¬ (thread.stack_base - thread.stack_size ≤ F._sp ∧ F._sp ≤ F._unextended_sp ∧
          F._unextended_sp ≤ thread.stack_base)) :
    safe_for_sender vm M thread F = ⟨[], .ok false⟩ := by
  unfold safe_for_sender
  simp only []
  split
  · rfl
  · split
    · rfl
    · rename_i a b
      simp at a b
      omega

/-- C1: when `frame::safe_for_sender(thread)` returns true the frame satisfies
`stack_base - stack_size <= sp <= unextended_sp <= stack_base`; and whenever
that chain of inequalities fails the validator returns false. -/
theorem safe_for_sender_true_within_bounds (vm : VM) (M : Machine) (thread : JavaThread)
    (F : frame) :
    ((safe_for_sender vm M thread F).result = .ok true →
      thread.stack_base - thread.stack_size ≤ F._sp ∧ F._sp ≤ F._unextended_sp ∧
        F._unextended_sp ≤ thread.stack_base) ∧
    (¬ (thread.stack_base - thread.stack_size ≤ F._sp ∧ F._sp ≤ F._unextended_sp ∧
        F._unextended_sp ≤ thread.stack_base) →
      (safe_for_sender vm M thread F).result = .ok false) := by
  refine ⟨fun h => ?_, fun h => ?_⟩
  · by_contra hb
    rw [safe_for_sender_out_of_bounds vm M thread F hb] at h
    cases h
  · rw [safe_for_sender_out_of_bounds vm M thread F h]

/-- The validator accepts a native frame inside the stack, so the inequalities
of C1 hold for it. -/
theorem safe_for_sender_true_within_bounds_witness :
    (safe_for_sender {} demo_stub_stack demo_thread demo_native_frame).result = .ok true ∧
    (demo_thread.stack_base - demo_thread.stack_size ≤ demo_native_frame._sp ∧
      demo_native_frame._sp ≤ demo_native_frame._unextended_sp ∧
      demo_native_frame._unextended_sp ≤ demo_thread.stack_base) :=
  ⟨rfl, (safe_for_sender_true_within_bounds {} demo_stub_stack demo_thread demo_native_frame).1 rfl⟩

/-- C2 (the code reads outside the bounds): for a compiled frame two words below
the stack base whose code region reports a frame of four words, the validator
reads the candidate return address at `sender_sp - 1`, one word above
`stack_base`. -/
theorem safe_for_sender_reads_above_stack_base :
    (safe_for_sender {} {} demo_thread demo_top_frame).reads = [4104] ∧
    demo_thread.stack_base < 4104 := by
  constructor
  · rfl
  · decide

/-- C4 (an assertion of the validator fails): a compiled frame whose return
address word points into a runtime stub with a non-zero frame size reaches the
assertion "Impossible call chain", which fails. -/
theorem safe_for_sender_assertion_fails :
    (safe_for_sender demo_stub_vm demo_stub_stack demo_thread demo_mid_frame).result =
      .error "Impossible call chain" := by
  rfl

/-- C3: for an Entry frame, an Interpreted frame, or a frame with no code
identity, `frame::safe_for_sender` returns false unless `sp < fp <= stack_base`. -/
theorem safe_for_sender_requires_frame_pointer (vm : VM) (M : Machine) (thread : JavaThread)
    (F : frame)
    (hkind : F.is_entry_frame vm = true ∨ F.is_interpreted_frame vm = true ∨ F._cb = none)
    (hfp : ¬ (F._sp < F._fp ∧ F._fp ≤ thread.stack_base)) :
    (safe_for_sender vm M thread F).result = .ok false := by
  have hfs : (!(decide (F._fp ≤ thread.stack_base) && decide (F._fp > F._sp))) = true := by
    simp only [Bool.not_eq_true', Bool.and_eq_false_iff, decide_eq_false_iff_not]
    by_cases h1 : F._fp ≤ thread.stack_base
    · right
      intro h2
      exact hfp ⟨h2, h1⟩
    · left
      exact h1
  unfold safe_for_sender
  simp only []
  split
  · rfl
  · split
    · rfl
    · split
      · rename_i cb hcb
        split
        · rfl
        · split
          · rfl
          · split
            · rfl
            · rename_i he hi
              rcases hkind with h | h | h
              · exact absurd h he
              · exact absurd h hi
              · rw [h] at hcb
                cases hcb
      · rfl

/-- A frame without code identity whose frame pointer equals its stack pointer is
rejected. -/
theorem safe_for_sender_requires_frame_pointer_witness :
    (safe_for_sender {} demo_stub_stack demo_thread demo_bad_fp_frame).result = .ok false :=
  safe_for_sender_requires_frame_pointer {} demo_stub_stack demo_thread demo_bad_fp_frame
    (Or.inr (Or.inr rfl)) (by decide)

/-- When the debug verification passes, the unextended-SP adjustment returns a
frame that differs from the given one at most in `_unextended_sp`. -/
theorem adjust_unextended_sp_ok (M : Machine) (F : frame)
    (hv : ∀ nm, F._cb = some nm → nm.is_nmethod = true →
      (nm.is_deopt_mh_entry F._pc = true → verify_deopt_original_pc M nm F._fp true = .ok ()) ∧
      (nm.is_deopt_mh_entry F._pc = false → nm.is_deopt_entry F._pc = true →
        verify_deopt_original_pc M nm F._unextended_sp false = .ok ())) :
    ∃ G, adjust_unextended_sp M F = .ok G ∧ G._sp = F._sp ∧ G._fp = F._fp ∧
      G._cb = F._cb ∧ G._pc = F._pc := by
  unfold adjust_unextended_sp
  cases hb : F._cb with
  | none => exact ⟨F, rfl, rfl, rfl, hb, rfl⟩
  | some nm =>
    simp only []
    by_cases hn : nm.is_nmethod = true
    · rw [if_pos hn]
      by_cases hmh : nm.is_deopt_mh_entry F._pc = true
      · rw [if_pos hmh, (hv nm hb hn).1 hmh]
        exact ⟨_, rfl, rfl, rfl, rfl, rfl⟩
      · rw [if_neg hmh]
        by_cases hde : nm.is_deopt_entry F._pc = true
        · rw [if_pos hde, (hv nm hb hn).2 (by simpa using hmh) hde]
          exact ⟨F, rfl, rfl, rfl, hb, rfl⟩
        · rw [if_neg hde]
          by_cases hr : nm.is_method_handle_return F._pc = true
          · rw [if_pos hr]
            exact ⟨_, rfl, rfl, rfl, rfl, rfl⟩
          · rw [if_neg hr]
            exact ⟨F, rfl, rfl, rfl, hb, rfl⟩
    · rw [if_neg hn]
      exact ⟨F, rfl, rfl, rfl, hb, rfl⟩

/-- When the debug verification passes for a frame, the unextended-SP adjustment
returns it with `_unextended_sp` taken from the frame-pointer slot at a
method-handle site and left as it is elsewhere. -/
theorem adjust_unextended_sp_verified (M : Machine) (F : frame)
    (hver : deopt_record_verified M F = true) :
    adjust_unextended_sp M F =
      .ok { F with _unextended_sp :=
              if F.returns_to_method_handle_site = true then F._fp else F._unextended_sp } := by
  obtain ⟨sp, pc, cb, ds, fp, usp⟩ := F
  unfold deopt_record_verified at hver
  unfold adjust_unextended_sp returns_to_method_handle_site
  cases cb with
  | none => rfl
  | some nm =>
    simp only [] at hver ⊢
    by_cases hn : nm.is_nmethod = true
    · rw [if_pos hn] at hver ⊢
      by_cases hmh : nm.is_deopt_mh_entry pc = true
      · rw [if_pos hmh] at hver ⊢
        cases hv : verify_deopt_original_pc M nm fp true with
        | error e =>
          rw [hv] at hver
          cases hver
        | ok u => simp [hn, hmh]
      · rw [if_neg hmh] at hver ⊢
        by_cases hde : nm.is_deopt_entry pc = true
        · rw [if_pos hde] at hver ⊢
          cases hv : verify_deopt_original_pc M nm usp false with
          | error e =>
            rw [hv] at hver
            cases hver
          | ok u => simp [hn, hmh, hde]
        · rw [if_neg hde]
          by_cases hr : nm.is_method_handle_return pc = true
          · rw [if_pos hr]
            simp [hn, hmh, hde, hr]
          · rw [if_neg hr]
            simp [hn, hmh, hde, hr]
    · rw [if_neg hn]
      simp [hn]

/-- What the four-argument constructor returns when the debug verification passes
for the frame it builds: the sp, the fp and the code identity of the pc; the
unextended sp, adjusted at a method-handle site; and either the pc it was
given, not deoptimized, or, when the lookup for that pc finds an original PC,
that original PC, deoptimized. -/
theorem ctor4_spec (vm : VM) (M : Machine) (sp usp fp pc : Int)
    (hver : deopt_record_verified M (raw_frame vm sp usp fp pc) = true) :
    ∃ S, ctor4 vm M sp usp fp pc = .ok S ∧ S._sp = sp ∧ S._fp = fp ∧
      S._cb = vm.find_blob pc ∧
      S._unextended_sp =
        (if (raw_frame vm sp usp fp pc).returns_to_method_handle_site = true then fp
         else usp) ∧
      ((get_deopt_original_pc M { S with _pc := pc } = NULL ∧ S._pc = pc ∧
          S._deopt_state = deopt_state.not_deoptimized) ∨
       (get_deopt_original_pc M { S with _pc := pc } ≠ NULL ∧
          S._pc = get_deopt_original_pc M { S with _pc := pc } ∧
          S._deopt_state = deopt_state.is_deoptimized)) := by
  have hG := adjust_unextended_sp_verified M (raw_frame vm sp usp fp pc) hver
  have e : ctor4 vm M sp usp fp pc = ctor_finish M (raw_frame vm sp usp fp pc) := rfl
  rw [e]
  unfold ctor_finish
  rw [hG]
  simp only []
  by_cases ho : get_deopt_original_pc M
      { raw_frame vm sp usp fp pc with _unextended_sp :=
          if (raw_frame vm sp usp fp pc).returns_to_method_handle_site = true then
            (raw_frame vm sp usp fp pc)._fp
          else (raw_frame vm sp usp fp pc)._unextended_sp } ≠ NULL
  · rw [if_pos ho]
    exact ⟨_, rfl, rfl, rfl, rfl, rfl, Or.inr ⟨ho, rfl, rfl⟩⟩
  · rw [if_neg ho]
    exact ⟨_, rfl, rfl, rfl, rfl, rfl, Or.inl ⟨not_not.mp ho, rfl, rfl⟩⟩

/-- When the debug verification passes for the frame it builds, the four-argument
constructor returns a frame; it keeps the stack pointer and the frame pointer
it was given and resolves the code identity from the pc. -/
theorem ctor4_ok (vm : VM) (M : Machine) (sp usp fp pc : Int)
    (hver : deopt_record_verified M (raw_frame vm sp usp fp pc) = true) :
    ∃ S, ctor4 vm M sp usp fp pc = .ok S ∧ S._sp = sp ∧ S._fp = fp ∧
      S._cb = vm.find_blob pc := by
  obtain ⟨S, hS, h1, h2, h3, -⟩ := ctor4_spec vm M sp usp fp pc hver
  exact ⟨S, hS, h1, h2, h3⟩

/-- The sender a compiled frame gets when the function's assertions hold. -/
theorem sender_for_compiled_frame_ok (vm : VM) (M : Machine) (map : RegisterMap)
    (F : frame) (cb : CodeBlob)
    (hcb : F._cb = some cb) (hric : F.is_ricochet_frame vm = false)
    (hfs : 0 ≤ cb.frame_size)
    (hne : F._unextended_sp + cb.frame_size * vm.wordSize ≠ F._sp)
    (hver : deopt_record_verified M
      (raw_frame vm (compiled_sender_values vm M F cb).sender_sp
        (compiled_sender_values vm M F cb).sender_sp
        (compiled_sender_values vm M F cb).saved_fp
        (compiled_sender_values vm M F cb).sender_pc) = true) :
    ∃ S,
      sender_for_compiled_frame vm M map F = .ok (S, compiled_sender_map vm map F cb
        (F._unextended_sp + cb.frame_size * vm.wordSize - vm.sender_sp_offset * vm.wordSize)) ∧
      ctor4 vm M (compiled_sender_values vm M F cb).sender_sp
        (compiled_sender_values vm M F cb).sender_sp
        (compiled_sender_values vm M F cb).saved_fp
        (compiled_sender_values vm M F cb).sender_pc = .ok S ∧
      S._sp = F._unextended_sp + cb.frame_size * vm.wordSize := by
  obtain ⟨S, hS, h1, -⟩ := ctor4_ok vm M _ _ _ _ hver
  have hfs2 : (!decide (cb.frame_size ≥ 0)) = false := by simpa using hfs
  have hne2 : (F._unextended_sp + cb.frame_size * vm.wordSize == F._sp) = false := by
    simpa using hne
  refine ⟨S, ?_, hS, h1⟩
  unfold sender_for_compiled_frame
  rw [hric, hcb]
  simp only [compiled_sender_values] at hS ⊢
  rw [hfs2, hne2, hS]
  rfl

/-- C5 (as stated, refuted): the pc of the sender need not be the word at
`sender_sp - 1`.  The compiled frame at sp 968 has a frame of four words; the
word at `sender_sp - 1 = 992` is 600, the deopt handler of the caller's
nmethod, for which pc 500 is recorded as the original PC of the frame at 1000:
the sender returned has pc 500. -/
theorem sender_for_compiled_frame_pc_replaced :
    demo_callee_frame.is_compiled_frame = true ∧
    demo_callee_frame.is_entry_frame demo_deopt_walk_vm = false ∧
    demo_callee_frame.is_interpreted_frame demo_deopt_walk_vm = false ∧
    demo_callee_frame.is_ricochet_frame demo_deopt_walk_vm = false ∧
    demo_deopt_walk_stack.mem (968 + 4 * 8 - 1 * 8) = 600 ∧
    ∃ S m, sender_for_compiled_frame demo_deopt_walk_vm demo_deopt_walk_stack {}
        demo_callee_frame = .ok (S, m) ∧
      S._sp = 1000 ∧ S._pc = 500 ∧ S._pc ≠ demo_deopt_walk_stack.mem (968 + 4 * 8 - 1 * 8) :=
  ⟨rfl, rfl, rfl, rfl, rfl, _, _, rfl, rfl, rfl, by decide⟩

/-- C5 (amended): for a compiled frame (code identity present, not a ricochet
frame, its assertions holding) `frame::sender_for_compiled_frame` builds the
sender from `sender_sp = unextended_sp + frame_size(cb)` words: the
constructor's sp and unextended_sp arguments are both `sender_sp`, its pc
argument is the word at `sender_sp - 1` and its fp argument the word at
`sender_sp - sender_sp_offset`.  The frame returned has that sp and that fp;
its unextended sp is `sender_sp`, or the fp argument at a method-handle site;
its pc is the pc argument and it is not deoptimized, unless the lookup for the
pc argument finds an original PC: then its pc is that original PC and it is
deoptimized. -/
theorem sender_for_compiled_frame_from_sender_sp (vm : VM) (M : Machine) (map : RegisterMap)
    (F : frame) (cb : CodeBlob)
    (hcb : F._cb = some cb) (hric : F.is_ricochet_frame vm = false)
    (hfs : 0 ≤ cb.frame_size)
    (hne : F._unextended_sp + cb.frame_size * vm.wordSize ≠ F._sp)
    (hver : deopt_record_verified M
      (raw_frame vm (compiled_sender_values vm M F cb).sender_sp
        (compiled_sender_values vm M F cb).sender_sp
        (compiled_sender_values vm M F cb).saved_fp
        (compiled_sender_values vm M F cb).sender_pc) = true) :
    (compiled_sender_values vm M F cb).sender_sp =
      F._unextended_sp + cb.frame_size * vm.wordSize ∧
    (compiled_sender_values vm M F cb).sender_pc =
      M.mem ((compiled_sender_values vm M F cb).sender_sp - 1 * vm.wordSize) ∧
    (compiled_sender_values vm M F cb).saved_fp =
      M.mem ((compiled_sender_values vm M F cb).sender_sp - vm.sender_sp_offset * vm.wordSize) ∧
    ∃ S,
      sender_for_compiled_frame vm M map F = .ok (S, compiled_sender_map vm map F cb
        (F._unextended_sp + cb.frame_size * vm.wordSize - vm.sender_sp_offset * vm.wordSize)) ∧
      ctor4 vm M (compiled_sender_values vm M F cb).sender_sp
        (compiled_sender_values vm M F cb).sender_sp
        (compiled_sender_values vm M F cb).saved_fp
        (compiled_sender_values vm M F cb).sender_pc = .ok S ∧
      S._sp = (compiled_sender_values vm M F cb).sender_sp ∧
      S._fp = (compiled_sender_values vm M F cb).saved_fp ∧
      S._unextended_sp =
        (if (raw_frame vm (compiled_sender_values vm M F cb).sender_sp
            (compiled_sender_values vm M F cb).sender_sp
            (compiled_sender_values vm M F cb).saved_fp
            (compiled_sender_values vm M F cb).sender_pc).returns_to_method_handle_site = true
         then (compiled_sender_values vm M F cb).saved_fp
         else (compiled_sender_values vm M F cb).sender_sp) ∧
      ((get_deopt_original_pc M
            { S with _pc := (compiled_sender_values vm M F cb).sender_pc } = NULL ∧
          S._pc = (compiled_sender_values vm M F cb).sender_pc ∧
          S._deopt_state = deopt_state.not_deoptimized) ∨
       (get_deopt_original_pc M
            { S with _pc := (compiled_sender_values vm M F cb).sender_pc } ≠ NULL ∧
          S._pc = get_deopt_original_pc M
            { S with _pc := (compiled_sender_values vm M F cb).sender_pc } ∧
          S._deopt_state = deopt_state.is_deoptimized)) := by
  obtain ⟨S, hS, h1, h2, -, h4, h5⟩ := ctor4_spec vm M _ _ _ _ hver
  have hfs2 : (!decide (cb.frame_size ≥ 0)) = false := by simpa using hfs
  have hne2 : (F._unextended_sp + cb.frame_size * vm.wordSize == F._sp) = false := by
    simpa using hne
  refine ⟨rfl, rfl, rfl, S, ?_, hS, h1, h2, h4, h5⟩
  unfold sender_for_compiled_frame
  rw [hric, hcb]
  simp only [compiled_sender_values] at hS ⊢
  rw [hfs2, hne2, hS]
  rfl

/-- The sender of the compiled frame at sp 968 is built from sender_sp 1000 and
the return address 600, a deopt handler with pc 500 recorded: the frame
returned has sp 1000, pc 500 and is deoptimized. -/
theorem sender_for_compiled_frame_from_sender_sp_witness :
    demo_deopt_walk_stack.mem (968 + 4 * 8 - 1 * 8) = 600 ∧
    ∃ S,
      sender_for_compiled_frame demo_deopt_walk_vm demo_deopt_walk_stack {} demo_callee_frame =
        .ok (S, compiled_sender_map demo_deopt_walk_vm {} demo_callee_frame demo_nmethod
          (968 + 4 * 8 - 2 * 8)) ∧
      S._sp = 968 + 4 * 8 ∧ S._fp = demo_deopt_walk_stack.mem (968 + 4 * 8 - 2 * 8) ∧
      S._unextended_sp = 968 + 4 * 8 ∧ S._pc = 500 ∧
      S._deopt_state = deopt_state.is_deoptimized := by
  obtain ⟨-, -, -, S, h1, -, h3, h4, h5, -⟩ := sender_for_compiled_frame_from_sender_sp
    demo_deopt_walk_vm demo_deopt_walk_stack {} demo_callee_frame demo_nmethod
    rfl rfl (by decide) (by decide) rfl
  refine ⟨rfl, S, h1, h3, h4, h5, ?_, ?_⟩
  · cases h1
    rfl
  · cases h1
    rfl

/-- After `clear()` the map's `include_argument_oops` flag is set. -/
theorem clear_include_argument_oops (map : RegisterMap) :
    map.clear._include_argument_oops = true := by
  unfold RegisterMap.clear RegisterMap.set_include_argument_oops
  simp only []
  split <;> rfl

/-- One step of the walk: a frame that meets its kind's precondition, and for
whose sender the debug verification passes, has a sender, and the sender's sp
is strictly above the frame's sp. -/
theorem sender_sp_increases (vm : VM) (M : Machine) (map : RegisterMap) (F : frame)
    (hws : 0 < vm.wordSize) (hoff : 0 ≤ vm.sender_sp_offset)
    (hver : F.sender_verified vm M = true)
    (hsp : 0 ≤ F._sp)
    (hric : F.is_ricochet_frame vm = false)
    (hsame : F.is_entry_frame vm = false → F.is_interpreted_frame vm = false →
      same_blob F._cb (vm.find_blob F._pc) = true)
    (hpre : kind_precondition vm M F = true) :
    ∃ S map1, sender vm M map F = .ok (S, map1) ∧ F._sp < S._sp := by
  have hmul : 0 ≤ vm.sender_sp_offset * vm.wordSize := Int.mul_nonneg hoff (le_of_lt hws)
  unfold kind_precondition at hpre
  unfold sender_verified sender_raw at hver
  unfold sender
  simp only []
  by_cases he : F.is_entry_frame vm = true
  · rw [if_pos he] at hpre hver ⊢
    simp only [decide_eq_true_eq] at hpre
    simp only [] at hver
    unfold sender_for_entry_frame
    simp only []
    have hnf : F.entry_frame_is_first vm M = false := by
      unfold entry_frame_is_first NULL
      simp only [beq_eq_false_iff_ne, ne_eq]
      omega
    have hab : (!decide ((M.wrappers (F.entry_frame_call_wrapper vm M)).anchor.last_Java_sp >
        F._sp)) = false := by
      simpa using hpre
    rw [hnf, hab, clear_include_argument_oops]
    simp only [Bool.false_eq_true, if_false, Bool.not_true]
    by_cases hp : (M.wrappers (F.entry_frame_call_wrapper vm M)).anchor.last_Java_pc ≠ NULL
    · rw [if_pos hp] at hver ⊢
      obtain ⟨S, hS, h1, -⟩ := ctor4_ok vm M _ _ _ _ hver
      unfold ctor3
      rw [hS]
      exact ⟨S, _, rfl, by omega⟩
    · rw [if_neg hp] at hver ⊢
      obtain ⟨S, hS, h1, -⟩ := ctor4_ok vm M _ _ _ _ hver
      unfold ctor2 ctor3
      rw [hS]
      exact ⟨S, _, rfl, by omega⟩
  · rw [if_neg he] at hpre hver ⊢
    by_cases hi : F.is_interpreted_frame vm = true
    · rw [if_pos hi] at hpre hver ⊢
      simp only [decide_eq_true_eq] at hpre
      unfold sender_for_interpreter_frame interpreter_frame_sender_sp
      simp only [hi, Bool.not_true, Bool.false_eq_true, if_false]
      obtain ⟨S, hS, h1, -⟩ := ctor4_ok vm M _ _ _ _ hver
      rw [hS]
      refine ⟨S, _, rfl, ?_⟩
      rw [h1]
      unfold frame.sender_sp addr_at
      omega
    · rw [if_neg hi] at hpre hver ⊢
      have hs := hsame (by simpa using he) (by simpa using hi)
      rw [hs, hric]
      simp only [Bool.not_true, Bool.false_eq_true, if_false]
      cases hcb : F._cb with
      | none =>
        rw [hcb] at hpre hver
        simp only [Option.isSome_none, Bool.false_eq_true, if_false]
        simp only [] at hver
        obtain ⟨S, hS, h1, -⟩ := ctor4_ok vm M _ _ _ _ hver
        unfold ctor3
        rw [hS]
        refine ⟨S, _, rfl, ?_⟩
        rw [h1]
        unfold frame.sender_sp addr_at
        simp only [decide_eq_true_eq] at hpre
        omega
      | some cb =>
        rw [hcb] at hpre hver
        simp only [Bool.and_eq_true, decide_eq_true_eq] at hpre
        simp only [Option.isSome_some, if_true]
        simp only [] at hver
        have hpos : 0 < cb.frame_size * vm.wordSize := Int.mul_pos hpre.1 hws
        obtain ⟨S, hS, -, h1⟩ := sender_for_compiled_frame_ok vm M
          (map.set_include_argument_oops false) F cb hcb hric (le_of_lt hpre.1)
          (by omega) hver
        exact ⟨S, _, hS, by omega⟩

/-- Extending a walk by one step at its end. -/
theorem walk_succ_end (vm : VM) (M : Machine) (k : Nat) :
    ∀ (map : RegisterMap) (F0 F S : frame) (m m1 : RegisterMap),
      walk vm M k map F0 = .ok (F, m) → sender vm M m F = .ok (S, m1) →
      walk vm M (k + 1) map F0 = .ok (S, m1) := by
  induction k with
  | zero =>
    intro map F0 F S m m1 hw hs
    simp only [walk] at hw
    cases hw
    simp only [walk, hs]
  | succ n ih =>
    intro map F0 F S m m1 hw hs
    rw [walk] at hw
    rw [walk]
    cases h1 : sender vm M map F0 with
    | error e =>
      rw [h1] at hw
      cases hw
    | ok p =>
      obtain ⟨S1, map1⟩ := p
      rw [h1] at hw
      simp only [] at hw ⊢
      exact ih map1 S1 F S m m1 hw hs

/-- The walk under an invariant: if every frame the invariant admits lies in the
stack, is word aligned and, unless first, can take a step that stays within
the invariant, then from any admitted frame the walk reaches a first frame,
in a number of steps bounded by the words between the frame and the stack base. -/
theorem walk_reaches_first (vm : VM) (M : Machine) (thread : JavaThread)
    (hws : 0 < vm.wordSize) (hoff : 0 ≤ vm.sender_sp_offset)
    (I : frame → RegisterMap → Prop)
    (hgood : ∀ F m, I F m → chain_frame_ok vm M thread F)
    (hstep : ∀ F m S m1, I F m → sender vm M m F = .ok (S, m1) → I S m1) :
    ∀ (n : Nat) (F : frame) (m : RegisterMap), I F m →
      thread.stack_base - F._sp < n * vm.wordSize →
      ∃ k S m1, walk vm M k m F = .ok (S, m1) ∧ S.is_first_frame vm M = true ∧
        k * vm.wordSize ≤ thread.stack_base - F._sp := by
  intro n
  induction n with
  | zero =>
    intro F m hI hlt
    have := (hgood F m hI).2.1
    simp only [Nat.cast_zero, zero_mul] at hlt
    omega
  | succ n ih =>
    intro F m hI hlt
    obtain ⟨hlo, hhi, hal, hw⟩ := hgood F m hI
    by_cases hf : F.is_first_frame vm M = true
    · refine ⟨0, F, m, rfl, hf, ?_⟩
      simp only [Nat.cast_zero, zero_mul]
      omega
    · obtain ⟨h0, hric, hsame, hpre, hver⟩ := hw (by simpa using hf)
      obtain ⟨S, m1, hS, hlt2⟩ := sender_sp_increases vm M m F hws hoff hver h0 hric hsame hpre
      have hIS := hstep F m S m1 hI hS
      obtain ⟨-, -, hal2, -⟩ := hgood S m1 hIS
      have hd : vm.wordSize ∣ S._sp - F._sp :=
        Int.dvd_sub (Int.dvd_of_emod_eq_zero hal2) (Int.dvd_of_emod_eq_zero hal)
      have hge : vm.wordSize ≤ S._sp - F._sp := Int.le_of_dvd (by omega) hd
      have hlt3 : thread.stack_base - S._sp < n * vm.wordSize := by
        have : ((n + 1 : Nat) : Int) * vm.wordSize = n * vm.wordSize + vm.wordSize := by
          push_cast
          ring
        omega
      obtain ⟨k, T, m2, hk, hT, hbound⟩ := ih S m1 hIS hlt3
      refine ⟨k + 1, T, m2, ?_, hT, ?_⟩
      · rw [walk, hS]
        exact hk
      · have : ((k + 1 : Nat) : Int) * vm.wordSize = k * vm.wordSize + vm.wordSize := by
          push_cast
          ring
        omega

/-- C6: walking terminates.  A frame that meets its kind's precondition
(compiled: frame size > 0 and `sp <= unextended_sp`; interpreted or without
code identity: `fp > sp`; entry: the anchor's `last_Java_sp` above `sp`), and
for whose sender the debug verification passes, has a sender whose sp is
strictly greater; hence a chain of `sender()` calls whose frames lie word
aligned inside a thread stack reaches a frame with `is_first_frame()` true,
after at most as many steps as the stack has words. -/
theorem walking_terminates (vm : VM) (M : Machine) (thread : JavaThread)
    (hws : 0 < vm.wordSize) (hoff : 0 ≤ vm.sender_sp_offset) :
    (∀ (map : RegisterMap) (F : frame), 0 ≤ F._sp → F.is_ricochet_frame vm = false →
      (F.is_entry_frame vm = false → F.is_interpreted_frame vm = false →
        same_blob F._cb (vm.find_blob F._pc) = true) →
      kind_precondition vm M F = true → F.sender_verified vm M = true →
      ∃ S map1, sender vm M map F = .ok (S, map1) ∧ F._sp < S._sp) ∧
    (∀ (map : RegisterMap) (F0 : frame),
      (∀ k S m, walk vm M k map F0 = .ok (S, m) → chain_frame_ok vm M thread S) →
      ∃ k S m, walk vm M k map F0 = .ok (S, m) ∧ S.is_first_frame vm M = true ∧
        k * vm.wordSize ≤ thread.stack_size) := by
  refine ⟨fun map F h0 hric hsame hpre hver =>
    sender_sp_increases vm M map F hws hoff hver h0 hric hsame hpre, ?_⟩
  intro map F0 hchain
  have h00 := hchain 0 F0 map rfl
  obtain ⟨hlo, hhi, -, -⟩ := h00
  have hx : 0 ≤ thread.stack_base - F0._sp := by omega
  have hn : thread.stack_base - F0._sp <
      (((thread.stack_base - F0._sp).toNat + 1 : Nat) : Int) * vm.wordSize := by
    have h1 : (((thread.stack_base - F0._sp).toNat + 1 : Nat) : Int) =
        thread.stack_base - F0._sp + 1 := by
      push_cast
      rw [Int.toNat_of_nonneg hx]
    rw [h1]
    have h2 : thread.stack_base - F0._sp + 1 ≤
        (thread.stack_base - F0._sp + 1) * vm.wordSize :=
      le_mul_of_one_le_right (by omega) (by omega)
    omega
  obtain ⟨k, S, m, hk, hS, hb⟩ := walk_reaches_first vm M thread hws hoff
    (fun F m => ∃ k, walk vm M k map F0 = .ok (F, m))
    (fun F m ⟨k, hk⟩ => hchain k F m hk)
    (fun F m S m1 ⟨k, hk⟩ hs => ⟨k + 1, walk_succ_end vm M k map F0 F S m m1 hk hs⟩)
    _ F0 map ⟨0, rfl⟩ hn
  exact ⟨k, S, m, hk, hS, by omega⟩

/-- The stack Entry → Interpreted → Compiled (deoptimized) → Compiled: the walk
from the lowest compiled frame passes the deoptimized activation, whose pc is
rebuilt from the recorded original PC, and reaches the first frame within the
number of words of the stack. -/
theorem walking_terminates_witness :
    ∃ k S m, walk demo_deopt_walk_vm demo_deopt_walk_stack k {} demo_callee_frame =
        .ok (S, m) ∧
      S.is_first_frame demo_deopt_walk_vm demo_deopt_walk_stack = true ∧
      k * demo_deopt_walk_vm.wordSize ≤ demo_thread.stack_size :=
  (walking_terminates demo_deopt_walk_vm demo_deopt_walk_stack demo_thread (by decide)
    (by decide)).2 {} demo_callee_frame
    (by
      intro k S m h
      match k with
      | 0 =>
        cases h
        exact ⟨by decide, by decide, by decide,
          fun _ => ⟨by decide, rfl, fun _ _ => rfl, rfl, rfl⟩⟩
      | 1 =>
        cases h
        exact ⟨by decide, by decide, by decide,
          fun _ => ⟨by decide, rfl, fun _ _ => rfl, rfl, rfl⟩⟩
      | 2 =>
        cases h
        exact ⟨by decide, by decide, by decide,
          fun _ => ⟨by decide, rfl, fun _ h2 => (by cases h2), rfl, rfl⟩⟩
      | 3 =>
        cases h
        exact ⟨by decide, by decide, by decide, fun h => (by cases h)⟩
      | (n + 4) =>
        cases h)

/-- The state `frame::deoptimize` leaves on the patch path: the original PC
recorded, the return-address word overwritten with the selected handler, and
the frame object as `patch_pc` leaves it. -/
theorem deoptimize_patch_state (vm : VM) (M : Machine) (F : frame) (nm : CodeBlob)
    (hnm : nm.is_nmethod = true)
    (hblob : vm.find_blob (deopt_handler nm F._pc) = some nm) :
    patch_pc vm (set_original_pc M nm F F._pc) F (deopt_handler nm F._pc) =
      .ok (deopt_machine vm M F nm, deopt_frame F nm) := by
  unfold patch_pc deopt_frame
  simp only [hblob]
  by_cases hd : nm.is_deopt_pc F._pc = true
  · have ho : get_deopt_original_pc
        { mem := fun a =>
            if a = F._sp - 1 * vm.wordSize then deopt_handler nm F._pc
            else (set_original_pc M nm F F._pc).mem a
          orig_pc := (set_original_pc M nm F F._pc).orig_pc
          wrappers := (set_original_pc M nm F F._pc).wrappers }
        { F with _cb := some nm } = F._pc := by
      simp [get_deopt_original_pc, get_original_pc, set_original_pc, hnm, hd]
    rw [ho]
    by_cases hpc : F._pc = NULL
    · have hc : (nm.is_deopt_pc F._pc && F._pc != NULL) = false := by simp [hpc]
      rw [if_neg (not_not.mpr hpc), hc]
      rfl
    · have hc : (nm.is_deopt_pc F._pc && F._pc != NULL) = true := by simp [hd, hpc]
      rw [if_pos hpc, hc]
      simp only [ne_eq, not_true_eq_false, if_false, if_true]
      rfl
  · have ho : get_deopt_original_pc
        { mem := fun a =>
            if a = F._sp - 1 * vm.wordSize then deopt_handler nm F._pc
            else (set_original_pc M nm F F._pc).mem a
          orig_pc := (set_original_pc M nm F F._pc).orig_pc
          wrappers := (set_original_pc M nm F F._pc).wrappers }
        { F with _cb := some nm } = NULL := by
      simp [get_deopt_original_pc, hd]
    have hc : (nm.is_deopt_pc F._pc && F._pc != NULL) = false := by simp [hd]
    rw [ho, hc]
    simp only [ne_eq, not_true_eq_false, if_false]
    rfl

/-- The call `frame::deoptimize` on its patch path returns the patched state. -/
theorem deoptimize_ok (vm : VM) (fuel : Nat) (M : Machine)
    (thread : JavaThread) (F : frame) (nm : CodeBlob)
    (hcb : F._cb = some nm) (hnm : nm.is_nmethod = true)
    (hguard : deopt_suspend_guard vm M thread F = .ok none)
    (hblob : vm.find_blob (deopt_handler nm F._pc) = some nm)
    (hcheck : missed_deopt_check vm fuel (deopt_machine vm M F nm) thread (deopt_frame F nm) =
      .ok ()) :
    deoptimize vm fuel M thread F =
      .ok (deopt_machine vm M F nm, thread, deopt_frame F nm) := by
  unfold deoptimize
  rw [hcb]
  simp only [hnm, Bool.not_true, Bool.false_eq_true, if_false, hguard,
    deoptimize_patch_state vm M F nm hnm hblob, hcheck]

/-- Reading the bcx slot after a store to it. -/
theorem bcx_store_bcx (vm : VM) (M : Machine) (F : frame) (v : Int) :
    interpreter_frame_bcx vm (store M (F.addr_at vm vm.interpreter_frame_bcx_offset) v) F = v := by
  simp [interpreter_frame_bcx, at_, store]

/-- Reading the mdx slot after a store to it. -/
theorem mdx_store_mdx (vm : VM) (M : Machine) (F : frame) (v : Int) :
    interpreter_frame_mdx vm (store M (F.addr_at vm vm.interpreter_frame_mdx_offset) v) F = v := by
  simp [interpreter_frame_mdx, at_, store]

/-- A store to the bcx slot leaves the mdx slot alone. -/
theorem mdx_store_bcx (vm : VM) (M : Machine) (F : frame) (v : Int) (hd : slots_distinct vm F) :
    interpreter_frame_mdx vm (store M (F.addr_at vm vm.interpreter_frame_bcx_offset) v) F =
      interpreter_frame_mdx vm M F := by
  simp [interpreter_frame_mdx, at_, store, Ne.symm hd.1]

/-- A store to the mdx slot leaves the bcx slot alone. -/
theorem bcx_store_mdx (vm : VM) (M : Machine) (F : frame) (v : Int) (hd : slots_distinct vm F) :
    interpreter_frame_bcx vm (store M (F.addr_at vm vm.interpreter_frame_mdx_offset) v) F =
      interpreter_frame_bcx vm M F := by
  simp [interpreter_frame_bcx, at_, store, hd.1]

/-- A store to the bcx slot leaves the method alone. -/
theorem method_store_bcx (vm : VM) (M : Machine) (F : frame) (v : Int) (hd : slots_distinct vm F) :
    interpreter_frame_method vm (store M (F.addr_at vm vm.interpreter_frame_bcx_offset) v) F =
      interpreter_frame_method vm M F := by
  simp [interpreter_frame_method, at_, store, hd.2.1]

/-- A store to the mdx slot leaves the method alone. -/
theorem method_store_mdx (vm : VM) (M : Machine) (F : frame) (v : Int) (hd : slots_distinct vm F) :
    interpreter_frame_method vm (store M (F.addr_at vm vm.interpreter_frame_mdx_offset) v) F =
      interpreter_frame_method vm M F := by
  simp [interpreter_frame_method, at_, store, hd.2.2]

/-- Setting a bcx of the form already stored only writes the bcx slot. -/
theorem set_bcx_same_form (vm : VM) (M : Machine) (F : frame) (v : Int)
    (hi : F.is_interpreted_frame vm = true)
    (hform : vm.is_bci (interpreter_frame_bcx vm M F) = vm.is_bci v) :
    interpreter_frame_set_bcx vm M F v =
      .ok (store M (F.addr_at vm vm.interpreter_frame_bcx_offset) v) := by
  unfold interpreter_frame_set_bcx
  simp only [hi, Bool.not_true, Bool.false_eq_true, if_false, hform]
  cases vm.ProfileInterpreter <;> cases vm.is_bci v <;> simp

/-- Without profiling, or with an mdx of zero, setting the bcx only writes the
bcx slot. -/
theorem set_bcx_no_mdx (vm : VM) (M : Machine) (F : frame) (v : Int)
    (hi : F.is_interpreted_frame vm = true) (hd : slots_distinct vm F)
    (h : vm.ProfileInterpreter = false ∨ interpreter_frame_mdx vm M F = 0) :
    interpreter_frame_set_bcx vm M F v =
      .ok (store M (F.addr_at vm vm.interpreter_frame_bcx_offset) v) := by
  unfold interpreter_frame_set_bcx
  simp only [hi, Bool.not_true, Bool.false_eq_true, if_false]
  rcases h with h | h
  · simp [h]
  · simp [mdx_store_bcx vm M F v hd, h]

/-- With profiling and a non-zero mdx, a bcx that goes from address form to
index form takes the mdx along: it becomes the data index plus one. -/
theorem set_bcx_to_bci (vm : VM) (M : Machine) (F : frame) (v : Int) (m : methodOop)
    (mdo : methodDataOop)
    (hi : F.is_interpreted_frame vm = true) (hd : slots_distinct vm F)
    (hp : vm.ProfileInterpreter = true)
    (hx : interpreter_frame_mdx vm M F ≠ 0)
    (hm : interpreter_frame_method vm M F = .ok m) (hmdo : m.method_data = some mdo)
    (hold : vm.is_bci (interpreter_frame_bcx vm M F) = false) (hnew : vm.is_bci v = true) :
    interpreter_frame_set_bcx vm M F v =
      .ok (store (store M (F.addr_at vm vm.interpreter_frame_bcx_offset) v)
        (F.addr_at vm vm.interpreter_frame_mdx_offset)
        (mdo.dp_to_di (interpreter_frame_mdx vm M F) + 1)) := by
  unfold interpreter_frame_set_bcx
  simp [hi, hp, hold, hnew, mdx_store_bcx vm M F v hd, hx, method_store_bcx vm M F v hd, hm,
    hmdo, interpreter_frame_set_mdx]

/-- With profiling and a non-zero mdx, a bcx that goes from index form to
address form takes the mdx along: it becomes the data pointer of the index. -/
theorem set_bcx_to_bcp (vm : VM) (M : Machine) (F : frame) (v : Int) (m : methodOop)
    (mdo : methodDataOop)
    (hi : F.is_interpreted_frame vm = true) (hd : slots_distinct vm F)
    (hp : vm.ProfileInterpreter = true)
    (hx : interpreter_frame_mdx vm M F ≠ 0)
    (hm : interpreter_frame_method vm M F = .ok m) (hmdo : m.method_data = some mdo)
    (hold : vm.is_bci (interpreter_frame_bcx vm M F) = true) (hnew : vm.is_bci v = false) :
    interpreter_frame_set_bcx vm M F v =
      .ok (store (store M (F.addr_at vm vm.interpreter_frame_bcx_offset) v)
        (F.addr_at vm vm.interpreter_frame_mdx_offset)
        (mdo.di_to_dp (interpreter_frame_mdx vm M F - 1))) := by
  unfold interpreter_frame_set_bcx
  simp [hi, hp, hold, hnew, mdx_store_bcx vm M F v hd, hx, method_store_bcx vm M F v hd, hm,
    hmdo, interpreter_frame_set_mdx]

/-- The bytecode index of a position stored as an address. -/
theorem bci_of_address_form (vm : VM) (M : Machine) (F : frame) (m : methodOop)
    (hi : F.is_interpreted_frame vm = true) (hm : interpreter_frame_method vm M F = .ok m)
    (hf : vm.is_bci (interpreter_frame_bcx vm M F) = false) :
    interpreter_frame_bci vm M F = .ok (m.bci_from (interpreter_frame_bcx vm M F)) := by
  unfold interpreter_frame_bci
  simp [hi, hf, hm]

/-- The bytecode index of a position stored as an index. -/
theorem bci_of_index_form (vm : VM) (M : Machine) (F : frame)
    (hi : F.is_interpreted_frame vm = true)
    (hf : vm.is_bci (interpreter_frame_bcx vm M F) = true) :
    interpreter_frame_bci vm M F = .ok (interpreter_frame_bcx vm M F) := by
  unfold interpreter_frame_bci
  simp [hi, hf]

/-- The bytecode pointer of a position stored as an index. -/
theorem bcp_of_index_form (vm : VM) (M : Machine) (F : frame) (m : methodOop)
    (hi : F.is_interpreted_frame vm = true) (hm : interpreter_frame_method vm M F = .ok m)
    (hf : vm.is_bci (interpreter_frame_bcx vm M F) = true) :
    interpreter_frame_bcp vm M F = .ok (m.bcp_from (interpreter_frame_bcx vm M F)) := by
  unfold interpreter_frame_bcp
  simp [hi, hf, hm]

/-- The round trip from a position stored as an address: bcx and mdx come back. -/
theorem gc_round_trip_address (vm : VM) (M : Machine) (F : frame) (m : methodOop)
    (mdo : methodDataOop)
    (hi : F.is_interpreted_frame vm = true) (hd : slots_distinct vm F)
    (hm : interpreter_frame_method vm M F = .ok m)
    (hmdo : vm.ProfileInterpreter = true → interpreter_frame_mdx vm M F ≠ 0 →
      m.method_data = some mdo)
    (hold : vm.is_bci (interpreter_frame_bcx vm M F) = false)
    (hbci : vm.is_bci (m.bci_from (interpreter_frame_bcx vm M F)) = true)
    (hinv : m.bcp_from (m.bci_from (interpreter_frame_bcx vm M F)) = interpreter_frame_bcx vm M F)
    (hdinv : mdo.di_to_dp (mdo.dp_to_di (interpreter_frame_mdx vm M F)) =
      interpreter_frame_mdx vm M F)
    (hdi : mdo.dp_to_di (interpreter_frame_mdx vm M F) + 1 ≠ 0) :
    ∃ M2, gc_round_trip vm M F = .ok M2 ∧
      interpreter_frame_bcx vm M2 F = interpreter_frame_bcx vm M F ∧
      interpreter_frame_mdx vm M2 F = interpreter_frame_mdx vm M F := by
  unfold gc_round_trip gc_prologue gc_epilogue
  simp only [hi, if_true, bci_of_address_form vm M F m hi hm hold]
  by_cases hpx : vm.ProfileInterpreter = true ∧ interpreter_frame_mdx vm M F ≠ 0
  · obtain ⟨hp, hx⟩ := hpx
    have hmd := hmdo hp hx
    rw [set_bcx_to_bci vm M F _ m mdo hi hd hp hx hm hmd hold hbci]
    simp only []
    have hb1 : interpreter_frame_bcx vm
        (store (store M (F.addr_at vm vm.interpreter_frame_bcx_offset)
          (m.bci_from (interpreter_frame_bcx vm M F)))
          (F.addr_at vm vm.interpreter_frame_mdx_offset)
          (mdo.dp_to_di (interpreter_frame_mdx vm M F) + 1)) F =
        m.bci_from (interpreter_frame_bcx vm M F) := by
      rw [bcx_store_mdx _ _ _ _ hd, bcx_store_bcx]
    have hm1 : interpreter_frame_method vm
        (store (store M (F.addr_at vm vm.interpreter_frame_bcx_offset)
          (m.bci_from (interpreter_frame_bcx vm M F)))
          (F.addr_at vm vm.interpreter_frame_mdx_offset)
          (mdo.dp_to_di (interpreter_frame_mdx vm M F) + 1)) F = .ok m := by
      rw [method_store_mdx _ _ _ _ hd, method_store_bcx _ _ _ _ hd, hm]
    have hx1 : interpreter_frame_mdx vm
        (store (store M (F.addr_at vm vm.interpreter_frame_bcx_offset)
          (m.bci_from (interpreter_frame_bcx vm M F)))
          (F.addr_at vm vm.interpreter_frame_mdx_offset)
          (mdo.dp_to_di (interpreter_frame_mdx vm M F) + 1)) F =
        mdo.dp_to_di (interpreter_frame_mdx vm M F) + 1 := mdx_store_mdx _ _ _ _
    rw [bcp_of_index_form vm _ F m hi hm1 (by rw [hb1]; exact hbci)]
    simp only []
    rw [set_bcx_to_bcp vm _ F _ m mdo hi hd hp (by rw [hx1]; exact hdi) hm1 hmd
      (by rw [hb1]; exact hbci) (by rw [hb1, hinv]; exact hold)]
    refine ⟨_, rfl, ?_, ?_⟩
    · rw [bcx_store_mdx _ _ _ _ hd, bcx_store_bcx, hb1, hinv]
    · rw [mdx_store_mdx, hx1, Int.add_sub_cancel, hdinv]
  · have hno : vm.ProfileInterpreter = false ∨ interpreter_frame_mdx vm M F = 0 := by
      by_cases hp : vm.ProfileInterpreter = true
      · right
        by_contra hx
        exact hpx ⟨hp, hx⟩
      · left
        simpa using hp
    rw [set_bcx_no_mdx vm M F _ hi hd hno]
    simp only []
    have hb1 : interpreter_frame_bcx vm
        (store M (F.addr_at vm vm.interpreter_frame_bcx_offset)
          (m.bci_from (interpreter_frame_bcx vm M F))) F =
        m.bci_from (interpreter_frame_bcx vm M F) := bcx_store_bcx _ _ _ _
    have hm1 : interpreter_frame_method vm
        (store M (F.addr_at vm vm.interpreter_frame_bcx_offset)
          (m.bci_from (interpreter_frame_bcx vm M F))) F = .ok m := by
      rw [method_store_bcx _ _ _ _ hd, hm]
    have hx1 : interpreter_frame_mdx vm
        (store M (F.addr_at vm vm.interpreter_frame_bcx_offset)
          (m.bci_from (interpreter_frame_bcx vm M F))) F = interpreter_frame_mdx vm M F :=
      mdx_store_bcx _ _ _ _ hd
    rw [bcp_of_index_form vm _ F m hi hm1 (by rw [hb1]; exact hbci)]
    simp only []
    rw [set_bcx_no_mdx vm _ F _ hi hd (by rw [hx1]; exact hno)]
    refine ⟨_, rfl, ?_, ?_⟩
    · rw [bcx_store_bcx, hb1, hinv]
    · rw [mdx_store_bcx _ _ _ _ hd, hx1]

/-- The round trip from a position stored as an index: the bcx comes back as the
bytecode pointer of the index, a non-zero mdx (under profiling) as the data
pointer of its index. -/
theorem gc_round_trip_index (vm : VM) (M : Machine) (F : frame) (m : methodOop)
    (mdo : methodDataOop)
    (hi : F.is_interpreted_frame vm = true) (hd : slots_distinct vm F)
    (hm : interpreter_frame_method vm M F = .ok m)
    (hmdo : vm.ProfileInterpreter = true → interpreter_frame_mdx vm M F ≠ 0 →
      m.method_data = some mdo)
    (hold : vm.is_bci (interpreter_frame_bcx vm M F) = true)
    (hbcp : vm.is_bci (m.bcp_from (interpreter_frame_bcx vm M F)) = false) :
    ∃ M2, gc_round_trip vm M F = .ok M2 ∧
      interpreter_frame_bcx vm M2 F = m.bcp_from (interpreter_frame_bcx vm M F) ∧
      interpreter_frame_mdx vm M2 F =
        (if vm.ProfileInterpreter = true ∧ interpreter_frame_mdx vm M F ≠ 0 then
          mdo.di_to_dp (interpreter_frame_mdx vm M F - 1)
        else interpreter_frame_mdx vm M F) := by
  unfold gc_round_trip gc_prologue gc_epilogue
  simp only [hi, if_true, bci_of_index_form vm M F hi hold]
  rw [set_bcx_same_form vm M F _ hi rfl]
  simp only []
  have hb1 : interpreter_frame_bcx vm
      (store M (F.addr_at vm vm.interpreter_frame_bcx_offset) (interpreter_frame_bcx vm M F)) F =
      interpreter_frame_bcx vm M F := bcx_store_bcx _ _ _ _
  have hm1 : interpreter_frame_method vm
      (store M (F.addr_at vm vm.interpreter_frame_bcx_offset) (interpreter_frame_bcx vm M F)) F =
      .ok m := by
    rw [method_store_bcx _ _ _ _ hd, hm]
  have hx1 : interpreter_frame_mdx vm
      (store M (F.addr_at vm vm.interpreter_frame_bcx_offset) (interpreter_frame_bcx vm M F)) F =
      interpreter_frame_mdx vm M F := mdx_store_bcx _ _ _ _ hd
  rw [bcp_of_index_form vm _ F m hi hm1 (by rw [hb1]; exact hold)]
  simp only []
  by_cases hpx : vm.ProfileInterpreter = true ∧ interpreter_frame_mdx vm M F ≠ 0
  · obtain ⟨hp, hx⟩ := hpx
    have hmd := hmdo hp hx
    rw [set_bcx_to_bcp vm _ F _ m mdo hi hd hp (by rw [hx1]; exact hx) hm1 hmd
      (by rw [hb1]; exact hold) (by rw [hb1]; exact hbcp)]
    refine ⟨_, rfl, ?_, ?_⟩
    · rw [bcx_store_mdx _ _ _ _ hd, bcx_store_bcx, hb1]
    · rw [mdx_store_mdx, hx1, if_pos ⟨hp, hx⟩]
  · have hno : vm.ProfileInterpreter = false ∨ interpreter_frame_mdx vm M F = 0 := by
      by_cases hp : vm.ProfileInterpreter = true
      · right
        by_contra hx
        exact hpx ⟨hp, hx⟩
      · left
        simpa using hp
    rw [set_bcx_no_mdx vm _ F _ hi hd (by rw [hx1]; exact hno)]
    refine ⟨_, rfl, ?_, ?_⟩
    · rw [bcx_store_bcx, hb1]
    · rw [mdx_store_bcx _ _ _ _ hd, hx1, if_neg hpx]

/-- C10 (as stated, refuted): a position stored as an index is not restored.  On
the demo frame, whose method's conversions are mutually inverse, bcx 5 and mdx
3 come back from `gc_prologue()` then `gc_epilogue()` as the address 100005 and
the data pointer 200002. -/
theorem gc_round_trip_index_not_restored :
    (∀ i, demo_method.bci_from (demo_method.bcp_from i) = i) ∧
    (∀ p, demo_method.bcp_from (demo_method.bci_from p) = p) ∧
    interpreter_frame_bcx demo_interp_vm demo_index_stack demo_interp_frame = 5 ∧
    interpreter_frame_mdx demo_interp_vm demo_index_stack demo_interp_frame = 3 ∧
    ∃ M2, gc_round_trip demo_interp_vm demo_index_stack demo_interp_frame = .ok M2 ∧
      interpreter_frame_bcx demo_interp_vm M2 demo_interp_frame = 100005 ∧
      interpreter_frame_mdx demo_interp_vm M2 demo_interp_frame = 200002 ∧
      interpreter_frame_bcx demo_interp_vm M2 demo_interp_frame ≠
        interpreter_frame_bcx demo_interp_vm demo_index_stack demo_interp_frame := by
  refine ⟨fun i => ?_, fun p => ?_, rfl, rfl, ?_⟩
  · simp [demo_method]
  · simp [demo_method]
  · refine ⟨_, rfl, rfl, rfl, ?_⟩
    decide

/-- C10 (amended): for an interpreted frame whose position is stored as a raw
bytecode address, `gc_prologue()` followed by `gc_epilogue()` restores the
stored bcx and the stored mdx exactly (the conversions being inverse at these
values, `bci_from` giving an index, `dp_to_di` an index other than -1); for a
position stored as an index the pair leaves the bytecode pointer of that index
in bcx and, under profiling, the data pointer of a non-zero mdx in mdx. -/
theorem gc_round_trip_position (vm : VM) (M : Machine) (F : frame) (m : methodOop)
    (mdo : methodDataOop)
    (hi : F.is_interpreted_frame vm = true) (hd : slots_distinct vm F)
    (hm : interpreter_frame_method vm M F = .ok m)
    (hmdo : vm.ProfileInterpreter = true → interpreter_frame_mdx vm M F ≠ 0 →
      m.method_data = some mdo) :
    (vm.is_bci (interpreter_frame_bcx vm M F) = false →
      vm.is_bci (m.bci_from (interpreter_frame_bcx vm M F)) = true →
      m.bcp_from (m.bci_from (interpreter_frame_bcx vm M F)) = interpreter_frame_bcx vm M F →
      mdo.di_to_dp (mdo.dp_to_di (interpreter_frame_mdx vm M F)) =
        interpreter_frame_mdx vm M F →
      mdo.dp_to_di (interpreter_frame_mdx vm M F) + 1 ≠ 0 →
      ∃ M2, gc_round_trip vm M F = .ok M2 ∧
        interpreter_frame_bcx vm M2 F = interpreter_frame_bcx vm M F ∧
        interpreter_frame_mdx vm M2 F = interpreter_frame_mdx vm M F) ∧
    (vm.is_bci (interpreter_frame_bcx vm M F) = true →
      vm.is_bci (m.bcp_from (interpreter_frame_bcx vm M F)) = false →
      ∃ M2, gc_round_trip vm M F = .ok M2 ∧
        interpreter_frame_bcx vm M2 F = m.bcp_from (interpreter_frame_bcx vm M F) ∧
        interpreter_frame_mdx vm M2 F =
          (if vm.ProfileInterpreter = true ∧ interpreter_frame_mdx vm M F ≠ 0 then
            mdo.di_to_dp (interpreter_frame_mdx vm M F - 1)
          else interpreter_frame_mdx vm M F)) :=
  ⟨fun hold hbci hinv hdinv hdi =>
      gc_round_trip_address vm M F m mdo hi hd hm hmdo hold hbci hinv hdinv hdi,
    fun hold hbcp => gc_round_trip_index vm M F m mdo hi hd hm hmdo hold hbcp⟩

/-- On the demo frame with its position stored as the address 100005 and the data
pointer 200002, the round trip restores both. -/
theorem gc_round_trip_position_witness :
    ∃ M2, gc_round_trip demo_interp_vm demo_address_stack demo_interp_frame = .ok M2 ∧
      interpreter_frame_bcx demo_interp_vm M2 demo_interp_frame =
        interpreter_frame_bcx demo_interp_vm demo_address_stack demo_interp_frame ∧
      interpreter_frame_mdx demo_interp_vm M2 demo_interp_frame =
        interpreter_frame_mdx demo_interp_vm demo_address_stack demo_interp_frame :=
  (gc_round_trip_position demo_interp_vm demo_address_stack demo_interp_frame demo_method
    { di_to_dp := fun di => di + 200000, dp_to_di := fun dp => dp - 200000 }
    rfl ⟨by decide, by decide, by decide⟩ rfl (fun _ _ => rfl)).1 rfl rfl (by decide)
    (by decide) (by decide)

/-- The total slot size of a signature with one more parameter in front. -/
theorem ArgumentSizeComputer_cons (vm : VM) (t : BasicType) (ts : List BasicType) :
    ArgumentSizeComputer vm (t :: ts) = vm.type2size t + ArgumentSizeComputer vm ts := by
  simp [ArgumentSizeComputer]

/-- The interpreted finder's pass over the parameters: started with `_offset` at
the total slot size of the parameters left, it hands the closure the slots of
the reference-typed parameters, each at the total size of the parameters after
it, and ends with `_offset` zero. -/
theorem interpreted_iterate_parameters (vm : VM) (M : Machine) (F : frame) :
    ∀ (ps : List BasicType) (st : ArgumentFinder),
      st._offset = ArgumentSizeComputer vm ps →
      InterpretedArgumentOopFinder.iterate_parameters vm M F st ps =
        { _offset := 0
          visited := st.visited ++ (reference_offsets vm ps).map (F.interpreter_frame_tos_at vm M) }
  | [], st, h => by
    simp only [InterpretedArgumentOopFinder.iterate_parameters, reference_offsets, List.map_nil,
      List.append_nil]
    cases st
    simp only [ArgumentSizeComputer, List.map_nil, List.sum_nil] at h
    simp only [h]
  | t :: ts, st, h => by
    rw [ArgumentSizeComputer_cons] at h
    simp only [InterpretedArgumentOopFinder.iterate_parameters]
    have hoff : st._offset - vm.type2size t = ArgumentSizeComputer vm ts := by omega
    cases hr : is_reference_type t
    · rw [interpreted_iterate_parameters vm M F ts _ (by
        simp only [InterpretedArgumentOopFinder.set, hr, Bool.false_eq_true, if_false]
        exact hoff)]
      simp [InterpretedArgumentOopFinder.set, hr, reference_offsets]
    · rw [interpreted_iterate_parameters vm M F ts _ (by
        simp only [InterpretedArgumentOopFinder.set, hr, if_true,
          InterpretedArgumentOopFinder.oop_offset_do]
        exact hoff)]
      simp [InterpretedArgumentOopFinder.set, hr, reference_offsets,
        InterpretedArgumentOopFinder.oop_offset_do, hoff]

/-- The number of expected argument offsets: one for the receiver, if present,
and one for each reference-typed parameter. -/
theorem argument_offsets_length (vm : VM) (signature : List BasicType) (has_receiver : Bool) :
    (argument_offsets vm signature has_receiver).length =
      (if has_receiver then 1 else 0) + (signature.filter is_reference_type).length := by
  have h : ∀ ps : List BasicType,
      (reference_offsets vm ps).length = (ps.filter is_reference_type).length := by
    intro ps
    induction ps with
    | nil => rfl
    | cons t ts ih =>
      cases hr : is_reference_type t <;> simp [reference_offsets, hr, ih, List.filter_cons]
  cases has_receiver <;> simp [argument_offsets, h]
  omega

/-- C11: `frame::oops_interpreted_arguments_do` (InterpretedArgumentOopFinder)
gives the visitor exactly the receiver's slot, if a receiver is present, at
the offset equal to the total parameter size, then one slot for each object-
or array-typed parameter, at the top-of-stack-relative offset equal to the
total slot size of the parameters after it, and none for a primitive
parameter; the number of visits is one for the receiver plus the number of
reference-typed parameters. -/
theorem oops_interpreted_arguments_do_visits (vm : VM) (M : Machine) (F : frame)
    (signature : List BasicType) (has_receiver : Bool)
    (hfit : F.is_interpreted_frame vm = true →
      ArgumentSizeComputer vm signature + (if has_receiver then 1 else 0) ≤
        F.interpreter_frame_expression_stack_size vm M) :
    oops_interpreted_arguments_do vm M F signature has_receiver =
      .ok ((argument_offsets vm signature has_receiver).map (F.interpreter_frame_tos_at vm M)) ∧
    (argument_offsets vm signature has_receiver).length =
      (if has_receiver then 1 else 0) + (signature.filter is_reference_type).length := by
  refine ⟨?_, argument_offsets_length vm signature has_receiver⟩
  unfold oops_interpreted_arguments_do InterpretedArgumentOopFinder.create
  have hc : (!(!F.is_interpreted_frame vm ||
      decide (ArgumentSizeComputer vm signature + (if has_receiver then 1 else 0) ≤
        F.interpreter_frame_expression_stack_size vm M))) = false := by
    cases hi : F.is_interpreted_frame vm
    · simp
    · simpa using hfit hi
  simp only [hc, Bool.false_eq_true, if_false]
  unfold InterpretedArgumentOopFinder.oops_do
  cases has_receiver
  · simp only [Bool.false_eq_true, if_false, add_zero]
    rw [interpreted_iterate_parameters vm M F signature _ rfl]
    simp [argument_offsets]
  · simp only [if_true]
    rw [interpreted_iterate_parameters vm M F signature _ (by
      simp [InterpretedArgumentOopFinder.oop_offset_do])]
    simp [argument_offsets, InterpretedArgumentOopFinder.oop_offset_do]

/-- A call with a receiver, two object arguments and one primitive argument
between them: exactly three slots are visited, at offsets 3, 2 and 0 from the
top of stack. -/
theorem oops_interpreted_arguments_do_visits_witness :
    oops_interpreted_arguments_do demo_interp_vm {} demo_interp_frame
        [BasicType.T_OBJECT, BasicType.T_INT, BasicType.T_OBJECT] true =
      .ok [1032 + 3 * 8, 1032 + 2 * 8, 1032 + 0 * 8] ∧
    (argument_offsets demo_interp_vm
        [BasicType.T_OBJECT, BasicType.T_INT, BasicType.T_OBJECT] true).length = 3 :=
  oops_interpreted_arguments_do_visits demo_interp_vm {} demo_interp_frame
    [BasicType.T_OBJECT, BasicType.T_INT, BasicType.T_OBJECT] true (fun _ => by decide)

/-- The total slot size of a signature is not negative when no parameter has a
negative size. -/
theorem ArgumentSizeComputer_nonneg (vm : VM) (hsz : ∀ t, 1 ≤ vm.type2size t) :
    ∀ ps : List BasicType, 0 ≤ ArgumentSizeComputer vm ps
  | [] => by simp [ArgumentSizeComputer]
  | t :: ts => by
    rw [ArgumentSizeComputer_cons]
    have := ArgumentSizeComputer_nonneg vm hsz ts
    have := hsz t
    omega

/-- Every expected reference offset lies below the total slot size. -/
theorem reference_offsets_lt (vm : VM) (hsz : ∀ t, 1 ≤ vm.type2size t) :
    ∀ (ps : List BasicType) (x : Int), x ∈ reference_offsets vm ps →
      0 ≤ x ∧ x < ArgumentSizeComputer vm ps
  | [], x, hx => by simp [reference_offsets] at hx
  | t :: ts, x, hx => by
    rw [ArgumentSizeComputer_cons]
    have h1 := hsz t
    have h0 := ArgumentSizeComputer_nonneg vm hsz ts
    simp only [reference_offsets, List.mem_append] at hx
    rcases hx with hx | hx
    · by_cases hr : is_reference_type t = true
      · simp only [hr, if_true, List.mem_singleton] at hx
        omega
      · simp [hr] at hx
    · have := reference_offsets_lt vm hsz ts x hx
      omega

/-- The expected reference offsets decrease strictly. -/
theorem reference_offsets_decreasing (vm : VM) (hsz : ∀ t, 1 ≤ vm.type2size t) :
    ∀ ps : List BasicType, List.Pairwise (fun a b => a > b) (reference_offsets vm ps)
  | [] => by simp [reference_offsets]
  | t :: ts => by
    simp only [reference_offsets]
    rw [List.pairwise_append]
    refine ⟨?_, reference_offsets_decreasing vm hsz ts, ?_⟩
    · by_cases hr : is_reference_type t = true <;> simp [hr]
    · intro a ha b hb
      by_cases hr : is_reference_type t = true
      · simp only [hr, if_true, List.mem_singleton] at ha
        have := (reference_offsets_lt vm hsz ts b hb).2
        omega
      · simp [hr] at ha

/-- The expected argument offsets decrease strictly. -/
theorem argument_offsets_decreasing (vm : VM) (hsz : ∀ t, 1 ≤ vm.type2size t)
    (signature : List BasicType) (has_receiver : Bool) :
    List.Pairwise (fun a b => a > b) (argument_offsets vm signature has_receiver) := by
  unfold argument_offsets
  rw [List.pairwise_append]
  refine ⟨?_, reference_offsets_decreasing vm hsz signature, ?_⟩
  · cases has_receiver <;> simp
  · intro a ha b hb
    cases has_receiver
    · simp at ha
    · simp only [if_true, List.mem_singleton] at ha
      have := (reference_offsets_lt vm hsz signature b hb).2
      omega

/-- A reference-typed last parameter is expected at offset zero. -/
theorem argument_offsets_last (vm : VM) (ts : List BasicType) (t : BasicType)
    (has_receiver : Bool) (hr : is_reference_type t = true) :
    (argument_offsets vm (ts ++ [t]) has_receiver).getLast? = some 0 := by
  have h : ∀ ps : List BasicType, ∃ l, reference_offsets vm (ps ++ [t]) = l ++ [0] := by
    intro ps
    induction ps with
    | nil => exact ⟨[], by simp [reference_offsets, hr, ArgumentSizeComputer]⟩
    | cons p ps ih =>
      obtain ⟨l, hl⟩ := ih
      refine ⟨(if is_reference_type p then [ArgumentSizeComputer vm (ps ++ [t])] else []) ++ l, ?_⟩
      simp [reference_offsets, hl]
  obtain ⟨l, hl⟩ := h ts
  unfold argument_offsets
  rw [hl, ← List.append_assoc, List.getLast?_append]
  simp

/-- The entry finder's pass over the parameters: started with `_offset` one below
the total slot size of the parameters left, it passes its assertions and hands
the closure the slots of the reference-typed parameters, each at the total
size of the parameters after it. -/
theorem entry_iterate_parameters (vm : VM) (F : frame)
    (hsz : ∀ t, 1 ≤ vm.type2size t)
    (href : ∀ t, is_reference_type t = true → vm.type2size t = 1) :
    ∀ (ps : List BasicType) (st : ArgumentFinder),
      st._offset = ArgumentSizeComputer vm ps - 1 →
      EntryFrameOopFinder.iterate_parameters vm F st ps =
        .ok { _offset := -1
              visited := st.visited ++ (reference_offsets vm ps).map (F.entry_frame_argument_at vm) }
  | [], st, h => by
    simp only [EntryFrameOopFinder.iterate_parameters, reference_offsets, List.map_nil,
      List.append_nil]
    cases st
    simp only [ArgumentSizeComputer, List.map_nil, List.sum_nil] at h
    simp only [h]
    rfl
  | t :: ts, st, h => by
    rw [ArgumentSizeComputer_cons] at h
    have h1 := hsz t
    have h0 := ArgumentSizeComputer_nonneg vm hsz ts
    have hge : (!decide (st._offset ≥ 0)) = false := by
      simp only [Bool.not_eq_false', decide_eq_true_eq]
      omega
    simp only [EntryFrameOopFinder.iterate_parameters, EntryFrameOopFinder.set, hge,
      Bool.false_eq_true, if_false]
    cases hr : is_reference_type t
    · simp only [Bool.false_eq_true, if_false]
      rw [entry_iterate_parameters vm F hsz href ts _ (by
        show st._offset - vm.type2size t = ArgumentSizeComputer vm ts - 1
        omega)]
      simp [reference_offsets, hr]
    · have hone := href t hr
      simp only [if_true, EntryFrameOopFinder.oop_at_offset_do, hge, Bool.false_eq_true,
        if_false]
      rw [entry_iterate_parameters vm F hsz href ts _ (by
        show st._offset - vm.type2size t = ArgumentSizeComputer vm ts - 1
        omega)]
      have hoff : st._offset = ArgumentSizeComputer vm ts := by omega
      simp [reference_offsets, hr, hoff]

/-- C12: when argument oops are included, `frame::oops_entry_do`
(EntryFrameOopFinder::arguments_do) visits the receiver first if the method is
not static, at the offset equal to the total parameter size, then the
reference-typed parameters in declaration order, each at the offset equal to
the total size of the parameters after it; these offsets decrease strictly, a
reference-typed last parameter is at offset 0; the call wrapper's handle block
is scanned only afterwards. -/
theorem oops_entry_do_visits (vm : VM) (M : Machine) (map : RegisterMap) (F : frame)
    (hsz : ∀ t, 1 ≤ vm.type2size t)
    (href : ∀ t, is_reference_type t = true → vm.type2size t = 1)
    (hinc : map._include_argument_oops = true) :
    oops_entry_do vm M map F =
      .ok ((argument_offsets vm
          (M.wrappers (F.entry_frame_call_wrapper vm M)).callee_method.signature
          (!(M.wrappers (F.entry_frame_call_wrapper vm M)).callee_method.is_static)).map
            (F.entry_frame_argument_at vm) ++
        (M.wrappers (F.entry_frame_call_wrapper vm M)).handle_block) ∧
    List.Pairwise (fun a b => a > b)
      (argument_offsets vm
        (M.wrappers (F.entry_frame_call_wrapper vm M)).callee_method.signature
        (!(M.wrappers (F.entry_frame_call_wrapper vm M)).callee_method.is_static)) ∧
    (∀ ts t, (M.wrappers (F.entry_frame_call_wrapper vm M)).callee_method.signature = ts ++ [t] →
      is_reference_type t = true →
      (argument_offsets vm
        (M.wrappers (F.entry_frame_call_wrapper vm M)).callee_method.signature
        (!(M.wrappers (F.entry_frame_call_wrapper vm M)).callee_method.is_static)).getLast? =
        some 0) := by
  refine ⟨?_, argument_offsets_decreasing vm hsz _ _, ?_⟩
  · unfold oops_entry_do
    simp only [hinc, if_true]
    unfold EntryFrameOopFinder.arguments_do EntryFrameOopFinder.create
    have h0 := ArgumentSizeComputer_nonneg vm hsz
      (M.wrappers (F.entry_frame_call_wrapper vm M)).callee_method.signature
    cases hs : (M.wrappers (F.entry_frame_call_wrapper vm M)).callee_method.is_static
    · have hge : (!decide (ArgumentSizeComputer vm
          (M.wrappers (F.entry_frame_call_wrapper vm M)).callee_method.signature - 1 + 1 ≥ 0)) =
          false := by
        simp only [Bool.not_eq_false', decide_eq_true_eq]
        omega
      simp only [Bool.not_false, if_true, EntryFrameOopFinder.oop_at_offset_do, hge,
        Bool.false_eq_true, if_false]
      rw [entry_iterate_parameters vm F hsz href _ _ rfl]
      simp [argument_offsets]
    · simp only [Bool.not_true, Bool.false_eq_true, if_false]
      rw [entry_iterate_parameters vm F hsz href _ _ rfl]
      simp [argument_offsets]
  · intro ts t hsig hr
    rw [hsig]
    exact argument_offsets_last vm ts t _ hr

/-- An entry frame calling a non-static method that takes an object, an int and
an object: the receiver at offset 3, the objects at offsets 2 and 0, then the
wrapper's handle. -/
theorem oops_entry_do_visits_witness :
    oops_entry_do {} demo_entry_machine { _include_argument_oops := true } demo_entry_frame =
      .ok ([2000 + 3 * 8, 2000 + 2 * 8, 2000 + 0 * 8] ++ [3000]) ∧
    List.Pairwise (fun a b => a > b) (argument_offsets {} demo_callee.signature true) ∧
    (∀ ts t, demo_callee.signature = ts ++ [t] → is_reference_type t = true →
      (argument_offsets {} demo_callee.signature true).getLast? = some 0) :=
  oops_entry_do_visits {} demo_entry_machine { _include_argument_oops := true }
    demo_entry_frame (fun t => by cases t <;> decide)
    (fun t ht => by cases t <;> first | rfl | cases ht) rfl

/-- The loop of `real_sender` returns exactly the first frame of the chain from
`result` on that is neither a runtime-stub nor a ricochet frame, provided it is
reached within the fuel. -/
theorem real_sender_loop_spec (vm : VM) (M : Machine) (R : frame) (m : RegisterMap) :
    ∀ (fuel : Nat) (map : RegisterMap) (r : frame),
      real_sender_loop vm M fuel map r = .ok (R, m) ↔
        ∃ k, k ≤ fuel ∧ walk vm M k map r = .ok (R, m) ∧
          (R.is_runtime_frame || R.is_ricochet_frame vm) = false ∧
          ∀ j, j < k → ∃ S m1, walk vm M j map r = .ok (S, m1) ∧
            (S.is_runtime_frame || S.is_ricochet_frame vm) = true := by
  intro fuel
  induction fuel with
  | zero =>
    intro map r
    rw [real_sender_loop]
    constructor
    · intro h
      by_cases hs : (r.is_runtime_frame || r.is_ricochet_frame vm) = true
      · rw [if_pos hs] at h
        cases h
      · rw [if_neg hs] at h
        cases h
        exact ⟨0, le_refl _, rfl, by simpa using hs, fun j hj => absurd hj (Nat.not_lt_zero j)⟩
    · rintro ⟨k, hk, hw, hR, -⟩
      have hk0 : k = 0 := by omega
      subst hk0
      simp only [walk] at hw
      cases hw
      rw [if_neg (by simp [hR])]
  | succ n ih =>
    intro map r
    rw [real_sender_loop]
    by_cases hs : (r.is_runtime_frame || r.is_ricochet_frame vm) = true
    · rw [if_pos hs]
      constructor
      · intro h
        cases hsend : sender vm M map r with
        | error e =>
          rw [hsend] at h
          cases h
        | ok p =>
          obtain ⟨S, m1⟩ := p
          rw [hsend] at h
          simp only [] at h
          obtain ⟨k, hk, hw, hR, hall⟩ := (ih m1 S).mp h
          refine ⟨k + 1, by omega, ?_, hR, ?_⟩
          · rw [walk, hsend]
            exact hw
          · intro j hj
            cases j with
            | zero => exact ⟨r, map, rfl, hs⟩
            | succ j =>
              obtain ⟨T, m2, hT, hTs⟩ := hall j (by omega)
              refine ⟨T, m2, ?_, hTs⟩
              rw [walk, hsend]
              exact hT
      · rintro ⟨k, hk, hw, hR, hall⟩
        cases k with
        | zero =>
          simp only [walk] at hw
          cases hw
          rw [hR] at hs
          cases hs
        | succ k =>
          rw [walk] at hw
          cases hsend : sender vm M map r with
          | error e =>
            rw [hsend] at hw
            cases hw
          | ok p =>
            obtain ⟨S, m1⟩ := p
            rw [hsend] at hw
            simp only [] at hw ⊢
            refine (ih m1 S).mpr ⟨k, by omega, hw, hR, ?_⟩
            intro j hj
            obtain ⟨T, m2, hT, hTs⟩ := hall (j + 1) (by omega)
            rw [walk, hsend] at hT
            exact ⟨T, m2, hT, hTs⟩
    · rw [if_neg hs]
      constructor
      · intro h
        cases h
        exact ⟨0, by omega, rfl, by simpa using hs, fun j hj => absurd hj (Nat.not_lt_zero j)⟩
      · rintro ⟨k, hk, hw, hR, hall⟩
        cases k with
        | zero =>
          simp only [walk] at hw
          cases hw
          rfl
        | succ k =>
          obtain ⟨T, m2, hT, hTs⟩ := hall 0 (by omega)
          simp only [walk] at hT
          cases hT
          exact absurd hTs hs

/-- C13: whenever its loop terminates, `frame::real_sender(map)` returns the first
frame in the chain sender(F), sender(sender(F)), ... that is neither a
runtime-stub frame nor a ricochet frame (every earlier frame of the chain is
one of the two); conversely, when such a frame is reached after at most `fuel`
skipped frames, it is what `real_sender` returns. -/
theorem real_sender_first_real_frame (vm : VM) (M : Machine) (fuel : Nat) (map : RegisterMap)
    (F R : frame) (m : RegisterMap) :
    real_sender vm M fuel map F = .ok (R, m) ↔
      ∃ k, k ≤ fuel ∧ walk vm M (k + 1) map F = .ok (R, m) ∧
        R.is_runtime_frame = false ∧ R.is_ricochet_frame vm = false ∧
        ∀ j, j < k → ∃ S m1, walk vm M (j + 1) map F = .ok (S, m1) ∧
          (S.is_runtime_frame = true ∨ S.is_ricochet_frame vm = true) := by
  unfold real_sender
  cases hsend : sender vm M map F with
  | error e =>
    constructor
    · intro h
      cases h
    · rintro ⟨k, -, hw, -⟩
      rw [walk, hsend] at hw
      cases hw
  | ok p =>
    obtain ⟨r, m1⟩ := p
    simp only []
    rw [real_sender_loop_spec vm M R m fuel m1 r]
    constructor
    · rintro ⟨k, hk, hw, hR, hall⟩
      simp only [Bool.or_eq_false_iff] at hR
      refine ⟨k, hk, ?_, hR.1, hR.2, ?_⟩
      · rw [walk, hsend]
        exact hw
      · intro j hj
        obtain ⟨T, m2, hT, hTs⟩ := hall j hj
        refine ⟨T, m2, ?_, by simpa using hTs⟩
        rw [walk, hsend]
        exact hT
    · rintro ⟨k, hk, hw, hR1, hR2, hall⟩
      rw [walk, hsend] at hw
      refine ⟨k, hk, hw, by simp [hR1, hR2], ?_⟩
      intro j hj
      obtain ⟨T, m2, hT, hTs⟩ := hall j hj
      rw [walk, hsend] at hT
      exact ⟨T, m2, hT, by simpa using hTs⟩

/-- From the compiled frame of the three-level demo stack `real_sender` returns
the interpreted caller at sp 1032, the first frame of the chain. -/
theorem real_sender_first_real_frame_witness :
    ∃ R m, real_sender demo_walk_vm demo_walk_stack 0 {} demo_mid_frame = .ok (R, m) ∧
      R._sp = 1032 ∧ R.is_runtime_frame = false ∧ R.is_ricochet_frame demo_walk_vm = false :=
  ⟨_, _, (real_sender_first_real_frame demo_walk_vm demo_walk_stack 0 {} demo_mid_frame _ _).mpr
    ⟨0, le_refl _, rfl, rfl, rfl, fun j hj => absurd hj (Nat.not_lt_zero j)⟩, rfl, rfl, rfl⟩

/-- C14 (as stated, refuted): the frame `frame::sender_for_entry_frame` returns
need not have the anchor's pc.  The frame at sp 1500 is an entry frame and not
the first one; its anchor's `last_Java_pc` is the deopt handler 600 of a frame
for which pc 500 is recorded as original PC; the frame returned has sp 2000,
fp 2100 and pc 500. -/
theorem sender_for_entry_frame_pc_replaced :
    demo_below_anchor_frame.is_entry_frame demo_deopt_walk_vm = true ∧
    demo_below_anchor_frame.is_first_frame demo_deopt_walk_vm demo_anchor_machine = false ∧
    ∃ S m, sender_for_entry_frame demo_deopt_walk_vm demo_anchor_machine {}
        demo_below_anchor_frame = .ok (S, m) ∧
      (demo_anchor_machine.wrappers (demo_below_anchor_frame.entry_frame_call_wrapper
        demo_deopt_walk_vm demo_anchor_machine)).anchor.last_Java_pc = 600 ∧
      S._sp = 2000 ∧ S._fp = 2100 ∧ S._pc = 500 ∧
      S._pc ≠ (demo_anchor_machine.wrappers (demo_below_anchor_frame.entry_frame_call_wrapper
        demo_deopt_walk_vm demo_anchor_machine)).anchor.last_Java_pc :=
  ⟨rfl, rfl, _, _, rfl, rfl, rfl, rfl, rfl, by decide⟩

/-- C14 (amended): for an entry frame that is not the first frame, the anchor's
`last_Java_sp` being above its sp and `last_Java_pc` non-null,
`frame::sender_for_entry_frame` clears the map and returns the frame
constructed from the anchor's `last_Java_sp`, `last_Java_fp` and
`last_Java_pc`: its sp and fp are the anchor's; its pc is `last_Java_pc` and it
is not deoptimized, unless the lookup for `last_Java_pc` finds an original PC:
then its pc is that original PC and it is deoptimized.
`entry_frame_is_first()` is true exactly when the anchor's `last_Java_sp` is
null. -/
theorem sender_for_entry_frame_from_anchor (vm : VM) (M : Machine) (map : RegisterMap)
    (F : frame)
    (hver : deopt_record_verified M
      (raw_frame vm (M.wrappers (F.entry_frame_call_wrapper vm M)).anchor.last_Java_sp
        (M.wrappers (F.entry_frame_call_wrapper vm M)).anchor.last_Java_sp
        (M.wrappers (F.entry_frame_call_wrapper vm M)).anchor.last_Java_fp
        (M.wrappers (F.entry_frame_call_wrapper vm M)).anchor.last_Java_pc) = true)
    (hnf : (M.wrappers (F.entry_frame_call_wrapper vm M)).anchor.last_Java_sp ≠ NULL)
    (habove : F._sp < (M.wrappers (F.entry_frame_call_wrapper vm M)).anchor.last_Java_sp)
    (hpc : (M.wrappers (F.entry_frame_call_wrapper vm M)).anchor.last_Java_pc ≠ NULL) :
    (∃ S, sender_for_entry_frame vm M map F = .ok (S, map.clear) ∧
      ctor3 vm M (M.wrappers (F.entry_frame_call_wrapper vm M)).anchor.last_Java_sp
        (M.wrappers (F.entry_frame_call_wrapper vm M)).anchor.last_Java_fp
        (M.wrappers (F.entry_frame_call_wrapper vm M)).anchor.last_Java_pc = .ok S ∧
      S._sp = (M.wrappers (F.entry_frame_call_wrapper vm M)).anchor.last_Java_sp ∧
      S._fp = (M.wrappers (F.entry_frame_call_wrapper vm M)).anchor.last_Java_fp ∧
      ((get_deopt_original_pc M { S with _pc :=
            (M.wrappers (F.entry_frame_call_wrapper vm M)).anchor.last_Java_pc } = NULL ∧
          S._pc = (M.wrappers (F.entry_frame_call_wrapper vm M)).anchor.last_Java_pc ∧
          S._deopt_state = deopt_state.not_deoptimized) ∨
       (get_deopt_original_pc M { S with _pc :=
            (M.wrappers (F.entry_frame_call_wrapper vm M)).anchor.last_Java_pc } ≠ NULL ∧
          S._pc = get_deopt_original_pc M { S with _pc :=
            (M.wrappers (F.entry_frame_call_wrapper vm M)).anchor.last_Java_pc } ∧
          S._deopt_state = deopt_state.is_deoptimized))) ∧
    (F.entry_frame_is_first vm M = true ↔
      (M.wrappers (F.entry_frame_call_wrapper vm M)).anchor.last_Java_sp = NULL) := by
  constructor
  · obtain ⟨S, hS, h1, h2, -, -, h5⟩ := ctor4_spec vm M _ _ _ _ hver
    refine ⟨S, ?_, hS, h1, h2, h5⟩
    unfold sender_for_entry_frame
    simp only []
    have hf : F.entry_frame_is_first vm M = false := by
      unfold entry_frame_is_first
      simpa using hnf
    have hab : (!decide ((M.wrappers (F.entry_frame_call_wrapper vm M)).anchor.last_Java_sp >
        F._sp)) = false := by
      simpa using habove
    rw [hf, hab, clear_include_argument_oops]
    simp only [Bool.false_eq_true, if_false, Bool.not_true]
    rw [if_pos hpc]
    unfold ctor3
    rw [hS]
  · unfold entry_frame_is_first
    simp

/-- An entry frame whose anchor points at a frame with sp 2000, fp 2100 and the
deopt handler 600 as pc, pc 500 being recorded for that frame: the sender has
that sp and fp, pc 500, and is deoptimized. -/
theorem sender_for_entry_frame_from_anchor_witness :
    demo_below_anchor_frame.is_entry_frame demo_deopt_walk_vm = true ∧
    ∃ S, sender_for_entry_frame demo_deopt_walk_vm demo_anchor_machine {}
        demo_below_anchor_frame = .ok (S, RegisterMap.clear {}) ∧
      S._sp = 2000 ∧ S._fp = 2100 ∧ S._pc = 500 ∧
      S._deopt_state = deopt_state.is_deoptimized := by
  obtain ⟨S, h1, -, h3, h4, -⟩ := (sender_for_entry_frame_from_anchor demo_deopt_walk_vm
    demo_anchor_machine {} demo_below_anchor_frame rfl (by decide) (by decide) (by decide)).1
  refine ⟨rfl, S, h1, h3, h4, ?_, ?_⟩
  · cases h1
    rfl
  · cases h1
    rfl

/-- C15 (the code returns a sender for a zero frame size): the assertion "must
have non-zero frame size" tests `frame_size() >= 0`, which zero passes; for a
frame whose unextended sp differs from its sp the assertion "must have
changed" passes too, and a sender with sp equal to the frame's unextended sp
is returned. -/
theorem sender_for_compiled_frame_zero_size :
    demo_zero_blob.frame_size = 0 ∧
    ∃ S m, sender_for_compiled_frame {} {} {} demo_zero_frame = .ok (S, m) ∧
      S._sp = demo_zero_frame._unextended_sp :=
  ⟨rfl, _, _, rfl, rfl⟩

/-- A frame at its method's poll return cannot and should not be deoptimized. -/
theorem poll_return_not_deoptimizable (F : frame) (nm : CodeBlob)
    (hcb : F._cb = some nm) (hpoll : nm.is_at_poll_return F._pc = true) :
    F.can_be_deoptimized = false ∧ F.should_be_deoptimized = .ok false := by
  constructor
  · unfold can_be_deoptimized
    rw [hcb]
    simp only [hpoll, Bool.not_true]
    cases F.is_compiled_frame <;> cases nm.can_be_deoptimized <;> rfl
  · unfold should_be_deoptimized
    by_cases h1 : (F._deopt_state == deopt_state.is_deoptimized || !F.is_compiled_frame) = true
    · rw [if_pos h1]
    · rw [if_neg h1, hcb]
      simp only [Bool.or_eq_true, Bool.not_eq_true', not_or, Bool.not_eq_false] at h1
      have hc := h1.2
      unfold is_compiled_frame at hc
      rw [hcb] at hc
      simp only [Bool.and_eq_true] at hc
      simp only [hc.1, Bool.not_true, Bool.false_eq_true, if_false, hpoll]
      cases nm.is_marked_for_deoptimization <;> rfl

/-- A frame that is not a compiled frame cannot and should not be deoptimized. -/
theorem not_compiled_not_deoptimizable (F : frame) (hc : F.is_compiled_frame = false) :
    F.can_be_deoptimized = false ∧ F.should_be_deoptimized = .ok false := by
  constructor
  · unfold can_be_deoptimized
    simp [hc]
  · unfold should_be_deoptimized
    simp [hc]

/-- C16 (as stated, refuted): `frame::deoptimize` patches a frame at its method's
poll return.  The demo activation is stopped at pc 500, its poll return; after
`deoptimize` the return-address word at 992, which held 0, holds the handler
600, and pc 500 is recorded as original PC where nothing was recorded. -/
theorem deoptimize_patches_at_poll_return :
    demo_poll_nmethod.is_at_poll_return demo_poll_frame._pc = true ∧
    ({} : Machine).mem (1000 - 1 * 8) = 0 ∧
    get_original_pc {} demo_poll_nmethod demo_poll_frame = 0 ∧
    ∃ M2 F2, deoptimize demo_poll_vm 0 {} demo_deopt_thread demo_poll_frame =
        .ok (M2, demo_deopt_thread, F2) ∧
      M2.mem (1000 - 1 * 8) = 600 ∧
      get_original_pc M2 demo_poll_nmethod demo_poll_frame = 500 :=
  ⟨rfl, rfl, rfl, _, _, rfl, rfl, rfl⟩

/-- C16 (amended): `frame::deoptimize(thread)` does not test the poll-return
point: on its patch path it records the original PC and overwrites the
return-address word at `sp[-1]` with the selected handler also for a compiled
frame whose pc is at its method's normal-return poll point; the refusal is
what `can_be_deoptimized()` and `should_be_deoptimized()` answer for such a
frame, namely false. -/
theorem deoptimize_ignores_poll_return (vm : VM) (fuel : Nat) (M : Machine)
    (thread : JavaThread) (F : frame) (nm : CodeBlob)
    (hcb : F._cb = some nm) (hnm : nm.is_nmethod = true)
    (hpoll : nm.is_at_poll_return F._pc = true)
    (hguard : deopt_suspend_guard vm M thread F = .ok none)
    (hblob : vm.find_blob (deopt_handler nm F._pc) = some nm)
    (hpc : F._pc ≠ NULL)
    (hcheck : ∀ M2 F2,
      patch_pc vm (set_original_pc M nm F F._pc) F (deopt_handler nm F._pc) = .ok (M2, F2) →
      missed_deopt_check vm fuel M2 thread F2 = .ok ()) :
    (∃ M2 F2, deoptimize vm fuel M thread F = .ok (M2, thread, F2) ∧
      get_original_pc M2 nm F = F._pc ∧
      M2.mem (F._sp - 1 * vm.wordSize) = deopt_handler nm F._pc) ∧
    F.can_be_deoptimized = false ∧ F.should_be_deoptimized = .ok false := by
  have _ := hpc
  have hp := deoptimize_patch_state vm M F nm hnm hblob
  refine ⟨⟨deopt_machine vm M F nm, deopt_frame F nm,
    deoptimize_ok vm fuel M thread F nm hcb hnm hguard hblob (hcheck _ _ hp), ?_, ?_⟩,
    poll_return_not_deoptimizable F nm hcb hpoll⟩
  · simp [get_original_pc, deopt_machine]
  · simp [deopt_machine]

/-- The demo activation at its poll return: `deoptimize` patches it, while
`can_be_deoptimized()` and `should_be_deoptimized()` say false. -/
theorem deoptimize_ignores_poll_return_witness :
    (∃ M2 F2, deoptimize demo_poll_vm 0 {} demo_deopt_thread demo_poll_frame =
        .ok (M2, demo_deopt_thread, F2) ∧
      get_original_pc M2 demo_poll_nmethod demo_poll_frame = 500 ∧
      M2.mem (1000 - 1 * 8) = deopt_handler demo_poll_nmethod 500) ∧
    demo_poll_frame.can_be_deoptimized = false ∧
    demo_poll_frame.should_be_deoptimized = .ok false :=
  deoptimize_ignores_poll_return demo_poll_vm 0 {} demo_deopt_thread demo_poll_frame
    demo_poll_nmethod rfl rfl rfl rfl rfl (by decide)
    (by
      intro M2 F2 h
      cases h
      rfl)

/-- C17: for a frame whose pc is at its compiled method's normal-return poll
point, `frame::can_be_deoptimized()` and `frame::should_be_deoptimized()`
return false; both also return false for a frame that is not a compiled
frame. -/
theorem deoptimization_tests_false (F : frame) :
    (∀ nm, F._cb = some nm → nm.is_at_poll_return F._pc = true →
      F.can_be_deoptimized = false ∧ F.should_be_deoptimized = .ok false) ∧
    (F.is_compiled_frame = false →
      F.can_be_deoptimized = false ∧ F.should_be_deoptimized = .ok false) :=
  ⟨fun nm hcb hpoll => poll_return_not_deoptimizable F nm hcb hpoll,
    fun hc => not_compiled_not_deoptimizable F hc⟩

/-- The demo activation at its poll return is a compiled frame of a method marked
for deoptimization that can be deoptimized; both tests say false. -/
theorem deoptimization_tests_false_witness :
    demo_poll_frame.is_compiled_frame = true ∧
    demo_poll_frame.can_be_deoptimized = false ∧
    demo_poll_frame.should_be_deoptimized = .ok false :=
  ⟨rfl, (deoptimization_tests_false demo_poll_frame).1 demo_poll_nmethod rfl rfl⟩

/-- C18: for a frame whose pc is not a deoptimization pc of its nmethod,
`frame::set_pc(newpc)` sets the pc to `newpc`, the deopt state to unknown and
the code identity to the code cache's lookup of `newpc`, and leaves sp,
unextended sp and fp unchanged; afterwards `is_deoptimized_frame()` is not
answerable: its assertion fails. -/
theorem set_pc_effect (vm : VM) (F : frame) (newpc : Int)
    (hinv : ∀ nm, F._cb = some nm → nm.is_nmethod = true → nm.is_deopt_pc F._pc = false) :
    ∃ G, set_pc vm F newpc = .ok G ∧ G._pc = newpc ∧
      G._deopt_state = deopt_state.unknown ∧ G._cb = vm.find_blob_unsafe newpc ∧
      G._sp = F._sp ∧ G._unextended_sp = F._unextended_sp ∧ G._fp = F._fp ∧
      G.is_deoptimized_frame = .error "not answerable" := by
  refine ⟨{ F with _deopt_state := deopt_state.unknown, _pc := newpc,
                   _cb := vm.find_blob_unsafe newpc }, ?_, rfl, rfl, rfl, rfl, rfl, rfl, rfl⟩
  unfold set_pc
  cases hcb : F._cb with
  | none => rfl
  | some nm =>
    simp only []
    by_cases hn : nm.is_nmethod = true
    · have hd := hinv nm hcb hn
      simp [hn, hd]
    · simp [hn]

/-- Setting the pc of the demo activation to 700: the frame object gets pc 700
and an unknown deopt state, and `is_deoptimized_frame()` fails its assertion. -/
theorem set_pc_effect_witness :
    ∃ G, set_pc demo_stub_vm demo_deopt_frame 700 = .ok G ∧ G._pc = 700 ∧
      G._deopt_state = deopt_state.unknown ∧ G._cb = demo_stub_vm.find_blob_unsafe 700 ∧
      G._sp = demo_deopt_frame._sp ∧ G._unextended_sp = demo_deopt_frame._unextended_sp ∧
      G._fp = demo_deopt_frame._fp ∧
      G.is_deoptimized_frame = .error "not answerable" :=
  set_pc_effect demo_stub_vm demo_deopt_frame 700 (fun nm h _ => by
    cases h
    rfl)

/-- The flag `sender` leaves in the map, whenever it returns. -/
theorem sender_flag_of_ok (vm : VM) (M : Machine) (map : RegisterMap) (F : frame)
    (hric : F.is_ricochet_frame vm = false) (S : frame) (m1 : RegisterMap)
    (h : sender vm M map F = .ok (S, m1)) :
    m1._include_argument_oops = sender_argument_oops_flag vm map F := by
  unfold sender at h
  unfold sender_argument_oops_flag
  simp only [] at h
  by_cases he : F.is_entry_frame vm = true
  · rw [if_pos he] at h ⊢
    unfold sender_for_entry_frame at h
    simp only [] at h
    split at h
    · cases h
    · split at h
      · cases h
      · split at h
        · cases h
        · split at h
          · split at h
            · cases h
            · cases h
              exact clear_include_argument_oops _
          · split at h
            · cases h
            · cases h
              exact clear_include_argument_oops _
  · rw [if_neg he] at h ⊢
    by_cases hi : F.is_interpreted_frame vm = true
    · rw [if_pos hi] at h ⊢
      unfold sender_for_interpreter_frame at h
      simp only [] at h
      split at h
      · cases h
      · split at h
        · cases h
        · cases h
          unfold update_map_with_saved_link RegisterMap.set_location
            RegisterMap.set_include_argument_oops
          split
          · simp only []
            split <;> rfl
          · rfl
    · rw [if_neg hi] at h ⊢
      split at h
      · cases h
      · rw [hric] at h
        simp only [Bool.false_eq_true, if_false] at h
        cases hcb : F._cb with
        | none =>
          rw [hcb] at h
          simp only [Option.isSome_none, Bool.false_eq_true, if_false] at h
          split at h
          · cases h
          · cases h
            rfl
        | some cb =>
          rw [hcb] at h
          simp only [Option.isSome_some, if_true] at h
          unfold sender_for_compiled_frame at h
          rw [hric, hcb] at h
          simp only [Bool.false_eq_true, if_false] at h
          split at h
          · cases h
          · split at h
            · cases h
            · split at h
              · cases h
              · cases h
                unfold compiled_sender_map update_map_with_saved_link RegisterMap.set_location
                  RegisterMap.set_include_argument_oops
                simp only []
                cases map._update_map
                · rfl
                · simp only [if_true]
                  cases cb.has_oop_maps <;> cases vm.AMD64 <;> rfl

/-- C19: `frame::sender(map)` resets the map's `include_argument_oops` flag before
dispatching; when it returns, the flag is true for an entry frame (the map is
cleared), false for an interpreted frame and for a frame without code identity,
and for a compiled frame `cb->caller_must_gc_arguments(thread)` when the map
is in update mode and false when it is not.  A frame that meets its kind's
precondition, the debug verification passing for its sender, does return. -/
theorem sender_include_argument_oops (vm : VM) (M : Machine) (map : RegisterMap) (F : frame)
    (hric : F.is_ricochet_frame vm = false) :
    (∀ S m1, sender vm M map F = .ok (S, m1) →
      m1._include_argument_oops =
        (if F.is_entry_frame vm then true
         else if F.is_interpreted_frame vm then false
         else
           match F._cb with
           | some cb => if map._update_map then cb.caller_must_gc_arguments map._thread else false
           | none => false)) ∧
    (0 < vm.wordSize → 0 ≤ vm.sender_sp_offset → F.sender_verified vm M = true → 0 ≤ F._sp →
      (F.is_entry_frame vm = false → F.is_interpreted_frame vm = false →
        same_blob F._cb (vm.find_blob F._pc) = true) →
      kind_precondition vm M F = true →
      ∃ S m1, sender vm M map F = .ok (S, m1) ∧
        m1._include_argument_oops = sender_argument_oops_flag vm map F) := by
  refine ⟨fun S m1 h => sender_flag_of_ok vm M map F hric S m1 h, ?_⟩
  intro hws hoff hver hsp hsame hpre
  obtain ⟨S, m1, hS, -⟩ := sender_sp_increases vm M map F hws hoff hver hsp hric hsame hpre
  exact ⟨S, m1, hS, sender_flag_of_ok vm M map F hric S m1 hS⟩

/-- The compiled frame of the three-level demo stack, walked with a map in update
mode: the sender is returned and the flag is what the code blob's
`caller_must_gc_arguments` says, false. -/
theorem sender_include_argument_oops_witness :
    ∃ S m1, sender demo_walk_vm demo_walk_stack { _update_map := true } demo_mid_frame =
        .ok (S, m1) ∧
      m1._include_argument_oops = demo_nmethod.caller_must_gc_arguments {} :=
  (sender_include_argument_oops demo_walk_vm demo_walk_stack { _update_map := true }
    demo_mid_frame rfl).2 (by decide) (by decide) rfl (by decide) (fun _ _ => rfl) rfl

/-- C20 (as stated, refuted): right after construction the flag is true, not
false, in either update mode. -/
theorem new_RegisterMap_flag_is_true :
    (new_RegisterMap demo_thread false)._include_argument_oops = true ∧
    (new_RegisterMap demo_thread true)._include_argument_oops = true ∧
    (new_RegisterMap demo_thread false)._include_argument_oops ≠ false :=
  ⟨rfl, rfl, by decide⟩

/-- C20 (amended): immediately after construction with `RegisterMap(thread,
update_map)`, and immediately after `RegisterMap::clear()`,
`include_argument_oops()` is true, for either value of `update_map`; it is
`set_include_argument_oops(false)`, with which `frame::sender` starts every
step, that makes it false. -/
theorem RegisterMap_flag_after_clear (thread : JavaThread) (update_map : Bool)
    (map : RegisterMap) :
    (new_RegisterMap thread update_map)._include_argument_oops = true ∧
    map.clear._include_argument_oops = true ∧
    (map.set_include_argument_oops false)._include_argument_oops = false :=
  ⟨clear_include_argument_oops _, clear_include_argument_oops _, rfl⟩

/-- C23: for an entry frame with a code identity whose `sp` and `unextended_sp`
pass the bounds checks and whose pc the frame-complete check does not reject,
`frame::safe_for_sender` returns true exactly when `sp < fp <= stack_base` and
the call wrapper address `jcw` satisfies `fp < jcw <= stack_base`. -/
theorem safe_for_sender_entry_frame (vm : VM) (M : Machine) (thread : JavaThread) (F : frame)
    (cb : CodeBlob) (hcb : F._cb = some cb) (hentry : F.is_entry_frame vm = true)
    (hb : thread.stack_base - thread.stack_size ≤ F._sp ∧ F._sp ≤ thread.stack_base ∧
      F._sp ≤ F._unextended_sp ∧ F._unextended_sp ≤ thread.stack_base)
    (hfc : cb.is_frame_complete_at F._pc = true ∨
      (cb.is_nmethod = false ∧ cb.is_adapter_blob = false ∧ cb.is_runtime_stub = false)) :
    (safe_for_sender vm M thread F).result =
      .ok (decide (F._sp < F._fp ∧ F._fp ≤ thread.stack_base ∧
        F._fp < F.entry_frame_call_wrapper vm M ∧
        F.entry_frame_call_wrapper vm M ≤ thread.stack_base)) := by
  unfold safe_for_sender
  simp only []
  split
  · rename_i a
    simp at a
    omega
  · split
    · rename_i a b
      simp at b
      omega
    · split
      · rename_i cb1 hcb1
        rw [hcb] at hcb1
        cases hcb1
        split
        · rename_i c
          rcases hfc with h | ⟨h1, h2, h3⟩
          · simp [h] at c
          · simp [h1, h2, h3] at c
        · split
          · rename_i c
            simp at c
            show Except.ok false = Except.ok _
            congr 1
            symm
            rw [decide_eq_false_iff_not]
            intro h
            omega
          · rename_i c
            simp at c
            simp only [Except.ok.injEq]
            rw [Bool.eq_iff_iff]
            simp only [Bool.and_eq_true, decide_eq_true_eq]
            constructor
            · intro h
              omega
            · intro h
              omega
      · rename_i hn
        rw [hcb] at hn
        cases hn

/-- An entry frame at the call stub with `sp = 2000 < fp = 2100` and its call
wrapper at 2200 below the stack base 4096 is accepted. -/
theorem safe_for_sender_entry_frame_witness :
    (safe_for_sender demo_walk_vm demo_wrapper_stack demo_thread demo_stub_entry_frame).result =
      .ok true :=
  safe_for_sender_entry_frame demo_walk_vm demo_wrapper_stack demo_thread demo_stub_entry_frame
    demo_call_stub rfl rfl (by decide) (Or.inl rfl)

/-- C24: for a frame whose code identity is a compiled method (nmethod) or an
adapter blob and whose pc is not at a frame-complete point of that code region,
`frame::safe_for_sender` returns false. -/
theorem safe_for_sender_frame_incomplete (vm : VM) (M : Machine) (thread : JavaThread)
    (F : frame) (cb : CodeBlob) (hcb : F._cb = some cb)
    (hkind : cb.is_nmethod = true ∨ cb.is_adapter_blob = true)
    (hfc : cb.is_frame_complete_at F._pc = false) :
    (safe_for_sender vm M thread F).result = .ok false := by
  unfold safe_for_sender
  simp only []
  split
  · rfl
  · split
    · rfl
    · split
      · rename_i cb1 hcb1
        rw [hcb] at hcb1
        cases hcb1
        split
        · rfl
        · rename_i c
          rcases hkind with h | h
          · simp [hfc, h] at c
          · simp [hfc, h] at c
      · rename_i hn
        rw [hcb] at hn
        cases hn

/-- An activation of a compiled method stopped where the frame is not complete
is rejected although its pointers are all inside the stack. -/
theorem safe_for_sender_frame_incomplete_witness :
    (safe_for_sender {} demo_stub_stack demo_thread demo_incomplete_frame).result = .ok false :=
  safe_for_sender_frame_incomplete {} demo_stub_stack demo_thread demo_incomplete_frame
    demo_incomplete_nmethod rfl (Or.inl rfl) rfl

/-- C26: `frame::adjust_unextended_sp` (its debug verification passing) changes
no field other than `unextended_sp`, and sets it to the value of the
frame-pointer slot exactly when the code identity is an nmethod and the pc is a
method-handle deoptimization entry, or is not an ordinary deoptimization entry
but is a method-handle return site; in every other case it is unchanged. -/
theorem adjust_unextended_sp_effect (M : Machine) (F : frame)
    (hv : ∀ nm, F._cb = some nm → nm.is_nmethod = true →
      (nm.is_deopt_mh_entry F._pc = true → verify_deopt_original_pc M nm F._fp true = .ok ()) ∧
      (nm.is_deopt_mh_entry F._pc = false → nm.is_deopt_entry F._pc = true →
        verify_deopt_original_pc M nm F._unextended_sp false = .ok ())) :
    adjust_unextended_sp M F =
      .ok { F with _unextended_sp :=
              if F.returns_to_method_handle_site = true then F._fp else F._unextended_sp } := by
  obtain ⟨sp, pc, cb, ds, fp, usp⟩ := F
  unfold adjust_unextended_sp returns_to_method_handle_site
  cases cb with
  | none => rfl
  | some nm =>
    simp only []
    by_cases hn : nm.is_nmethod = true
    · rw [if_pos hn]
      by_cases hmh : nm.is_deopt_mh_entry pc = true
      · rw [if_pos hmh, (hv nm rfl hn).1 hmh]
        simp [hn, hmh]
      · rw [if_neg hmh]
        by_cases hde : nm.is_deopt_entry pc = true
        · rw [if_pos hde, (hv nm rfl hn).2 (by simpa using hmh) hde]
          simp [hn, hmh, hde]
        · rw [if_neg hde]
          by_cases hr : nm.is_method_handle_return pc = true
          · rw [if_pos hr]
            simp [hn, hmh, hde, hr]
          · rw [if_neg hr]
            simp [hn, hmh, hde, hr]
    · rw [if_neg hn]
      simp [hn]

/-- Returning to a method-handle call site of a compiled method, the frame gets
its unextended SP from the frame-pointer slot and keeps every other field. -/
theorem adjust_unextended_sp_effect_witness :
    adjust_unextended_sp {} demo_mh_frame = .ok { demo_mh_frame with _unextended_sp := 1040 } :=
  adjust_unextended_sp_effect {} demo_mh_frame
    (fun nm h _ => (by cases h; exact ⟨fun h1 => (by cases h1), fun _ h2 => (by cases h2)⟩))


/-- C27: clearing the mdp of an interpreted frame whose bcx is stored as an index
does not complete: after the `NULL` is stored, `interpreter_frame_set_mdp` goes
on to the check of the bcx, which fails with "should not set mdp during GC". -/
theorem interpreter_frame_set_mdp_clear_asserts :
    demo_interp_frame.is_interpreted_frame demo_interp_vm = true ∧
    demo_interp_vm.is_bci (interpreter_frame_bcx demo_interp_vm demo_index_stack
      demo_interp_frame) = true ∧
    interpreter_frame_set_mdp demo_interp_vm demo_index_stack demo_interp_frame NULL =
      .error "should not set mdp during GC" :=
  ⟨rfl, by decide, rfl⟩

/-- C30: a frame whose code blob is the shared ricochet blob but whose pc is not
the bounce address is handed to `oops_ricochet_do` by `oops_code_blob_do`, and
the assertion `is_ricochet_frame()` fails there. -/
theorem oops_code_blob_do_ricochet_assertion_fails :
    same_blob demo_ricochet_frame._cb demo_ricochet_vm.ricochet_blob = true ∧
    demo_ricochet_frame.is_ricochet_frame demo_ricochet_vm = false ∧
    oops_code_blob_do demo_ricochet_vm {} demo_ricochet_frame false
      (new_RegisterMap demo_thread false) = .error "" :=
  ⟨rfl, rfl, rfl⟩

/-- C29: with interpreter profiling on, `interpreter_frame_set_bcx` completes for
every new bcx value and preserves the invariant "mdx is 0, or mdx is in index
form exactly when bcx is": an mdx of 0 stays 0 and a non-zero mdx stays
non-zero (`dp_to_di` giving a non-negative index and `di_to_dp` a non-null
pointer). -/
theorem set_bcx_preserves_mdx_form (vm : VM) (M : Machine) (F : frame) (v : Int)
    (m : methodOop) (mdo : methodDataOop)
    (hi : F.is_interpreted_frame vm = true) (hd : slots_distinct vm F)
    (hp : vm.ProfileInterpreter = true)
    (hm : interpreter_frame_method vm M F = .ok m) (hmdo : m.method_data = some mdo)
    (hdi : vm.is_bci (interpreter_frame_bcx vm M F) = false →
      0 ≤ mdo.dp_to_di (interpreter_frame_mdx vm M F))
    (hnn : ∀ di, 0 ≤ di → mdo.di_to_dp di ≠ 0)
    (hinv : mdx_form_invariant vm mdo (interpreter_frame_bcx vm M F)
      (interpreter_frame_mdx vm M F)) :
    ∃ M1, interpreter_frame_set_bcx vm M F v = .ok M1 ∧
      interpreter_frame_bcx vm M1 F = v ∧
      mdx_form_invariant vm mdo v (interpreter_frame_mdx vm M1 F) ∧
      (interpreter_frame_mdx vm M F = 0 → interpreter_frame_mdx vm M1 F = 0) ∧
      (interpreter_frame_mdx vm M F ≠ 0 → interpreter_frame_mdx vm M1 F ≠ 0) := by
  by_cases hx : interpreter_frame_mdx vm M F = 0
  · refine ⟨_, set_bcx_no_mdx vm M F v hi hd (Or.inr hx), bcx_store_bcx vm M F v, ?_, ?_, ?_⟩
    · left
      rw [mdx_store_bcx vm M F v hd]
      exact hx
    · intro _
      rw [mdx_store_bcx vm M F v hd]
      exact hx
    · intro h
      exact absurd hx h
  · by_cases hform : vm.is_bci (interpreter_frame_bcx vm M F) = vm.is_bci v
    · refine ⟨_, set_bcx_same_form vm M F v hi hform, bcx_store_bcx vm M F v, ?_, ?_, ?_⟩
      · rw [mdx_store_bcx vm M F v hd]
        unfold mdx_form_invariant at hinv ⊢
        rw [← hform]
        exact hinv
      · intro h
        exact absurd h hx
      · intro _
        rw [mdx_store_bcx vm M F v hd]
        exact hx
    · by_cases hold : vm.is_bci (interpreter_frame_bcx vm M F) = true
      · have hnew : vm.is_bci v = false := by
          cases h : vm.is_bci v
          · rfl
          · rw [hold, h] at hform
            exact absurd rfl hform
        have hidx : ∃ di, 0 ≤ di ∧ interpreter_frame_mdx vm M F = di + 1 := by
          unfold mdx_form_invariant at hinv
          rcases hinv with h0 | h
          · exact absurd h0 hx
          · rw [if_pos hold] at h
            exact h
        obtain ⟨di, hdi0, hdi1⟩ := hidx
        have hsub : interpreter_frame_mdx vm M F - 1 = di := by omega
        refine ⟨_, set_bcx_to_bcp vm M F v m mdo hi hd hp hx hm hmdo hold hnew, ?_, ?_, ?_, ?_⟩
        · rw [bcx_store_mdx vm _ F _ hd, bcx_store_bcx]
        · rw [mdx_store_mdx, hsub]
          right
          rw [if_neg (by rw [hnew]; simp)]
          exact ⟨di, hdi0, rfl⟩
        · intro h
          exact absurd h hx
        · intro _
          rw [mdx_store_mdx, hsub]
          exact hnn di hdi0
      · have hold1 : vm.is_bci (interpreter_frame_bcx vm M F) = false := by
          simpa using hold
        have hnew : vm.is_bci v = true := by
          cases h : vm.is_bci v
          · rw [hold1, h] at hform
            exact absurd rfl hform
          · rfl
        have hnonneg := hdi hold1
        refine ⟨_, set_bcx_to_bci vm M F v m mdo hi hd hp hx hm hmdo hold1 hnew, ?_, ?_, ?_, ?_⟩
        · rw [bcx_store_mdx vm _ F _ hd, bcx_store_bcx]
        · rw [mdx_store_mdx]
          right
          rw [if_pos hnew]
          exact ⟨_, hnonneg, rfl⟩
        · intro h
          exact absurd h hx
        · intro _
          rw [mdx_store_mdx]
          omega

/-- A frame at bytecode index 5 with data index 2 (mdx 3) is moved to the
bytecode address 100007: the call completes and leaves a non-zero mdx in
pointer form. -/
theorem set_bcx_preserves_mdx_form_witness :
    ∃ M1, interpreter_frame_set_bcx demo_interp_vm demo_index_stack demo_interp_frame 100007 =
        .ok M1 ∧
      interpreter_frame_bcx demo_interp_vm M1 demo_interp_frame = 100007 ∧
      mdx_form_invariant demo_interp_vm demo_profile 100007
        (interpreter_frame_mdx demo_interp_vm M1 demo_interp_frame) ∧
      (interpreter_frame_mdx demo_interp_vm demo_index_stack demo_interp_frame = 0 →
        interpreter_frame_mdx demo_interp_vm M1 demo_interp_frame = 0) ∧
      (interpreter_frame_mdx demo_interp_vm demo_index_stack demo_interp_frame ≠ 0 →
        interpreter_frame_mdx demo_interp_vm M1 demo_interp_frame ≠ 0) :=
  set_bcx_preserves_mdx_form demo_interp_vm demo_index_stack demo_interp_frame 100007
    demo_method demo_profile
    rfl ⟨by decide, by decide, by decide⟩ rfl rfl rfl
    (fun h => absurd h (by decide))
    (fun di h => (by show di + 200000 ≠ 0; omega))
    (Or.inr ⟨2, by decide, by decide⟩)


/-- The interpreted finder, its constructor's assertion passing, visits the slots
at the expected argument offsets from the top of stack. -/
theorem interpreted_finder_visits (vm : VM) (M : Machine) (F : frame)
    (signature : List BasicType) (has_receiver : Bool)
    (hfit : F.is_interpreted_frame vm = true →
      ArgumentSizeComputer vm signature + (if has_receiver then 1 else 0) ≤
        F.interpreter_frame_expression_stack_size vm M) :
    oops_interpreted_arguments_do vm M F signature has_receiver =
      .ok ((argument_offsets vm signature has_receiver).map (F.interpreter_frame_tos_at vm M)) := by
  unfold oops_interpreted_arguments_do InterpretedArgumentOopFinder.create
  have hc : (!(!F.is_interpreted_frame vm ||
      decide (ArgumentSizeComputer vm signature + (if has_receiver then 1 else 0) ≤
        F.interpreter_frame_expression_stack_size vm M))) = false := by
    cases hi : F.is_interpreted_frame vm
    · simp
    · simpa using hfit hi
  simp only [hc, Bool.false_eq_true, if_false]
  unfold InterpretedArgumentOopFinder.oops_do
  cases has_receiver
  · simp only [Bool.false_eq_true, if_false, add_zero]
    rw [interpreted_iterate_parameters vm M F signature _ rfl]
    simp [argument_offsets]
  · simp only [if_true]
    rw [interpreted_iterate_parameters vm M F signature _ (by
      simp [InterpretedArgumentOopFinder.oop_offset_do])]
    simp [argument_offsets, InterpretedArgumentOopFinder.oop_offset_do]

/-- The entry-frame finder visits the slots at the expected argument offsets from
the unextended sp. -/
theorem entry_finder_visits (vm : VM) (E : frame) (signature : List BasicType)
    (is_static : Bool) (hsz : ∀ t, 1 ≤ vm.type2size t)
    (href : ∀ t, is_reference_type t = true → vm.type2size t = 1) :
    EntryFrameOopFinder.arguments_do vm E signature is_static
        (EntryFrameOopFinder.create vm signature) =
      .ok { _offset := -1
            visited := (argument_offsets vm signature (!is_static)).map
              (E.entry_frame_argument_at vm) } := by
  unfold EntryFrameOopFinder.arguments_do EntryFrameOopFinder.create
  have h0 := ArgumentSizeComputer_nonneg vm hsz signature
  cases is_static
  · have hge : (!decide (ArgumentSizeComputer vm signature - 1 + 1 ≥ 0)) = false := by
      simp only [Bool.not_eq_false', decide_eq_true_eq]
      omega
    simp only [Bool.not_false, if_true, EntryFrameOopFinder.oop_at_offset_do, hge,
      Bool.false_eq_true, if_false]
    rw [entry_iterate_parameters vm E hsz href _ _ rfl]
    simp [argument_offsets]
  · simp only [Bool.not_true, Bool.false_eq_true, if_false]
    rw [entry_iterate_parameters vm E hsz href _ _ rfl]
    simp [argument_offsets]

/-- C28: for every signature and receiver flag the interpreted finder (offsets
from the interpreter top of stack) and the entry-frame finder with
`is_static = !has_receiver` (offsets from the entry frame's unextended sp)
visit the same sequence of argument offsets, the receiver first at the total
parameter size, then each reference parameter at the total size of the
parameters after it; and `interpreter_callee_receiver_addr` is the slot the
interpreted finder visits first when there is a receiver. -/
theorem argument_finders_agree (vm : VM) (M : Machine) (F E : frame)
    (signature : List BasicType) (has_receiver : Bool)
    (hsz : ∀ t, 1 ≤ vm.type2size t)
    (href : ∀ t, is_reference_type t = true → vm.type2size t = 1)
    (hfit : F.is_interpreted_frame vm = true →
      ArgumentSizeComputer vm signature + (if has_receiver then 1 else 0) ≤
        F.interpreter_frame_expression_stack_size vm M) :
    oops_interpreted_arguments_do vm M F signature has_receiver =
      .ok ((argument_offsets vm signature has_receiver).map (F.interpreter_frame_tos_at vm M)) ∧
    EntryFrameOopFinder.arguments_do vm E signature (!has_receiver)
        (EntryFrameOopFinder.create vm signature) =
      .ok { _offset := -1
            visited := (argument_offsets vm signature has_receiver).map
              (E.entry_frame_argument_at vm) } ∧
    argument_offsets vm signature has_receiver =
      (if has_receiver then [ArgumentSizeComputer vm signature] else []) ++
        reference_offsets vm signature ∧
    (has_receiver = true →
      ((argument_offsets vm signature has_receiver).map
        (F.interpreter_frame_tos_at vm M)).head? =
        some (F.interpreter_callee_receiver_addr vm M signature)) := by
  refine ⟨interpreted_finder_visits vm M F signature has_receiver hfit, ?_, rfl, ?_⟩
  · have h := entry_finder_visits vm E signature (!has_receiver) hsz href
    rw [Bool.not_not] at h
    exact h
  · intro hr
    subst hr
    simp [argument_offsets, interpreter_callee_receiver_addr]

/-- A call with a receiver, an object, an int and an object: both finders visit
offsets 3, 2 and 0, and the receiver slot is the one three elements from the
top of stack. -/
theorem argument_finders_agree_witness :
    oops_interpreted_arguments_do demo_interp_vm {} demo_interp_frame
        [BasicType.T_OBJECT, BasicType.T_INT, BasicType.T_OBJECT] true =
      .ok [1056, 1048, 1032] ∧
    EntryFrameOopFinder.arguments_do demo_interp_vm demo_entry_frame
        [BasicType.T_OBJECT, BasicType.T_INT, BasicType.T_OBJECT] (!true)
        (EntryFrameOopFinder.create demo_interp_vm
          [BasicType.T_OBJECT, BasicType.T_INT, BasicType.T_OBJECT]) =
      .ok { _offset := -1, visited := [2024, 2016, 2000] } ∧
    argument_offsets demo_interp_vm
        [BasicType.T_OBJECT, BasicType.T_INT, BasicType.T_OBJECT] true = [3, 2, 0] ∧
    (true = true →
      ([1056, 1048, 1032] : List Int).head? =
        some (demo_interp_frame.interpreter_callee_receiver_addr demo_interp_vm {}
          [BasicType.T_OBJECT, BasicType.T_INT, BasicType.T_OBJECT])) :=
  argument_finders_agree demo_interp_vm {} demo_interp_frame demo_entry_frame
    [BasicType.T_OBJECT, BasicType.T_INT, BasicType.T_OBJECT] true
    (fun t => (by cases t <;> decide))
    (fun t h => (by cases t <;> first | rfl | cases h))
    (fun _ => (by decide))


/-- With one-word stack elements and a word-aligned stack, element `k >= 0` of the
expression stack is below the stack's size exactly when its address lies in the
live expression stack, and exactly when the in-stack test of the oop-map
closure accepts its address. -/
theorem expression_stack_slot_live (vm : VM) (M : Machine) (F : frame) (k : Int) (hk : 0 ≤ k)
    (hws : 0 < vm.wordSize)
    (hdir : vm.interpreter_frame_expression_stack_direction = -1 ∨
      vm.interpreter_frame_expression_stack_direction = 1)
    (hew : vm.stackElementWords = 1)
    (halign : vm.wordSize ∣
      vm.interpreter_frame_expression_stack M F - vm.interpreter_frame_tos_address M F) :
    (k < F.interpreter_frame_expression_stack_size vm M ↔
      in_live_expression_stack vm M F (F.interpreter_frame_expression_stack_at vm M k)) ∧
    (k < F.interpreter_frame_expression_stack_size vm M ↔
      (if vm.interpreter_frame_expression_stack_direction > 0 then
        decide (F.interpreter_frame_expression_stack_at vm M k ≤
          vm.interpreter_frame_tos_address M F)
      else decide (F.interpreter_frame_expression_stack_at vm M k ≥
          vm.interpreter_frame_tos_address M F)) = true) := by
  obtain ⟨q, hq⟩ := halign
  have hne : vm.wordSize ≠ 0 := ne_of_gt hws
  have h3 : 0 ≤ k * vm.wordSize := Int.mul_nonneg hk (le_of_lt hws)
  unfold interpreter_frame_expression_stack_size interpreter_frame_expression_stack_at
    in_live_expression_stack
  simp only [hew, Int.tdiv_one]
  rcases hdir with hd | hd
  · rw [hd]
    have e : vm.interpreter_frame_expression_stack M F + k * -1 * 1 * vm.wordSize =
        vm.interpreter_frame_expression_stack M F - k * vm.wordSize := by ring
    rw [e, hq, Int.mul_tdiv_cancel_left q hne, if_pos (by decide), if_pos (by decide),
      if_neg (by decide), decide_eq_true_eq]
    have h1 : k ≤ q → k * vm.wordSize ≤ q * vm.wordSize :=
      fun h => Int.mul_le_mul_of_nonneg_right h (le_of_lt hws)
    have h2 : q + 1 ≤ k → (q + 1) * vm.wordSize ≤ k * vm.wordSize :=
      fun h => Int.mul_le_mul_of_nonneg_right h (le_of_lt hws)
    rw [Int.add_mul, Int.one_mul] at h2
    rw [Int.mul_comm vm.wordSize q] at hq
    refine ⟨⟨fun h => ?_, fun h => ?_⟩, ⟨fun h => ?_, fun h => ?_⟩⟩
    · have := h1 (by omega)
      omega
    · by_contra hc
      have := h2 (by omega)
      omega
    · have := h1 (by omega)
      omega
    · by_contra hc
      have := h2 (by omega)
      omega
  · rw [hd]
    have e : vm.interpreter_frame_expression_stack M F + k * 1 * 1 * vm.wordSize =
        vm.interpreter_frame_expression_stack M F + k * vm.wordSize := by ring
    have hq1 : vm.interpreter_frame_tos_address M F - vm.interpreter_frame_expression_stack M F =
        vm.wordSize * (-q) := by
      rw [Int.mul_neg, ← hq]
      ring
    rw [e, hq1, Int.mul_tdiv_cancel_left (-q) hne, if_neg (by decide), if_neg (by decide),
      if_pos (by decide), decide_eq_true_eq]
    have h1 : k ≤ -q → k * vm.wordSize ≤ -q * vm.wordSize :=
      fun h => Int.mul_le_mul_of_nonneg_right h (le_of_lt hws)
    have h2 : -q + 1 ≤ k → (-q + 1) * vm.wordSize ≤ k * vm.wordSize :=
      fun h => Int.mul_le_mul_of_nonneg_right h (le_of_lt hws)
    rw [Int.add_mul, Int.one_mul] at h2
    rw [Int.mul_comm vm.wordSize (-q)] at hq1
    refine ⟨⟨fun h => ?_, fun h => ?_⟩, ⟨fun h => ?_, fun h => ?_⟩⟩
    · have := h1 (by omega)
      omega
    · by_contra hc
      have := h2 (by omega)
      omega
    · have := h1 (by omega)
      omega
    · by_contra hc
      have := h2 (by omega)
      omega


/-- C25: `InterpreterFrameClosure::offset_do` visits the local slot when
`offset < max_locals` (the slot being inside the frame, as asserted), and for
`offset >= max_locals` it visits expression-stack slot `k = offset - max_locals`
exactly when its address is inside the live expression stack, which coincides
with `k < interpreter_frame_expression_stack_size()`; a slot beyond the live
stack is skipped without an error. -/
theorem offset_do_visits (vm : VM) (M : Machine) (blk : InterpreterFrameClosure)
    (offset : Int) (hws : 0 < vm.wordSize)
    (hdir : vm.interpreter_frame_expression_stack_direction = -1 ∨
      vm.interpreter_frame_expression_stack_direction = 1)
    (hew : vm.stackElementWords = 1)
    (halign : vm.wordSize ∣
      vm.interpreter_frame_expression_stack M blk._fr -
        vm.interpreter_frame_tos_address M blk._fr)
    (hlocal : offset < blk._max_locals →
      blk._fr._sp ≤ blk._fr.interpreter_frame_local_at vm M offset) :
    (offset < blk._max_locals →
      blk.offset_do vm M offset = .ok [blk._fr.interpreter_frame_local_at vm M offset]) ∧
    (blk._max_locals ≤ offset →
      blk.offset_do vm M offset =
        .ok (if offset - blk._max_locals < blk._fr.interpreter_frame_expression_stack_size vm M
          then [blk._fr.interpreter_frame_expression_stack_at vm M (offset - blk._max_locals)]
          else []) ∧
      (offset - blk._max_locals < blk._fr.interpreter_frame_expression_stack_size vm M ↔
        in_live_expression_stack vm M blk._fr
          (blk._fr.interpreter_frame_expression_stack_at vm M (offset - blk._max_locals)))) := by
  refine ⟨fun h => ?_, fun h => ?_⟩
  · have hl := hlocal h
    unfold InterpreterFrameClosure.offset_do
    rw [if_pos h]
    simp only []
    rw [if_neg (by simpa using hl)]
  · have hk : 0 ≤ offset - blk._max_locals := by omega
    obtain ⟨hlive, htest⟩ :=
      expression_stack_slot_live vm M blk._fr (offset - blk._max_locals) hk hws hdir hew halign
    refine ⟨?_, hlive⟩
    unfold InterpreterFrameClosure.offset_do
    rw [if_neg (by omega)]
    simp only []
    by_cases hs : offset - blk._max_locals < blk._fr.interpreter_frame_expression_stack_size vm M
    · rw [if_pos (htest.mp hs), if_pos hs]
    · rw [if_neg (fun hc => hs (htest.mpr hc)), if_neg hs]

/-- With two locals and five live stack elements, oop-map offset 3 is stack
element 1: it is live and its slot, one word below the stack's base, is visited. -/
theorem offset_do_visits_witness :
    demo_closure.offset_do demo_interp_vm {} 3 = .ok [1056] ∧
    ((3 : Int) - 2 < demo_interp_frame.interpreter_frame_expression_stack_size demo_interp_vm {} ↔
      in_live_expression_stack demo_interp_vm {} demo_interp_frame 1056) :=
  (offset_do_visits demo_interp_vm {} demo_closure 3 (by decide) (Or.inl rfl) rfl
    ⟨4, by decide⟩ (fun h => absurd h (by decide))).2 (by decide)


/-- Every expected argument offset lies from 0 up to the size of the arguments,
the receiver included, less one. -/
theorem argument_offsets_range (vm : VM) (hsz : ∀ t, 1 ≤ vm.type2size t)
    (signature : List BasicType) (has_receiver : Bool) (x : Int)
    (hx : x ∈ argument_offsets vm signature has_receiver) :
    0 ≤ x ∧ x < ArgumentSizeComputer vm signature + (if has_receiver then 1 else 0) := by
  have h0 := ArgumentSizeComputer_nonneg vm hsz signature
  unfold argument_offsets at hx
  rw [List.mem_append] at hx
  rcases hx with hx | hx
  · cases has_receiver
    · simp at hx
    · simp only [if_true, List.mem_singleton] at hx
      simp only [if_true]
      omega
  · have := reference_offsets_lt vm hsz signature x hx
    cases has_receiver
    · simp only [Bool.false_eq_true, if_false]
      omega
    · simp only [if_true]
      omega

/-- With one-word stack elements on a stack that grows down and is word aligned,
the slot `x` elements from the top of stack lies in the live expression stack
when `x` is from 0 up to the stack's size less one. -/
theorem tos_slot_live (vm : VM) (M : Machine) (F : frame) (x : Int)
    (hws : 0 < vm.wordSize)
    (hdir : vm.interpreter_frame_expression_stack_direction = -1)
    (hew : vm.stackElementWords = 1)
    (hoff : ∀ i, vm.expr_offset_in_bytes i = i * vm.wordSize)
    (halign : vm.wordSize ∣
      vm.interpreter_frame_expression_stack M F - vm.interpreter_frame_tos_address M F)
    (hx0 : 0 ≤ x) (hx1 : x < F.interpreter_frame_expression_stack_size vm M) :
    in_live_expression_stack vm M F (F.interpreter_frame_tos_at vm M x) := by
  obtain ⟨q, hq⟩ := halign
  have hne : vm.wordSize ≠ 0 := ne_of_gt hws
  have h3 : 0 ≤ x * vm.wordSize := Int.mul_nonneg hx0 (le_of_lt hws)
  unfold interpreter_frame_expression_stack_size at hx1
  rw [hdir, if_pos (by decide), hew, Int.tdiv_one, hq, Int.mul_tdiv_cancel_left q hne] at hx1
  unfold in_live_expression_stack interpreter_frame_tos_at
  simp only []
  rw [hdir, if_pos (by decide), hoff x, Int.mul_tdiv_cancel x hne]
  have h1 : x * vm.wordSize ≤ q * vm.wordSize :=
    Int.mul_le_mul_of_nonneg_right (by omega) (le_of_lt hws)
  rw [Int.mul_comm vm.wordSize q] at hq
  constructor
  · omega
  · omega

/-- C22: at a call site `frame::oops_interpreted_do` visits no callee-argument
slot when the expression stack is empty; when it is non-empty and the arguments
fit on it, it visits the slots at the expected argument offsets, each inside
the live expression stack; when it is non-empty and the arguments do not fit,
nothing is skipped: the assertion "args cannot be on stack anymore" fails. -/
theorem call_site_arguments_within_stack (vm : VM) (M : Machine) (map : RegisterMap)
    (F : frame) (m : methodOop) (bci : Int)
    (hi : F.is_interpreted_frame vm = true)
    (hws : 0 < vm.wordSize)
    (hdir : vm.interpreter_frame_expression_stack_direction = -1)
    (hew : vm.stackElementWords = 1)
    (hoff : ∀ i, vm.expr_offset_in_bytes i = i * vm.wordSize)
    (halign : vm.wordSize ∣
      vm.interpreter_frame_expression_stack M F - vm.interpreter_frame_tos_address M F)
    (hsz : ∀ t, 1 ≤ vm.type2size t) :
    (F.interpreter_frame_expression_stack_size vm M ≤ 0 →
      oops_interpreted_do_call_site vm M map F m bci = .ok []) ∧
    (∀ signature has_receiver, m.is_native = false →
      m.invoke_at bci = some (signature, has_receiver) →
      map._include_argument_oops = true →
      0 < F.interpreter_frame_expression_stack_size vm M →
      (ArgumentSizeComputer vm signature + (if has_receiver then 1 else 0) ≤
          F.interpreter_frame_expression_stack_size vm M →
        oops_interpreted_do_call_site vm M map F m bci =
          .ok ((argument_offsets vm signature has_receiver).map
            (F.interpreter_frame_tos_at vm M)) ∧
        ∀ a ∈ (argument_offsets vm signature has_receiver).map
            (F.interpreter_frame_tos_at vm M),
          in_live_expression_stack vm M F a) ∧
      (F.interpreter_frame_expression_stack_size vm M <
          ArgumentSizeComputer vm signature + (if has_receiver then 1 else 0) →
        oops_interpreted_do_call_site vm M map F m bci =
          .error "args cannot be on stack anymore")) := by
  refine ⟨fun hempty => ?_, fun signature has_receiver hnat hinv hinc hpos => ⟨fun hfit => ?_,
    fun hbig => ?_⟩⟩
  · unfold oops_interpreted_do_call_site
    have hc : (map._include_argument_oops &&
        decide (F.interpreter_frame_expression_stack_size vm M > 0)) = false := by
      rw [Bool.and_eq_false_iff]
      right
      rw [decide_eq_false_iff_not]
      omega
    split
    · split
      · rw [hc]
        rfl
      · rfl
    · rfl
  · have hc : (map._include_argument_oops &&
        decide (F.interpreter_frame_expression_stack_size vm M > 0)) = true := by
      rw [Bool.and_eq_true, decide_eq_true_eq]
      exact ⟨hinc, hpos⟩
    refine ⟨?_, ?_⟩
    · unfold oops_interpreted_do_call_site
      simp only [hnat, hinv, hc, Bool.not_false, if_true]
      exact interpreted_finder_visits vm M F signature has_receiver (fun _ => hfit)
    · intro a ha
      rw [List.mem_map] at ha
      obtain ⟨x, hx, rfl⟩ := ha
      have hr := argument_offsets_range vm hsz signature has_receiver x hx
      exact tos_slot_live vm M F x hws hdir hew hoff halign hr.1 (by omega)
  · have hc : (map._include_argument_oops &&
        decide (F.interpreter_frame_expression_stack_size vm M > 0)) = true := by
      rw [Bool.and_eq_true, decide_eq_true_eq]
      exact ⟨hinc, hpos⟩
    unfold oops_interpreted_do_call_site
    simp only [hnat, hinv, hc, Bool.not_false, if_true]
    unfold oops_interpreted_arguments_do InterpretedArgumentOopFinder.create
    have hd : (!(!F.is_interpreted_frame vm ||
        decide (ArgumentSizeComputer vm signature + (if has_receiver then 1 else 0) ≤
          F.interpreter_frame_expression_stack_size vm M))) = true := by
      rw [hi]
      simp only [Bool.not_true, Bool.false_or, Bool.not_eq_true', decide_eq_false_iff_not]
      omega
    simp only [hd, if_true]


/-- A call site with four argument slots on an expression stack of five
elements: the slots of the receiver and of the two object arguments, 3, 2 and
0 elements from the top of stack, are visited, all inside the live stack. -/
theorem call_site_arguments_within_stack_witness :
    oops_interpreted_do_call_site demo_interp_vm {} (new_RegisterMap demo_thread false)
        demo_interp_frame demo_caller 7 = .ok [1056, 1048, 1032] ∧
    ∀ a ∈ ([1056, 1048, 1032] : List Int),
      in_live_expression_stack demo_interp_vm {} demo_interp_frame a :=
  ((call_site_arguments_within_stack demo_interp_vm {} (new_RegisterMap demo_thread false)
      demo_interp_frame demo_caller 7 rfl (by decide) rfl rfl
      (fun i => (by show 8 * i = i * 8; omega)) ⟨4, by decide⟩
      (fun t => (by cases t <;> decide))).2
    [BasicType.T_OBJECT, BasicType.T_INT, BasicType.T_OBJECT] true rfl rfl rfl
    (by decide)).1 (by decide)

/-- C22, the claim as stated fails: at a call site whose arguments take four
slots, on an expression stack that holds one element, no slot is skipped; the
finder's assertion "args cannot be on stack anymore" fails. -/
theorem call_site_arguments_do_not_fit :
    demo_shallow_frame.interpreter_frame_expression_stack_size demo_interp_vm {} = 1 ∧
    oops_interpreted_do_call_site demo_interp_vm {} (new_RegisterMap demo_thread false)
        demo_shallow_frame demo_caller 7 = .error "args cannot be on stack anymore" :=
  ⟨by decide, rfl⟩


/-- The loop of the search for the first Java frame calls `sender` only right after
the validator accepted the same frame, ends with the empty frame when the
validator rejects a frame, and returns the empty frame or a Java frame. -/
theorem profile_find_loop_spec (vm : VM) (M : Machine) (thread : JavaThread) :
    ∀ (fuel : Nat) (map : RegisterMap) (S : frame),
      steps_guarded (profile_find_loop vm M thread fuel map S).events ∧
      (∀ G, ProfileEvent.validated G false ∈ (profile_find_loop vm M thread fuel map S).events →
        (profile_find_loop vm M thread fuel map S).result = .ok empty_frame) ∧
      (∀ R, (profile_find_loop vm M thread fuel map S).result = .ok R →
        R = empty_frame ∨ R.is_java_frame vm = true) := by
  intro fuel
  induction fuel with
  | zero =>
    intro map S
    unfold profile_find_loop
    exact ⟨trivial, fun G h => (by cases h), fun R h => (by cases h)⟩
  | succ n ih =>
    intro map S
    unfold profile_find_loop
    split
    · exact ⟨trivial, fun G h => (by cases h), fun R h => (by cases h)⟩
    · refine ⟨by simp [steps_guarded], fun G h => rfl, fun R h => ?_⟩
      cases h
      exact Or.inl rfl
    · split
      · refine ⟨by simp [steps_guarded], fun G h => rfl, fun R h => ?_⟩
        cases h
        exact Or.inl rfl
      · split
        · rename_i hj
          refine ⟨by simp [steps_guarded], fun G h => ?_, fun R h => ?_⟩
          · simp at h
          · cases h
            exact Or.inr hj
        · split
          · refine ⟨by simp [steps_guarded], fun G h => ?_, fun R h => (by cases h)⟩
            simp at h
          · rename_i T map1 hs
            obtain ⟨h1, h2, h3⟩ := ih map1 T
            refine ⟨?_, fun G h => ?_, fun R h => h3 R h⟩
            · simp only [ProfileRun.after, List.cons_append, List.nil_append, steps_guarded]
              exact ⟨by simp, h1⟩
            · simp only [ProfileRun.after, List.cons_append, List.nil_append,
                List.mem_cons] at h
              rcases h with h | h | h
              · cases h
              · cases h
              · exact h2 G h


/-- C21: `frame::profile_find_Java_sender_frame(thread)` calls `sender()` on a frame
only right after `safe_for_sender(thread)` returned true for that same frame;
when the validator rejects a frame it returns the empty frame; and whatever it
returns is the empty frame or a frame satisfying `is_java_frame()`. -/
theorem profile_find_Java_sender_frame_guarded (vm : VM) (M : Machine) (thread : JavaThread)
    (fuel : Nat) (F : frame) :
    steps_guarded (profile_find_Java_sender_frame vm M thread fuel F).events ∧
    (∀ G, ProfileEvent.validated G false ∈
        (profile_find_Java_sender_frame vm M thread fuel F).events →
      (profile_find_Java_sender_frame vm M thread fuel F).result = .ok empty_frame) ∧
    (∀ R, (profile_find_Java_sender_frame vm M thread fuel F).result = .ok R →
      R = empty_frame ∨ R.is_java_frame vm = true) := by
  unfold profile_find_Java_sender_frame
  simp only []
  split
  · rename_i hj
    refine ⟨trivial, fun G h => (by cases h), fun R h => ?_⟩
    cases h
    exact Or.inr hj
  · split
    · exact ⟨trivial, fun G h => (by cases h), fun R h => (by cases h)⟩
    · refine ⟨by simp [steps_guarded], fun G h => rfl, fun R h => ?_⟩
      cases h
      exact Or.inl rfl
    · split
      · refine ⟨by simp [steps_guarded], fun G h => ?_, fun R h => (by cases h)⟩
        simp at h
      · rename_i T map1 hs
        obtain ⟨h1, h2, h3⟩ := profile_find_loop_spec vm M thread fuel map1 T
        refine ⟨?_, fun G h => ?_, fun R h => h3 R h⟩
        · simp only [ProfileRun.after, List.cons_append, List.nil_append, steps_guarded]
          exact ⟨by simp, h1⟩
        · simp only [ProfileRun.after, List.cons_append, List.nil_append,
            List.mem_cons] at h
          rcases h with h | h | h
          · cases h
          · cases h
          · exact h2 G h

/-- From the frame of a runtime stub the search validates the stub's frame, steps
to its sender, validates that and returns it, a compiled Java frame. -/
theorem profile_find_Java_sender_frame_guarded_witness :
    (∃ R, (profile_find_Java_sender_frame demo_sample_vm demo_sample_stack demo_thread 4
        demo_stub_frame).result = .ok R ∧ R._sp = 1016 ∧
      R.is_java_frame demo_sample_vm = true) ∧
    steps_guarded (profile_find_Java_sender_frame demo_sample_vm demo_sample_stack demo_thread 4
      demo_stub_frame).events :=
  ⟨⟨_, rfl, rfl, rfl⟩,
    (profile_find_Java_sender_frame_guarded demo_sample_vm demo_sample_stack demo_thread 4
      demo_stub_frame).1⟩


end Hotspot
